import Mathlib

/-!
# DigitRecoginition: the `Tensor<T>` engine of `MyLib/NumCPP.h` and `MyLib/NumCpp.inl`

A shallow embedding of the tensor class (construction, row-major strides, the
broadcast shape resolver, the elementwise apply routine and `dot`), and of the
scanning loop of the CSV loader (`MyLib/CSVLoader.cpp`).

Modelling conventions.

* `std::vector<X>` is `List X`.  A `size_t` value is a natural number of at
  most `SIZE_MAX = 2^64 - 1`.  Every product and sum the source takes in
  `size_t` (the element count, the strides, the multipliers, the operand
  offsets and the buffer subscripts of `dot`) is taken modulo `2^64`
  (`szMul`, `szAdd`); quotients, remainders, maxima and loop counters cannot
  leave the range.  The `int` counters of the source are integers (`Int`)
  where the source subtracts below zero; a rank fits an `int`.
* A `throw` is an `Except.error` carrying the error kind of the specification.
  `data_.assign(n, T())` throws `std::length_error` when `n` exceeds
  `max_size()` of `std::vector<T>`; that limit depends on the element type and
  on the library, and is the parameter `MaxSize.max_size T`.  Memory exhaustion
  (`std::bad_alloc`) is outside the model: a buffer of at most `max_size()`
  elements can be allocated.
* `data_[i]` on an operand buffer is an unchecked subscript in the source.  An
  out-of-range subscript is modelled by the extra result
  `TensorError.OutOfRange`, so that "the call succeeds" also says that every
  buffer subscript of the run was in range.
* Subscripts into vectors that the routine has just sized itself, and into
  `shape_` / `strides_` under a loop bound taken from the vector's own length,
  are read with `List.getD`; `strides_` is private to the class and always
  assigned by `CalculateStrides`, so it has the length of `shape_`.
* A counted loop `for (i = 0; i < n; ++i)` is `forUp` (or `forUpM` when the
  body can fail); a loop counting down to `0` is `forDown`.
* In the CSV loader a `char` is a `Char`; the scanned `content` is a
  `List Char`, a field is a `String`.  The scanning loop, whose body may
  advance its own counter, is a recursion on the unread part of `content`.
-/

namespace NumCpp

/-! ## Loops -/

/-- Counted loop `for (i = 0; i < n; ++i) s = body i s`. -/
def forUp {σ : Type} (n : Nat) (body : Nat → σ → σ) (s : σ) : σ :=
  match n with
  | 0 => s
  | k + 1 => body k (forUp k body s)

/-- Counted loop running `body (n-1)`, ..., `body 0` in that order:
`for (i = n - 1; i >= 0; --i) s = body i s`. -/
def forDown {σ : Type} (n : Nat) (body : Nat → σ → σ) (s : σ) : σ :=
  match n with
  | 0 => s
  | k + 1 => forDown k body (body k s)

/-- Counted loop whose body may fail; the first failure leaves the loop. -/
def forUpM {ε σ : Type} (n : Nat) (body : Nat → σ → Except ε σ) (s : σ) : Except ε σ :=
  match n with
  | 0 => .ok s
  | k + 1 =>
    match forUpM k body s with
    | .ok s' => body k s'
    | .error e => .error e

/-! ## `size_t` arithmetic -/

/-- `SIZE_MAX`: the largest value of the 64-bit type `size_t`. -/
def SIZE_MAX : Nat := 2 ^ 64 - 1

/-- The product `a * b` of two `size_t` values: unsigned arithmetic wraps. -/
def szMul (a b : Nat) : Nat := (a * b) % 2 ^ 64

/-- The sum `a + b` of two `size_t` values: unsigned arithmetic wraps. -/
def szAdd (a b : Nat) : Nat := (a + b) % 2 ^ 64

/-- The capacity of `std::vector<T>`: `max_size()`, the largest element count
the vector accepts.  It is fixed by the element type and the library; it is a
`size_t` value, and a vector can hold at least one element. -/
class MaxSize (T : Type) where
  max_size : Nat
  max_size_le : max_size ≤ SIZE_MAX
  one_le_max_size : 1 ≤ max_size

/-- `std::vector<int>::max_size()` where `int` takes 4 bytes and the library
bounds the byte size by `PTRDIFF_MAX` (2^63 - 1): `(2^63 - 1) / 4`. -/
instance : MaxSize Int where
  max_size := 2 ^ 61 - 1
  max_size_le := by decide
  one_le_max_size := by decide

/-! ## Errors and buffers -/

/-- The error kinds of the tensor engine.  `LengthError` is the
`std::length_error` of `data_.assign`.  `OutOfRange` is not thrown by the
source: it stands for an unchecked buffer subscript outside the buffer. -/
inductive TensorError where
  | ShapeMismatch
  | BroadcastIncompatible
  | SizeMismatch
  | DimensionMismatch
  | UnsupportedRank
  | LengthError
  | OutOfRange
  deriving DecidableEq, Repr

/-- Subscript read `v[i]` of a buffer. -/
def rd {T : Type} (v : List T) (i : Nat) : Except TensorError T :=
  match v[i]? with
  | some x => .ok x
  | none => .error .OutOfRange

/-- Subscript write `v[i] = x` of a buffer. -/
def wr {T : Type} (v : List T) (i : Nat) (x : T) : Except TensorError (List T) :=
  if i < v.length then .ok (v.set i x) else .error .OutOfRange

/-! ## The tensor class -/

/-- The three private fields of `Tensor<T>`. -/
structure Tensor (T : Type) where
  data_ : List T
  shape_ : List Nat
  strides_ : List Nat
  deriving DecidableEq, Repr

namespace Tensor

variable {T : Type}

/-- `Size()`: the length of the buffer. -/
def Size (t : Tensor T) : Nat := t.data_.length

/-- `NDim()`: the rank. -/
def NDim (t : Tensor T) : Nat := t.shape_.length

/-- `Shape()`. -/
def Shape (t : Tensor T) : List Nat := t.shape_

/-- `NumElements()` on a shape: `0` for the empty shape, otherwise
`std::accumulate` of the sizes from `(size_t)1` with `std::multiplies<size_t>`. -/
def NumElements (shape : List Nat) : Nat :=
  if shape.isEmpty then 0 else shape.foldl (fun acc s => szMul acc s) 1

/-- `CalculateStrides()`: `strides_.assign(n, 1)`, then for `i = n-2` down to
`0`, `strides_[i] = strides_[i+1] * shape_[i+1]` in `size_t`. -/
def CalculateStrides (shape : List Nat) : List Nat :=
  forDown (shape.length - 1)
    (fun i st => st.set i (szMul (st.getD (i + 1) 1) (shape.getD (i + 1) 1)))
    (List.replicate shape.length 1)

/-- `Tensor(shape)`: the shape-only constructor.  For a non-empty shape
`data_.assign(NumElements(), T())` throws when the count exceeds `max_size()`. -/
def Tensor_shape [Zero T] [MaxSize T] (shape : List Nat) : Except TensorError (Tensor T) :=
  if shape.isEmpty then
    .ok { data_ := [], shape_ := shape, strides_ := [] }
  else if MaxSize.max_size T < NumElements shape then .error .LengthError
  else
    .ok { data_ := List.replicate (NumElements shape) 0
          shape_ := shape
          strides_ := CalculateStrides shape }

/-- `Tensor(shape, data)`: the shape-and-data constructor.  In the empty-shape
branch `strides_` keeps its default (empty) value. -/
def Tensor_shape_data (shape : List Nat) (data : List T) : Except TensorError (Tensor T) :=
  if ¬ shape.isEmpty then
    if data.length ≠ NumElements shape then .error .ShapeMismatch
    else .ok { data_ := data, shape_ := shape, strides_ := CalculateStrides shape }
  else
    if ¬ data.isEmpty ∧ data.length ≠ 1 then .error .ShapeMismatch
    else .ok { data_ := data, shape_ := shape, strides_ := [] }

/-- `BroadcastShapesImpl(a, b)`. -/
def BroadcastShapesImpl (a b : List Nat) : Except TensorError (List Nat) :=
  let na := a.length
  let nb := b.length
  let n := max na nb
  forUpM n
    (fun i out =>
      let ai := if i < n - na then 1 else a.getD (i - (n - na)) 1
      let bi := if i < n - nb then 1 else b.getD (i - (n - nb)) 1
      if ai ≠ bi ∧ ai ≠ 1 ∧ bi ≠ 1 then .error .BroadcastIncompatible
      else .ok (out.set i (max ai bi)))
    (List.replicate n 1)

/-- The alignment loop of `ApplyOperation` (lines 101-127) for one operand:
`i` runs over `0 .. nd-1`, `idx_out = nd-1-i`, and `idx = rank-1-i` is the `int`
index into the operand's `shape_` and `strides_`.  The state is the pair
(aligned shape, aligned strides). -/
def alignLoop (nd : Nat) (shape strides : List Nat) : List Nat × List Nat :=
  forUp nd
    (fun i al =>
      let idx_out : Nat := ((nd : Int) - 1 - (i : Int)).toNat
      let idx : Int := (shape.length : Int) - 1 - (i : Int)
      if idx ≥ 0 then
        (al.1.set idx_out (shape.getD idx.toNat 1), al.2.set idx_out (strides.getD idx.toNat 0))
      else
        (al.1.set idx_out 1, al.2.set idx_out 0))
    (List.replicate nd 1, List.replicate nd 0)

/-- The multipliers of `ApplyOperation` (lines 131-132):
`multipliers(nd, 1)`, then for `d = nd-2` down to `0`,
`multipliers[d] = multipliers[d+1] * out_shape[d+1]` in `size_t`. -/
def multipliers (out_shape : List Nat) : List Nat :=
  forDown (out_shape.length - 1)
    (fun d m => m.set d (szMul (m.getD (d + 1) 1) (out_shape.getD (d + 1) 1)))
    (List.replicate out_shape.length 1)

/-- The decoding loop of `ApplyOperation` (lines 137-146) for one flat output
index.  The state is `(offset_a, offset_b, rem)`; `offset += idx * stride` is
`size_t` arithmetic. -/
def decodeOffsets (nd : Nat) (mult a_shape a_strides b_shape b_strides : List Nat)
    (flat : Nat) : Nat × Nat × Nat :=
  forUp nd
    (fun d st =>
      let m := mult.getD d 1
      let idx := if m = 0 then 0 else st.2.2 / m
      let rem := if m ≠ 0 then st.2.2 % m else st.2.2
      let offset_a :=
        if a_shape.getD d 1 ≠ 1 then szAdd st.1 (szMul idx (a_strides.getD d 0)) else st.1
      let offset_b :=
        if b_shape.getD d 1 ≠ 1 then szAdd st.2.1 (szMul idx (b_strides.getD d 0)) else st.2.1
      (offset_a, offset_b, rem))
    (0, 0, flat)

/-- The fast path of `ApplyOperation` (lines 79-88), taken when the two shapes
are identical. -/
def ApplyOperationFast [Zero T] [MaxSize T] (A B : Tensor T) (operation : T → T → T) :
    Except TensorError (Tensor T) :=
  match (Tensor_shape A.shape_ : Except TensorError (Tensor T)) with
  | .error e => .error e
  | .ok out =>
    if A.data_.length ≠ out.data_.length ∨ B.data_.length ≠ out.data_.length then
      .error .SizeMismatch
    else
      match forUpM out.data_.length
          (fun i d =>
            match rd A.data_ i with
            | .error e => .error e
            | .ok x =>
              match rd B.data_ i with
              | .error e => .error e
              | .ok y => wr d i (operation x y))
          out.data_ with
      | .error e => .error e
      | .ok d => .ok { out with data_ := d }

/-- The general (broadcasting) path of `ApplyOperation` (lines 91-150). -/
def ApplyOperationGeneral [Zero T] [MaxSize T] (A B : Tensor T) (operation : T → T → T) :
    Except TensorError (Tensor T) :=
  match BroadcastShapesImpl A.shape_ B.shape_ with
  | .error e => .error e
  | .ok out_shape =>
    match (Tensor_shape out_shape : Except TensorError (Tensor T)) with
    | .error e => .error e
    | .ok out =>
      let nd := out_shape.length
      let al_a := alignLoop nd A.shape_ A.strides_
      let al_b := alignLoop nd B.shape_ B.strides_
      let mult := multipliers out_shape
      let out_elems := NumElements out.shape_
      match forUpM out_elems
          (fun flat d =>
            let off := decodeOffsets nd mult al_a.1 al_a.2 al_b.1 al_b.2 flat
            match rd A.data_ off.1 with
            | .error e => .error e
            | .ok x =>
              match rd B.data_ off.2.1 with
              | .error e => .error e
              | .ok y => wr d flat (operation x y))
          out.data_ with
      | .error e => .error e
      | .ok d => .ok { out with data_ := d }

/-- `ApplyOperation(A, B, operation)`. -/
def ApplyOperation [Zero T] [MaxSize T] (A B : Tensor T) (operation : T → T → T) :
    Except TensorError (Tensor T) :=
  if A.shape_ = B.shape_ then ApplyOperationFast A B operation
  else ApplyOperationGeneral A B operation

/-- `operator+`. -/
def add [Zero T] [MaxSize T] [Add T] (A B : Tensor T) : Except TensorError (Tensor T) :=
  ApplyOperation A B (fun x y => x + y)

/-- `operator-`. -/
def sub [Zero T] [MaxSize T] [Sub T] (A B : Tensor T) : Except TensorError (Tensor T) :=
  ApplyOperation A B (fun x y => x - y)

/-- `operator*`. -/
def mul [Zero T] [MaxSize T] [Mul T] (A B : Tensor T) : Except TensorError (Tensor T) :=
  ApplyOperation A B (fun x y => x * y)

/-- `operator/`. -/
def div [Zero T] [MaxSize T] [Div T] (A B : Tensor T) : Except TensorError (Tensor T) :=
  ApplyOperation A B (fun x y => x / y)

/-- The 1D.1D branch of `dot` (lines 76-82). -/
def dot11 [Zero T] [Add T] [Mul T] (self other : Tensor T) : Except TensorError (Tensor T) :=
  if self.shape_.getD 0 0 ≠ other.shape_.getD 0 0 then .error .DimensionMismatch
  else
    match forUpM (self.shape_.getD 0 0)
        (fun i acc =>
          match rd self.data_ i with
          | .error e => .error e
          | .ok x =>
            match rd other.data_ i with
            | .error e => .error e
            | .ok y => .ok (acc + x * y))
        (0 : T) with
    | .error e => .error e
    | .ok acc => Tensor_shape_data [1] [acc]

/-- The 2D.2D branch of `dot` (lines 85-100): the i-k-j loops accumulate into
the zero-filled output through the stored strides; each subscript
`i * strides_[0] + k * strides_[1]` is `size_t` arithmetic. -/
def dot22 [Zero T] [MaxSize T] [Add T] [Mul T] (self other : Tensor T) :
    Except TensorError (Tensor T) :=
  let M := self.shape_.getD 0 0
  let K := self.shape_.getD 1 0
  let K2 := other.shape_.getD 0 0
  let N := other.shape_.getD 1 0
  if K ≠ K2 then .error .DimensionMismatch
  else
    match (Tensor_shape [M, N] : Except TensorError (Tensor T)) with
    | .error e => .error e
    | .ok out =>
      match forUpM M
          (fun i d =>
            forUpM K
              (fun k d =>
                match rd self.data_
                    (szAdd (szMul i (self.strides_.getD 0 0))
                      (szMul k (self.strides_.getD 1 0))) with
                | .error e => .error e
                | .ok a =>
                  forUpM N
                    (fun j d =>
                      match rd other.data_
                          (szAdd (szMul k (other.strides_.getD 0 0))
                            (szMul j (other.strides_.getD 1 0))) with
                      | .error e => .error e
                      | .ok b =>
                        let o := szAdd (szMul i (out.strides_.getD 0 0))
                          (szMul j (out.strides_.getD 1 0))
                        match rd d o with
                        | .error e => .error e
                        | .ok cur => wr d o (cur + a * b))
                    d)
              d)
          out.data_ with
      | .error e => .error e
      | .ok d => .ok { out with data_ := d }

/-- The 2D.1D branch of `dot` (lines 103-115). -/
def dot21 [Zero T] [MaxSize T] [Add T] [Mul T] (self other : Tensor T) :
    Except TensorError (Tensor T) :=
  let M := self.shape_.getD 0 0
  let K := self.shape_.getD 1 0
  if K ≠ other.shape_.getD 0 0 then .error .DimensionMismatch
  else
    match (Tensor_shape [M] : Except TensorError (Tensor T)) with
    | .error e => .error e
    | .ok out =>
      match forUpM M
          (fun i d =>
            match forUpM K
                (fun k acc =>
                  match rd self.data_
                      (szAdd (szMul i (self.strides_.getD 0 0))
                        (szMul k (self.strides_.getD 1 0))) with
                  | .error e => .error e
                  | .ok x =>
                    match rd other.data_ k with
                    | .error e => .error e
                    | .ok y => .ok (acc + x * y))
                (0 : T) with
            | .error e => .error e
            | .ok acc => wr d i acc)
          out.data_ with
      | .error e => .error e
      | .ok d => .ok { out with data_ := d }

/-- The 1D.2D branch of `dot` (lines 118-131). -/
def dot12 [Zero T] [MaxSize T] [Add T] [Mul T] (self other : Tensor T) :
    Except TensorError (Tensor T) :=
  let K := self.shape_.getD 0 0
  if K ≠ other.shape_.getD 0 0 then .error .DimensionMismatch
  else
    let N := other.shape_.getD 1 0
    match (Tensor_shape [N] : Except TensorError (Tensor T)) with
    | .error e => .error e
    | .ok out =>
      match forUpM N
          (fun j d =>
            match forUpM K
                (fun k acc =>
                  match rd self.data_ k with
                  | .error e => .error e
                  | .ok x =>
                    match rd other.data_
                        (szAdd (szMul k (other.strides_.getD 0 0))
                          (szMul j (other.strides_.getD 1 0))) with
                    | .error e => .error e
                    | .ok y => .ok (acc + x * y))
                (0 : T) with
            | .error e => .error e
            | .ok acc => wr d j acc)
          out.data_ with
      | .error e => .error e
      | .ok d => .ok { out with data_ := d }

/-- `dot(other)`: the rank-pair dispatch of lines 72-134. -/
def dot [Zero T] [MaxSize T] [Add T] [Mul T] (self other : Tensor T) :
    Except TensorError (Tensor T) :=
  if self.NDim = 1 ∧ other.NDim = 1 then dot11 self other
  else if self.NDim = 2 ∧ other.NDim = 2 then dot22 self other
  else if self.NDim = 2 ∧ other.NDim = 1 then dot21 self other
  else if self.NDim = 1 ∧ other.NDim = 2 then dot12 self other
  else .error .UnsupportedRank

end Tensor

/-! ## Specification-side notions -/

/-- A shape right-aligned to length `n`: padded with leading 1s. -/
def padLeading (n : Nat) (s : List Nat) : List Nat :=
  List.replicate (n - s.length) 1 ++ s

/-- Two shapes are incompatible when some right-aligned position holds two
different sizes, neither of them 1. -/
def Incompatible (a b : List Nat) : Prop :=
  ∃ i, i < max a.length b.length ∧
    (padLeading (max a.length b.length) a).getD i 1 ≠
        (padLeading (max a.length b.length) b).getD i 1 ∧
      (padLeading (max a.length b.length) a).getD i 1 ≠ 1 ∧
      (padLeading (max a.length b.length) b).getD i 1 ≠ 1

instance (a b : List Nat) : Decidable (Incompatible a b) := by
  unfold Incompatible
  infer_instance

/-- The broadcast of two shapes: position by position the larger of the two
right-aligned sizes. -/
def broadcastShape (a b : List Nat) : List Nat :=
  List.zipWith max (padLeading (max a.length b.length) a)
    (padLeading (max a.length b.length) b)

/-- The coordinate along dimension `d` of the flat row-major index `flat` of a
tensor of the given shape. -/
def coordAt (shape : List Nat) (flat d : Nat) : Nat :=
  flat / (shape.drop (d + 1)).prod % shape.getD d 1

/-- The multi-index of the flat row-major index `flat`. -/
def coords (shape : List Nat) (flat : Nat) : List Nat :=
  (List.range shape.length).map (coordAt shape flat)

/-- The row-major flat index of a multi-index `m` in a tensor of the given
shape: each coordinate times the product of the sizes to its right. -/
def flatIndex : List Nat → List Nat → Nat
  | _ :: ss, x :: xs => x * ss.prod + flatIndex ss xs
  | _, _ => 0

/-- A multi-index lies within a shape: same length, each coordinate below the
size of its dimension. -/
def Within (m shape : List Nat) : Prop :=
  List.Forall₂ (fun x s => x < s) m shape

/-- The multi-index an operand of the given shape is read at, for the output
multi-index `m`: the last `rank` coordinates of `m`, with `0` in place of every
coordinate at which the operand's size is 1. -/
def operandIndex (shape m : List Nat) : List Nat :=
  List.zipWith (fun s x => if s = 1 then 0 else x) shape (m.drop (m.length - shape.length))

/-- An operand shape fits an output shape: it is no longer, and each of its
sizes is 1 or the output size at the right-aligned position. -/
def Fits (sa out_shape : List Nat) : Prop :=
  sa.length ≤ out_shape.length ∧
    ∀ j, j < sa.length →
      sa.getD j 1 = 1 ∨ sa.getD j 1 = out_shape.getD (out_shape.length - sa.length + j) 1

instance (sa out_shape : List Nat) : Decidable (Fits sa out_shape) := by
  unfold Fits
  infer_instance

/-- The accumulation `acc = T(); for (k = 0; k < K; ++k) acc += f k`. -/
def accum {T : Type} [Zero T] [Add T] (K : Nat) (f : Nat → T) : T :=
  forUp K (fun k acc => acc + f k) 0

/-- The value a cell of the 2D.2D output holds when the i-k-j loops stand at
`(i, k, j)`: rows before `i` are finished, row `i` has received `k` terms
(`k+1` in the columns before `j`), later rows are still zero. -/
def cellAt {T : Type} [Zero T] [Add T] (K : Nat) (f : Nat → Nat → Nat → T)
    (i k j pi pj : Nat) : T :=
  if pi < i then accum K (f pi pj)
  else if pi = i then (if pj < j then accum (k + 1) (f i pj) else accum k (f i pj))
  else 0

/-- The result shape of `dot` on the four supported rank pairs, as the
specification tabulates it: `(1,)`, `(M,N)`, `(M,)`, `(N,)`. -/
def dotShape (a b : List Nat) : List Nat :=
  match a, b with
  | [_], [_] => [1]
  | [m, _], [_, n] => [m, n]
  | [m, _], [_] => [m]
  | [_], [_, n] => [n]
  | _, _ => []

/-- A tensor built by a successful call of one of the two public constructors
on arguments of the source's types: the sizes are `size_t` values, and a
`std::vector<T>` argument holds at most `max_size()` elements. -/
def Constructed {T : Type} [Zero T] [MaxSize T] (A : Tensor T) : Prop :=
  (∃ shape, (∀ s ∈ shape, s ≤ SIZE_MAX) ∧ Tensor.Tensor_shape shape = .ok A) ∨
    (∃ shape data, (∀ s ∈ shape, s ≤ SIZE_MAX) ∧ data.length ≤ MaxSize.max_size T ∧
      Tensor.Tensor_shape_data shape data = .ok A)

/-- A tensor produced by a successful constructor call, or by a successful
elementwise operator (`+`, `-`, `*`, `/`) or a successful `dot` on produced
tensors. -/
inductive Produced {T : Type} [Zero T] [MaxSize T] [Add T] [Sub T] [Mul T] [Div T] :
    Tensor T → Prop where
  | ctor (A : Tensor T) : Constructed A → Produced A
  | add (A B C : Tensor T) : Produced A → Produced B → Tensor.add A B = .ok C → Produced C
  | sub (A B C : Tensor T) : Produced A → Produced B → Tensor.sub A B = .ok C → Produced C
  | mul (A B C : Tensor T) : Produced A → Produced B → Tensor.mul A B = .ok C → Produced C
  | div (A B C : Tensor T) : Produced A → Produced B → Tensor.div A B = .ok C → Produced C
  | dot (A B C : Tensor T) : Produced A → Produced B → Tensor.dot A B = .ok C → Produced C

/-! ## The CSV loader (`MyLib/CSVLoader.cpp`) -/

namespace CSVLoader

/-- The two failures of `ParseCSVFile`: the file cannot be opened, or the
content ends inside a quoted field. -/
inductive CsvError where
  | OpenFailed
  | UnterminatedQuote
  deriving DecidableEq, Repr

/-- The local variables of the scanning loop of `ParseCSVFile`. -/
structure ScanState where
  rows : List (List String)
  row : List String
  field : String
  in_quotes : Bool
  deriving DecidableEq, Repr

/-- The scanning loop of `ParseCSVFile` (lines 25-62).  The argument is the
unread part of `content`, from index `i` on: `c` is `content[i]`, the head of
`rest` is `content[i+1]`, and a `++i` in the body drops that head. -/
def scanLoop (delim : Char) : List Char → ScanState → ScanState
  | [], st => st
  | c :: rest, st =>
    if c = '"' then
      if st.in_quotes then
        match rest with
        | [] => { st with in_quotes := !st.in_quotes }
        | c' :: rest' =>
          if c' = '"' then scanLoop delim rest' { st with field := st.field.push '"' }
          else scanLoop delim (c' :: rest') { st with in_quotes := !st.in_quotes }
      else scanLoop delim rest { st with in_quotes := !st.in_quotes }
    else if c = delim ∧ st.in_quotes = false then
      scanLoop delim rest { st with row := st.row ++ [st.field], field := "" }
    else if (c = '\n' ∨ c = '\r') ∧ st.in_quotes = false then
      if c = '\r' then
        match rest with
        | [] => { st with rows := st.rows ++ [st.row ++ [st.field]], row := [], field := "" }
        | c' :: rest' =>
          if c' = '\n' then
            scanLoop delim rest'
              { st with rows := st.rows ++ [st.row ++ [st.field]], row := [], field := "" }
          else
            scanLoop delim (c' :: rest')
              { st with rows := st.rows ++ [st.row ++ [st.field]], row := [], field := "" }
      else
        scanLoop delim rest
          { st with rows := st.rows ++ [st.row ++ [st.field]], row := [], field := "" }
    else scanLoop delim rest { st with field := st.field.push c }

/-- `ParseCSVFile(path, delim)`; `file` is the content of the file at `path`,
or `none` when the file cannot be opened. -/
def ParseCSVFile (file : Option (List Char)) (delim : Char) :
    Except CsvError (List (List String)) :=
  match file with
  | none => .error .OpenFailed
  | some content =>
    let st := scanLoop delim content ⟨[], [], "", false⟩
    if st.in_quotes = false then
      let row := st.row ++ [st.field]
      if row.isEmpty = false then .ok (st.rows ++ [row]) else .ok st.rows
    else .error .UnterminatedQuote

/-- `FromCSV(path, delim, header)`, reduced to its returned flag: after the
emptiness test of lines 85-88 the function builds the column table from the
rows (where alone `header` is used) and returns `true`. -/
def FromCSV (file : Option (List Char)) (delim : Char) : Except CsvError Bool :=
  match ParseCSVFile file delim with
  | .error e => .error e
  | .ok rows => if rows.isEmpty then .ok false else .ok true

end CSVLoader

/-- The content ends with a line terminator character (LF or CR). -/
def endsWithTerminator (content : List Char) : Prop :=
  content.getLast? = some '\n' ∨ content.getLast? = some '\r'

/-- The quoting rule: a quote character opens or closes a quoted field, except
that inside a quoted field a doubled quote is an escaped quote character.
`endsQuoted q content` tells whether the end of `content` lies inside an open
quoted field, `q` being the state at its start. -/
def endsQuoted : Bool → List Char → Bool
  | q, [] => q
  | q, c :: rest =>
    if c = '"' then
      if q then
        match rest with
        | [] => false
        | c' :: rest' =>
          if c' = '"' then endsQuoted true rest' else endsQuoted false (c' :: rest')
      else endsQuoted true rest
    else endsQuoted q rest

/-- The number of line terminators (LF, CR, or CR immediately followed by LF,
which counts once) of `content` that lie outside quoted fields, `q` being the
quoting state at its start. -/
def lineTerminators : Bool → List Char → Nat
  | _, [] => 0
  | q, c :: rest =>
    if c = '"' then
      if q then
        match rest with
        | [] => 0
        | c' :: rest' =>
          if c' = '"' then lineTerminators true rest' else lineTerminators false (c' :: rest')
      else lineTerminators true rest
    else if q then lineTerminators true rest
    else if c = '\r' then
      match rest with
      | [] => 1
      | c' :: rest' =>
        if c' = '\n' then 1 + lineTerminators false rest'
        else 1 + lineTerminators false (c' :: rest')
    else if c = '\n' then 1 + lineTerminators false rest
    else lineTerminators false rest

/-! # Properties -/

/-! ## Loop rules -/

theorem forUp_inv {σ : Type} (P : Nat → σ → Prop) (n : Nat) (body : Nat → σ → σ) (s : σ)
    (h0 : P 0 s) (hstep : ∀ i t, i < n → P i t → P (i + 1) (body i t)) :
    P n (forUp n body s) := by
  induction n with
  | zero => exact h0
  | succ k ih =>
    exact hstep k _ (Nat.lt_succ_self k) (ih (fun i t hi hp => hstep i t (Nat.lt_succ_of_lt hi) hp))

theorem forDown_inv {σ : Type} (P : Nat → σ → Prop) (n : Nat) (body : Nat → σ → σ) (s : σ)
    (h0 : P n s) (hstep : ∀ i t, i < n → P (i + 1) t → P i (body i t)) :
    P 0 (forDown n body s) := by
  induction n generalizing s with
  | zero => exact h0
  | succ k ih =>
    exact ih (body k s) (hstep k s (Nat.lt_succ_self k) h0)
      (fun i t hi hp => hstep i t (Nat.lt_succ_of_lt hi) hp)

theorem forUpM_ok {ε σ : Type} (P : Nat → σ → Prop) (n : Nat) (body : Nat → σ → Except ε σ)
    (s : σ) (h0 : P 0 s)
    (hstep : ∀ i t, i < n → P i t → ∃ t', body i t = .ok t' ∧ P (i + 1) t') :
    ∃ t, forUpM n body s = .ok t ∧ P n t := by
  induction n with
  | zero => exact ⟨s, rfl, h0⟩
  | succ k ih =>
    obtain ⟨t, ht, hp⟩ := ih (fun i t hi hp => hstep i t (Nat.lt_succ_of_lt hi) hp)
    obtain ⟨t', ht', hp'⟩ := hstep k t (Nat.lt_succ_self k) hp
    exact ⟨t', by simp [forUpM, ht, ht'], hp'⟩

theorem forUpM_error_kind {ε σ : Type} (e0 : ε) (n : Nat) (body : Nat → σ → Except ε σ)
    (s : σ) (hkind : ∀ i t e, body i t = .error e → e = e0) (e : ε)
    (h : forUpM n body s = .error e) : e = e0 := by
  induction n with
  | zero => simp [forUpM] at h
  | succ k ih =>
    simp only [forUpM] at h
    cases hk : forUpM k body s with
    | error e' =>
      rw [hk] at h
      simp at h
      exact ih (h ▸ hk)
    | ok t =>
      rw [hk] at h
      exact hkind k t e h

theorem forUpM_fails {ε σ : Type} (n : Nat) (body : Nat → σ → Except ε σ) (s : σ)
    (i : Nat) (hi : i < n) (hbad : ∀ t, ∃ e, body i t = .error e) :
    ∃ e, forUpM n body s = .error e := by
  induction n with
  | zero => omega
  | succ k ih =>
    simp only [forUpM]
    cases hk : forUpM k body s with
    | error e' => exact ⟨e', rfl⟩
    | ok t =>
      by_cases hik : i = k
      · subst hik
        exact hbad t
      · obtain ⟨e, he⟩ := ih (by omega)
        rw [hk] at he
        cases he

theorem forUpM_eq_ok {ε σ : Type} (P : Nat → σ → Prop) (n : Nat)
    (body : Nat → σ → Except ε σ) (s r : σ) (h0 : P 0 s)
    (hstep : ∀ i t, i < n → P i t → ∃ t', body i t = .ok t' ∧ P (i + 1) t')
    (hfinal : ∀ t, P n t → t = r) : forUpM n body s = .ok r := by
  obtain ⟨t, ht, hp⟩ := forUpM_ok P n body s h0 hstep
  rw [ht, hfinal t hp]

theorem forUpM_eq_error {ε σ : Type} (e0 : ε) (n : Nat) (body : Nat → σ → Except ε σ)
    (s : σ) (i : Nat) (hi : i < n) (hbad : ∀ t, body i t = .error e0)
    (hkind : ∀ j t e, body j t = .error e → e = e0) : forUpM n body s = .error e0 := by
  obtain ⟨e, he⟩ := forUpM_fails n body s i hi (fun t => ⟨e0, hbad t⟩)
  rw [he, forUpM_error_kind e0 n body s hkind e he]

/-! ## Buffers -/

theorem rd_ok {T : Type} (v : List T) (i : Nat) (x : T) (h : v[i]? = some x) :
    rd v i = .ok x := by
  simp [rd, h]

theorem rd_of_lt {T : Type} (v : List T) (i : Nat) (h : i < v.length) :
    rd v i = .ok (v[i]) := by
  simp [rd, List.getElem?_eq_getElem h]

theorem wr_ok {T : Type} (v : List T) (i : Nat) (x : T) (h : i < v.length) :
    wr v i x = .ok (v.set i x) := by
  simp [wr, h]

theorem rd_error {T : Type} (v : List T) (i : Nat) (e : TensorError)
    (h : rd v i = .error e) : e = .OutOfRange := by
  unfold rd at h
  split at h
  · cases h
  · cases h; rfl

theorem wr_error {T : Type} (v : List T) (i : Nat) (x : T) (e : TensorError)
    (h : wr v i x = .error e) : e = .OutOfRange := by
  unfold wr at h
  split at h
  · cases h
  · cases h; rfl

/-! ## The broadcast resolver -/

theorem padLeading_length (n : Nat) (s : List Nat) (h : s.length ≤ n) :
    (padLeading n s).length = n := by
  simp [padLeading]; omega

theorem padLeading_getD (n : Nat) (s : List Nat) (i : Nat) :
    (padLeading n s).getD i 1 =
      if i < n - s.length then 1 else s.getD (i - (n - s.length)) 1 := by
  simp only [padLeading, List.getD_eq_getElem?_getD]
  by_cases h : i < n - s.length
  · rw [List.getElem?_append_left (by simpa using h)]
    simp [h]
  · rw [List.getElem?_append_right (by simpa using h)]
    simp [h]

theorem broadcastShape_length (a b : List Nat) :
    (broadcastShape a b).length = max a.length b.length := by
  simp [broadcastShape, padLeading_length]

theorem broadcastShape_getElem? (a b : List Nat) (i : Nat) (hi : i < max a.length b.length) :
    (broadcastShape a b)[i]? =
      some (max ((padLeading (max a.length b.length) a).getD i 1)
        ((padLeading (max a.length b.length) b).getD i 1)) := by
  have ha : i < (padLeading (max a.length b.length) a).length := by
    rw [padLeading_length _ _ (le_max_left _ _)]; exact hi
  have hb : i < (padLeading (max a.length b.length) b).length := by
    rw [padLeading_length _ _ (le_max_right _ _)]; exact hi
  simp [broadcastShape, List.getElem?_zipWith, List.getElem?_eq_getElem ha,
    List.getElem?_eq_getElem hb]

/-- Closed form of the resolver on compatible shapes. -/
theorem BroadcastShapesImpl_compatible (a b : List Nat) (h : ¬ Incompatible a b) :
    Tensor.BroadcastShapesImpl a b = .ok (broadcastShape a b) := by
  simp only [Tensor.BroadcastShapesImpl]
  apply forUpM_eq_ok (fun k (out : List Nat) => out.length = max a.length b.length ∧
      ∀ i, i < k → out[i]? = (broadcastShape a b)[i]?)
  · exact ⟨by simp, by intro i hi; omega⟩
  · intro i t hi ⟨hlen, hget⟩
    have hcomp : ¬ ((padLeading (max a.length b.length) a).getD i 1 ≠
          (padLeading (max a.length b.length) b).getD i 1 ∧
        (padLeading (max a.length b.length) a).getD i 1 ≠ 1 ∧
        (padLeading (max a.length b.length) b).getD i 1 ≠ 1) :=
      fun hc => h ⟨i, hi, hc⟩
    rw [padLeading_getD, padLeading_getD] at hcomp
    refine ⟨_, if_neg hcomp, by simpa using hlen, ?_⟩
    intro j hj
    by_cases hji : j = i
    · subst hji
      rw [List.getElem?_set_self (by omega), broadcastShape_getElem? a b j hi,
        padLeading_getD, padLeading_getD]
    · rw [List.getElem?_set_ne (by omega)]
      exact hget j (by omega)
  · intro t ⟨hlen, hget⟩
    apply List.ext_getElem?
    intro i
    by_cases hi : i < max a.length b.length
    · exact hget i hi
    · rw [List.getElem?_eq_none (by omega),
        List.getElem?_eq_none (by rw [broadcastShape_length]; omega)]

/-- The resolver throws on incompatible shapes. -/
theorem BroadcastShapesImpl_incompatible (a b : List Nat) (h : Incompatible a b) :
    Tensor.BroadcastShapesImpl a b = .error .BroadcastIncompatible := by
  obtain ⟨i, hi, hc⟩ := h
  rw [padLeading_getD, padLeading_getD] at hc
  simp only [Tensor.BroadcastShapesImpl]
  apply forUpM_eq_error _ _ _ _ i hi
  · intro t
    exact if_pos hc
  · intro j t e hj
    split_ifs at hj <;> (cases hj; rfl)

/-- The resolver either returns the broadcast shape or throws
`BroadcastIncompatible`. -/
theorem BroadcastShapesImpl_ok_iff (a b r : List Nat) :
    Tensor.BroadcastShapesImpl a b = .ok r ↔ ¬ Incompatible a b ∧ r = broadcastShape a b := by
  constructor
  · intro h
    by_cases hc : Incompatible a b
    · rw [BroadcastShapesImpl_incompatible a b hc] at h
      cases h
    · rw [BroadcastShapesImpl_compatible a b hc] at h
      exact ⟨hc, by cases h; rfl⟩
  · rintro ⟨hc, rfl⟩
    exact BroadcastShapesImpl_compatible a b hc

/-- The loops of both paths of `ApplyOperation` can only fail on a buffer
subscript. -/
theorem applyBody_error_kind {T : Type} (va vb : List T) (op : T → T → T)
    (ia ib o : Nat) (d : List T) (e : TensorError)
    (h : (match rd va ia with
          | .error e => .error e
          | .ok x =>
            match rd vb ib with
            | .error e => .error e
            | .ok y => wr d o (op x y)) = Except.error e) : e = .OutOfRange := by
  cases ha : rd va ia with
  | error e1 =>
    simp only [ha] at h
    cases h
    exact rd_error _ _ _ ha
  | ok x =>
    simp only [ha] at h
    cases hb : rd vb ib with
    | error e1 =>
      simp only [hb] at h
      cases h
      exact rd_error _ _ _ hb
    | ok y =>
      simp only [hb] at h
      exact wr_error _ _ _ _ h

/-- The shape-only constructor can only fail with `LengthError`. -/
theorem Tensor_shape_error {T : Type} [Zero T] [MaxSize T] (shape : List Nat) (e : TensorError)
    (h : (Tensor.Tensor_shape shape : Except TensorError (Tensor T)) = .error e) :
    e = .LengthError := by
  unfold Tensor.Tensor_shape at h
  split_ifs at h
  cases h
  rfl

/-- The general path throws `BroadcastIncompatible` exactly when the resolver
does. -/
theorem ApplyOperationGeneral_incompatible_iff {T : Type} [Zero T] [MaxSize T] (A B : Tensor T)
    (op : T → T → T) :
    Tensor.ApplyOperationGeneral A B op = .error .BroadcastIncompatible ↔
      Incompatible A.shape_ B.shape_ := by
  constructor
  · intro h
    by_contra hc
    simp only [Tensor.ApplyOperationGeneral, BroadcastShapesImpl_compatible _ _ hc] at h
    split at h
    · rename_i e he
      have := Tensor_shape_error _ _ he
      subst this
      cases h
    · split at h
      · rename_i e he
        have := forUpM_error_kind TensorError.OutOfRange _ _ _
          (fun i t e' h' => applyBody_error_kind _ _ _ _ _ _ _ _ h') e he
        subst this
        cases h
      · cases h
  · intro hc
    simp [Tensor.ApplyOperationGeneral, BroadcastShapesImpl_incompatible _ _ hc]

/-! ## Claims C2 and C3 -/

/-- C2: whenever `BroadcastShapesImpl` succeeds on shapes `a` and `b`, its
result has length `max na nb`, and its entry at each position `i` is the
larger of the entries of `a` and `b` at `i` after right-aligning both to that
length with leading 1s. -/
theorem BroadcastShapesImpl_result (a b r : List Nat)
    (h : Tensor.BroadcastShapesImpl a b = .ok r) :
    r.length = max a.length b.length ∧
      (padLeading (max a.length b.length) a).length = max a.length b.length ∧
      (padLeading (max a.length b.length) b).length = max a.length b.length ∧
      ∀ i, i < max a.length b.length →
        r[i]? = some (max ((padLeading (max a.length b.length) a).getD i 1)
          ((padLeading (max a.length b.length) b).getD i 1)) := by
  obtain ⟨-, rfl⟩ := (BroadcastShapesImpl_ok_iff a b r).1 h
  exact ⟨broadcastShape_length a b, padLeading_length _ _ (le_max_left _ _),
    padLeading_length _ _ (le_max_right _ _), fun i hi => broadcastShape_getElem? a b i hi⟩

/-- Witness for C2: shapes `(2,1,3)` and `(4,1)` resolve to `(2,4,3)`. -/
theorem BroadcastShapesImpl_result_witness :
    Tensor.BroadcastShapesImpl [2, 1, 3] [4, 1] = .ok [2, 4, 3] ∧
      ([2, 4, 3] : List Nat).length = max [2, 1, 3].length [4, 1].length ∧
      ([2, 4, 3] : List Nat)[1]? =
        some (max ((padLeading 3 [2, 1, 3]).getD 1 1) ((padLeading 3 [4, 1]).getD 1 1)) :=
  ⟨rfl, (BroadcastShapesImpl_result [2, 1, 3] [4, 1] [2, 4, 3] rfl).1,
    (BroadcastShapesImpl_result [2, 1, 3] [4, 1] [2, 4, 3] rfl).2.2.2 1 (by decide)⟩

/-- C3: `BroadcastShapesImpl` throws `BroadcastIncompatible` exactly when some
right-aligned position (shorter shape padded with leading 1s) holds sizes
`ai ≠ bi` with `ai ≠ 1` and `bi ≠ 1`, and it throws nothing else; it throws on
`(2,3)` and `(4,)`; and `ApplyOperation` on tensors of differing shapes throws
`BroadcastIncompatible` in exactly that case. -/
theorem BroadcastShapesImpl_fails_iff :
    (∀ a b : List Nat,
      (Tensor.BroadcastShapesImpl a b = .error .BroadcastIncompatible ↔ Incompatible a b) ∧
      ((∃ e, Tensor.BroadcastShapesImpl a b = .error e) ↔ Incompatible a b)) ∧
    Tensor.BroadcastShapesImpl [2, 3] [4] = .error .BroadcastIncompatible ∧
    (∀ (T : Type) [Zero T] [MaxSize T] (A B : Tensor T) (op : T → T → T),
      A.shape_ ≠ B.shape_ →
        (Tensor.ApplyOperation A B op = .error .BroadcastIncompatible ↔
          Incompatible A.shape_ B.shape_)) := by
  refine ⟨fun a b => ⟨⟨fun h => ?_, BroadcastShapesImpl_incompatible a b⟩,
    ⟨fun ⟨e, h⟩ => ?_, fun h => ⟨_, BroadcastShapesImpl_incompatible a b h⟩⟩⟩, rfl, ?_⟩
  · by_contra hc
    rw [BroadcastShapesImpl_compatible a b hc] at h
    cases h
  · by_contra hc
    rw [BroadcastShapesImpl_compatible a b hc] at h
    cases h
  · intro T _ _ A B op hne
    rw [Tensor.ApplyOperation, if_neg hne]
    exact ApplyOperationGeneral_incompatible_iff A B op

/-! ## `size_t` arithmetic -/

theorem szMul_of_le (a b : Nat) (h : a * b ≤ SIZE_MAX) : szMul a b = a * b := by
  unfold SIZE_MAX at h
  exact Nat.mod_eq_of_lt (by omega)

theorem szAdd_of_le (a b : Nat) (h : a + b ≤ SIZE_MAX) : szAdd a b = a + b := by
  unfold SIZE_MAX at h
  exact Nat.mod_eq_of_lt (by omega)

theorem szMul_lt (a b : Nat) : szMul a b < 2 ^ 64 :=
  Nat.mod_lt _ (by decide)

theorem lt_of_le_SIZE_MAX (a : Nat) (h : a ≤ SIZE_MAX) : a < 2 ^ 64 := by
  unfold SIZE_MAX at h
  omega

theorem szMul_one_left (a : Nat) (h : a ≤ SIZE_MAX) : szMul 1 a = a :=
  (szMul_of_le 1 a (by omega)).trans (Nat.one_mul a)

/-- The `size_t` product accumulated over a list is the product modulo `2^64`. -/
theorem foldl_szMul (l : List Nat) (a : Nat) (ha : a < 2 ^ 64) :
    l.foldl (fun acc s => szMul acc s) a = (a * l.prod) % 2 ^ 64 := by
  induction l generalizing a with
  | nil =>
    rw [List.foldl_nil, List.prod_nil, Nat.mul_one, Nat.mod_eq_of_lt ha]
  | cons s l ih =>
    rw [List.foldl_cons, ih _ (szMul_lt a s), List.prod_cons, szMul, Nat.mod_mul_mod,
      Nat.mul_assoc]

/-! ## Row-major strides -/

/-- The element count of a non-empty shape is the product of the sizes modulo
`2^64`. -/
theorem NumElements_eq_mod (shape : List Nat) (h : shape ≠ []) :
    Tensor.NumElements shape = shape.prod % 2 ^ 64 := by
  cases shape with
  | nil => exact absurd rfl h
  | cons s ss =>
    simp only [Tensor.NumElements, List.isEmpty_cons, Bool.false_eq_true, if_false]
    rw [foldl_szMul _ 1 (by decide), Nat.one_mul]

theorem NumElements_nil : Tensor.NumElements [] = 0 := rfl

theorem NumElements_eq_prod (shape : List Nat) (h : shape ≠ []) (hb : shape.prod ≤ SIZE_MAX) :
    Tensor.NumElements shape = shape.prod := by
  rw [NumElements_eq_mod shape h, Nat.mod_eq_of_lt (lt_of_le_SIZE_MAX _ hb)]

/-- The loop shared by `CalculateStrides` and the multipliers: entry `p` of the
result is the product, modulo `2^64`, of the sizes to the right of `p`. -/
theorem strideLoop_spec (shape : List Nat) :
    (Tensor.CalculateStrides shape).length = shape.length ∧
      ∀ p, p < shape.length →
        (Tensor.CalculateStrides shape)[p]? = some ((shape.drop (p + 1)).prod % 2 ^ 64) := by
  unfold Tensor.CalculateStrides
  have key := forDown_inv
    (fun j (st : List Nat) => st.length = shape.length ∧
      ∀ p, j ≤ p → p < shape.length → st[p]? = some ((shape.drop (p + 1)).prod % 2 ^ 64))
    (shape.length - 1)
    (fun i st => st.set i (szMul (st.getD (i + 1) 1) (shape.getD (i + 1) 1)))
    (List.replicate shape.length 1)
    (by
      refine ⟨by simp, fun p hp hlt => ?_⟩
      have hp1 : p + 1 = shape.length := by omega
      rw [List.getElem?_replicate_of_lt hlt, hp1, List.drop_length]
      rfl)
    (by
      intro i st hi ⟨hlen, hget⟩
      refine ⟨by simpa using hlen, fun p hp hlt => ?_⟩
      by_cases hpi : p = i
      · subst hpi
        rw [List.getElem?_set_self (by omega)]
        have h1 : p + 1 < shape.length := by omega
        have hst := hget (p + 1) (le_refl _) h1
        rw [List.getD_eq_getElem?_getD, List.getD_eq_getElem?_getD, hst,
          List.getElem?_eq_getElem h1, List.drop_eq_getElem_cons h1, List.prod_cons]
        simp only [Option.getD_some, szMul]
        rw [Nat.mod_mul_mod, Nat.mul_comm]
      · rw [List.getElem?_set_ne (by omega)]
        exact hget p (by omega) hlt)
  exact ⟨key.1, fun p hp => key.2 p (Nat.zero_le p) hp⟩

theorem CalculateStrides_length (shape : List Nat) :
    (Tensor.CalculateStrides shape).length = shape.length :=
  (strideLoop_spec shape).1

theorem CalculateStrides_getD_mod (shape : List Nat) (p : Nat) (hp : p < shape.length)
    (dflt : Nat) :
    (Tensor.CalculateStrides shape).getD p dflt = (shape.drop (p + 1)).prod % 2 ^ 64 := by
  rw [List.getD_eq_getElem?_getD, (strideLoop_spec shape).2 p hp]
  rfl

theorem CalculateStrides_getD (shape : List Nat) (p : Nat) (hp : p < shape.length) (dflt : Nat)
    (hb : (shape.drop (p + 1)).prod ≤ SIZE_MAX) :
    (Tensor.CalculateStrides shape).getD p dflt = (shape.drop (p + 1)).prod := by
  rw [CalculateStrides_getD_mod shape p hp, Nat.mod_eq_of_lt (lt_of_le_SIZE_MAX _ hb)]

theorem multipliers_eq (shape : List Nat) :
    Tensor.multipliers shape = Tensor.CalculateStrides shape := rfl

/-! ## The alignment loop -/

theorem alignLoop_spec (nd : Nat) (shape strides : List Nat) (h : shape.length ≤ nd) :
    (Tensor.alignLoop nd shape strides).1.length = nd ∧
    (Tensor.alignLoop nd shape strides).2.length = nd ∧
      ∀ p, p < nd →
        (Tensor.alignLoop nd shape strides).1[p]? =
            some (if p < nd - shape.length then 1 else shape.getD (p - (nd - shape.length)) 1) ∧
          (Tensor.alignLoop nd shape strides).2[p]? =
            some (if p < nd - shape.length then 0
              else strides.getD (p - (nd - shape.length)) 0) := by
  unfold Tensor.alignLoop
  have key := forUp_inv
    (fun k (al : List Nat × List Nat) => al.1.length = nd ∧ al.2.length = nd ∧
      ∀ p, nd - k ≤ p → p < nd →
        al.1[p]? =
            some (if p < nd - shape.length then 1 else shape.getD (p - (nd - shape.length)) 1) ∧
          al.2[p]? =
            some (if p < nd - shape.length then 0
              else strides.getD (p - (nd - shape.length)) 0))
    nd
    (fun i al =>
      let idx_out : Nat := ((nd : Int) - 1 - (i : Int)).toNat
      let idx : Int := (shape.length : Int) - 1 - (i : Int)
      if idx ≥ 0 then
        (al.1.set idx_out (shape.getD idx.toNat 1), al.2.set idx_out (strides.getD idx.toNat 0))
      else
        (al.1.set idx_out 1, al.2.set idx_out 0))
    (List.replicate nd 1, List.replicate nd 0)
    (by
      refine ⟨by simp, by simp, fun p hp hlt => ?_⟩
      omega)
    (by
      intro i al hi ⟨hl1, hl2, hget⟩
      have hout : ((nd : Int) - 1 - (i : Int)).toNat = nd - 1 - i := by omega
      simp only [hout]
      by_cases hidx : (shape.length : Int) - 1 - (i : Int) ≥ 0
      · have hin : ((shape.length : Int) - 1 - (i : Int)).toNat = shape.length - 1 - i := by
          omega
        rw [if_pos hidx, hin]
        refine ⟨by simpa using hl1, by simpa using hl2, fun p hp hlt => ?_⟩
        by_cases hpi : p = nd - 1 - i
        · subst hpi
          have e1 : nd - 1 - i - (nd - shape.length) = shape.length - 1 - i := by omega
          rw [List.getElem?_set_self (by omega), List.getElem?_set_self (by omega),
            if_neg (by omega), if_neg (by omega), e1]
          exact ⟨rfl, rfl⟩
        · rw [List.getElem?_set_ne (by omega), List.getElem?_set_ne (by omega)]
          exact hget p (by omega) hlt
      · rw [if_neg hidx]
        refine ⟨by simpa using hl1, by simpa using hl2, fun p hp hlt => ?_⟩
        by_cases hpi : p = nd - 1 - i
        · subst hpi
          rw [List.getElem?_set_self (by omega), List.getElem?_set_self (by omega),
            if_pos (by omega), if_pos (by omega)]
          exact ⟨rfl, rfl⟩
        · rw [List.getElem?_set_ne (by omega), List.getElem?_set_ne (by omega)]
          exact hget p (by omega) hlt)
  exact ⟨key.1, key.2.1, fun p hp => key.2.2 p (by omega) hp⟩

/-- Aligned shape entry: the right-aligned, 1-padded shape. -/
theorem alignLoop_shape_getD (nd : Nat) (shape strides : List Nat) (h : shape.length ≤ nd)
    (p : Nat) (hp : p < nd) :
    (Tensor.alignLoop nd shape strides).1.getD p 1 = (padLeading nd shape).getD p 1 := by
  rw [padLeading_getD, List.getD_eq_getElem?_getD, ((alignLoop_spec nd shape strides h).2.2 p hp).1]
  rfl

/-- Aligned stride entry: `0` on the padded positions, the stored stride on the
others. -/
theorem alignLoop_strides_getD (nd : Nat) (shape strides : List Nat) (h : shape.length ≤ nd)
    (p : Nat) (hp : p < nd) :
    (Tensor.alignLoop nd shape strides).2.getD p 0 =
      if p < nd - shape.length then 0 else strides.getD (p - (nd - shape.length)) 0 := by
  rw [List.getD_eq_getElem?_getD, ((alignLoop_spec nd shape strides h).2.2 p hp).2]
  rfl

/-! ## The decoding loop -/

theorem drop_prod_pos (shape : List Nat) (h : 0 < shape.prod) (k : Nat) :
    0 < (shape.drop k).prod := by
  have := List.prod_take_mul_prod_drop shape k
  rw [← this] at h
  apply Nat.pos_of_ne_zero
  intro h0
  rw [h0, Nat.mul_zero] at h
  exact absurd h (lt_irrefl 0)

theorem drop_prod_succ (shape : List Nat) (d : Nat) (hd : d < shape.length) :
    (shape.drop d).prod = shape.getD d 1 * (shape.drop (d + 1)).prod := by
  rw [List.drop_eq_getElem_cons hd, List.prod_cons, List.getD_eq_getElem?_getD,
    List.getElem?_eq_getElem hd]
  rfl

theorem drop_prod_le (shape : List Nat) (h : 0 < shape.prod) (k : Nat) :
    (shape.drop k).prod ≤ shape.prod := by
  have hsplit := List.prod_take_mul_prod_drop shape k
  have hpos : 0 < (shape.take k).prod := by
    apply Nat.pos_of_ne_zero
    intro h0
    rw [h0, Nat.zero_mul] at hsplit
    omega
  calc (shape.drop k).prod = 1 * (shape.drop k).prod := (Nat.one_mul _).symm
    _ ≤ (shape.take k).prod * (shape.drop k).prod := Nat.mul_le_mul_right _ hpos
    _ = shape.prod := hsplit

/-- Closed form of the decoding loop where nothing wraps: the offsets are the
sums, over the dimensions at which the aligned size is not 1, of coordinate
times aligned stride. -/
theorem decodeOffsets_spec (shape ash ast bsh bst : List Nat) (flat : Nat)
    (hflat : flat < shape.prod) (hbound : shape.prod ≤ SIZE_MAX)
    (hsa : (∑ d ∈ Finset.range shape.length,
      (if ash.getD d 1 ≠ 1 then coordAt shape flat d * ast.getD d 0 else 0)) ≤ SIZE_MAX)
    (hsb : (∑ d ∈ Finset.range shape.length,
      (if bsh.getD d 1 ≠ 1 then coordAt shape flat d * bst.getD d 0 else 0)) ≤ SIZE_MAX) :
    (Tensor.decodeOffsets shape.length (Tensor.multipliers shape) ash ast bsh bst flat).1 =
        ∑ d ∈ Finset.range shape.length,
          (if ash.getD d 1 ≠ 1 then coordAt shape flat d * ast.getD d 0 else 0) ∧
      (Tensor.decodeOffsets shape.length (Tensor.multipliers shape) ash ast bsh bst flat).2.1 =
        ∑ d ∈ Finset.range shape.length,
          (if bsh.getD d 1 ≠ 1 then coordAt shape flat d * bst.getD d 0 else 0) := by
  have hpos : 0 < shape.prod := by omega
  have hmono : ∀ (f : Nat → Nat) (k : Nat), k ≤ shape.length →
      ∑ d ∈ Finset.range k, f d ≤ ∑ d ∈ Finset.range shape.length, f d := fun f k hk =>
    Finset.sum_le_sum_of_subset (Finset.range_mono hk)
  unfold Tensor.decodeOffsets
  have key := forUp_inv
    (fun k (st : Nat × Nat × Nat) => k ≤ shape.length →
      st.1 = ∑ d ∈ Finset.range k,
          (if ash.getD d 1 ≠ 1 then coordAt shape flat d * ast.getD d 0 else 0) ∧
      st.2.1 = ∑ d ∈ Finset.range k,
          (if bsh.getD d 1 ≠ 1 then coordAt shape flat d * bst.getD d 0 else 0) ∧
      st.2.2 = flat % (shape.drop k).prod)
    shape.length
    (fun d st =>
      let m := (Tensor.multipliers shape).getD d 1
      let idx := if m = 0 then 0 else st.2.2 / m
      let rem := if m ≠ 0 then st.2.2 % m else st.2.2
      let offset_a :=
        if ash.getD d 1 ≠ 1 then szAdd st.1 (szMul idx (ast.getD d 0)) else st.1
      let offset_b :=
        if bsh.getD d 1 ≠ 1 then szAdd st.2.1 (szMul idx (bst.getD d 0)) else st.2.1
      (offset_a, offset_b, rem))
    (0, 0, flat)
    (by
      intro _
      refine ⟨by simp, by simp, ?_⟩
      simp only [List.drop_zero]
      exact (Nat.mod_eq_of_lt hflat).symm)
    (by
      intro d st hd ih hle
      obtain ⟨ha, hb, hrem⟩ := ih (by omega)
      have hm : (Tensor.multipliers shape).getD d 1 = (shape.drop (d + 1)).prod := by
        rw [multipliers_eq, CalculateStrides_getD shape d hd]
        exact le_trans (drop_prod_le shape hpos (d + 1)) hbound
      have hmpos : 0 < (shape.drop (d + 1)).prod := drop_prod_pos shape hpos (d + 1)
      have hidx : st.2.2 / (shape.drop (d + 1)).prod = coordAt shape flat d := by
        rw [hrem, drop_prod_succ shape d hd, Nat.mod_mul_left_div_self]
        rfl
      have hrem' : st.2.2 % (shape.drop (d + 1)).prod = flat % (shape.drop (d + 1)).prod := by
        rw [hrem, drop_prod_succ shape d hd]
        exact Nat.mod_mod_of_dvd _ (Dvd.intro_left _ rfl)
      have hne : (shape.drop (d + 1)).prod ≠ 0 := Nat.pos_iff_ne_zero.1 hmpos
      have hsa' := le_trans (hmono (fun d =>
        if ash.getD d 1 ≠ 1 then coordAt shape flat d * ast.getD d 0 else 0) (d + 1) hle) hsa
      have hsb' := le_trans (hmono (fun d =>
        if bsh.getD d 1 ≠ 1 then coordAt shape flat d * bst.getD d 0 else 0) (d + 1) hle) hsb
      rw [Finset.sum_range_succ] at hsa' hsb'
      simp only [hm, if_neg hne, if_pos hne, hidx, hrem', Finset.sum_range_succ]
      refine ⟨?_, ?_, trivial⟩
      · by_cases h1 : ash.getD d 1 ≠ 1
        · rw [if_pos h1] at hsa' ⊢
          rw [if_pos h1, szMul_of_le _ _ (by omega), szAdd_of_le _ _ (by omega), ha]
        · simp only [if_neg h1, ha, add_zero]
      · by_cases h1 : bsh.getD d 1 ≠ 1
        · rw [if_pos h1] at hsb' ⊢
          rw [if_pos h1, szMul_of_le _ _ (by omega), szAdd_of_le _ _ (by omega), hb]
        · simp only [if_neg h1, hb, add_zero])
  exact ⟨(key (le_refl _)).1, (key (le_refl _)).2.1⟩

theorem within_iff (m shape : List Nat) :
    Within m shape ↔
      m.length = shape.length ∧ ∀ d, d < shape.length → m.getD d 0 < shape.getD d 1 := by
  unfold Within
  rw [List.forall₂_iff_get]
  constructor
  · rintro ⟨hlen, h⟩
    refine ⟨hlen, fun d hd => ?_⟩
    have hm : d < m.length := by omega
    have := h d hm hd
    simpa [List.getD_eq_getElem?_getD, List.getElem?_eq_getElem hm,
      List.getElem?_eq_getElem hd] using this
  · rintro ⟨hlen, h⟩
    refine ⟨hlen, fun d hm hd => ?_⟩
    have := h d hd
    simpa [List.getD_eq_getElem?_getD, List.getElem?_eq_getElem hm,
      List.getElem?_eq_getElem hd] using this

theorem flatIndex_lt (m shape : List Nat) (h : Within m shape) :
    flatIndex shape m < shape.prod := by
  unfold Within at h
  induction h with
  | nil => simp [flatIndex]
  | @cons x s xs ss hx _ ih =>
    simp only [flatIndex, List.prod_cons]
    calc x * ss.prod + flatIndex ss xs < x * ss.prod + ss.prod := by omega
      _ = (x + 1) * ss.prod := by ring
      _ ≤ s * ss.prod := Nat.mul_le_mul_right _ hx

theorem coordAt_eq (shape : List Nat) (flat d : Nat) (hd : d < shape.length) :
    coordAt shape flat d = flat % (shape.drop d).prod / (shape.drop (d + 1)).prod := by
  rw [drop_prod_succ shape d hd, Nat.mod_mul_left_div_self]
  rfl

/-- Decoding the flat index of a multi-index gives the multi-index back. -/
theorem coordAt_flatIndex (m shape : List Nat) (h : Within m shape) (d : Nat)
    (hd : d < shape.length) : coordAt shape (flatIndex shape m) d = m.getD d 0 := by
  unfold Within at h
  induction h generalizing d with
  | nil => simp at hd
  | @cons x s xs ss hx hrest ih =>
    have hr : flatIndex ss xs < ss.prod := flatIndex_lt xs ss hrest
    cases d with
    | zero =>
      simp only [coordAt, flatIndex, List.drop_succ_cons, List.drop_zero, List.getD_cons_zero]
      rw [Nat.mul_comm, Nat.mul_add_div (by omega), Nat.div_eq_of_lt hr, Nat.add_zero,
        Nat.mod_eq_of_lt hx]
    | succ d =>
      have hd' : d < ss.length := by simpa using hd
      rw [coordAt_eq _ _ _ hd]
      simp only [flatIndex, List.drop_succ_cons, List.getD_cons_succ]
      have hdvd : (ss.drop d).prod ∣ ss.prod := by
        rw [← List.prod_take_mul_prod_drop ss d]
        exact Dvd.intro_left _ rfl
      obtain ⟨c, hc⟩ := hdvd
      have : x * ss.prod + flatIndex ss xs = (ss.drop d).prod * (c * x) + flatIndex ss xs := by
        rw [hc]; ring
      rw [this, Nat.mul_add_mod, ← coordAt_eq _ _ _ hd']
      exact ih d hd'

theorem flatIndex_eq_sum (shape m : List Nat) :
    flatIndex shape m =
      ∑ d ∈ Finset.range shape.length, m.getD d 0 * (shape.drop (d + 1)).prod := by
  induction shape generalizing m with
  | nil => simp [flatIndex]
  | cons s ss ih =>
    cases m with
    | nil => simp [flatIndex]
    | cons x xs =>
      simp only [flatIndex, List.length_cons, Finset.sum_range_succ', List.getD_cons_succ,
        List.drop_succ_cons, List.getD_cons_zero, List.drop_zero]
      rw [ih xs, Nat.add_comm]

theorem coords_length (shape : List Nat) (flat : Nat) :
    (coords shape flat).length = shape.length := by
  simp [coords]

theorem coords_getD (shape : List Nat) (flat d : Nat) (hd : d < shape.length) :
    (coords shape flat).getD d 0 = coordAt shape flat d := by
  simp [coords, List.getD_eq_getElem?_getD, List.getElem?_range hd]

/-- The multi-index of a flat index below the element count lies within the
shape. -/
theorem coords_within (shape : List Nat) (flat : Nat) (h : flat < shape.prod) :
    Within (coords shape flat) shape := by
  rw [within_iff]
  refine ⟨coords_length shape flat, fun d hd => ?_⟩
  rw [coords_getD shape flat d hd]
  have hpos : 0 < (shape.drop d).prod := drop_prod_pos shape (by omega) d
  rw [drop_prod_succ shape d hd] at hpos
  exact Nat.mod_lt _ (Nat.pos_of_mul_pos_right hpos)

/-- Encoding the multi-index of a flat index gives the flat index back. -/
theorem flatIndex_coords (shape : List Nat) (flat : Nat) (h : flat < shape.prod) :
    flatIndex shape (coords shape flat) = flat := by
  induction shape generalizing flat with
  | nil =>
    simp only [List.prod_nil] at h
    simp [flatIndex, coords]; omega
  | cons s ss ih =>
    have hpos : 0 < ss.prod := by
      have := drop_prod_pos (s :: ss) (by omega) 1
      simpa using this
    have hlt : flat / ss.prod < s := by
      rw [Nat.div_lt_iff_lt_mul hpos]
      simpa [List.prod_cons] using h
    have hc : coords (s :: ss) flat = flat / ss.prod % s :: coords ss (flat % ss.prod) := by
      simp only [coords, List.length_cons, List.range_succ_eq_map, List.map_cons, List.map_map]
      congr 1
      apply List.map_congr_left
      intro d hd
      have hd' : d < ss.length := List.mem_range.1 hd
      have hd'' : d + 1 < (s :: ss).length := by simpa using hd'
      have hdvd : (ss.drop d).prod ∣ ss.prod := by
        rw [← List.prod_take_mul_prod_drop ss d]
        exact Dvd.intro_left _ rfl
      simp only [Function.comp]
      rw [coordAt_eq _ _ _ hd'', coordAt_eq _ _ _ hd', Nat.mod_mod_of_dvd _ hdvd]
      rfl
    rw [hc, Nat.mod_eq_of_lt hlt]
    simp only [flatIndex]
    rw [ih (flat % ss.prod) (Nat.mod_lt _ hpos)]
    exact Nat.div_add_mod' flat ss.prod

/-! ## Operand offsets -/

theorem operandIndex_length (sa m : List Nat) (h : sa.length ≤ m.length) :
    (operandIndex sa m).length = sa.length := by
  simp only [operandIndex, List.length_zipWith, List.length_drop]
  omega

theorem operandIndex_getD (sa m : List Nat) (h : sa.length ≤ m.length) (j : Nat)
    (hj : j < sa.length) :
    (operandIndex sa m).getD j 0 =
      if sa.getD j 1 = 1 then 0 else m.getD (m.length - sa.length + j) 0 := by
  have hm : m.length - sa.length + j < m.length := by omega
  simp only [operandIndex, List.getD_eq_getElem?_getD, List.getElem?_zipWith,
    List.getElem?_drop, List.getElem?_eq_getElem hj, List.getElem?_eq_getElem hm]
  rfl

theorem operand_within (sa out_shape m : List Nat) (hm : Within m out_shape)
    (hf : Fits sa out_shape) : Within (operandIndex sa m) sa := by
  rw [within_iff] at hm ⊢
  obtain ⟨hlen, hlt⟩ := hm
  obtain ⟨hle, hfit⟩ := hf
  refine ⟨operandIndex_length sa m (by omega), fun j hj => ?_⟩
  rw [operandIndex_getD sa m (by omega) j hj]
  by_cases h1 : sa.getD j 1 = 1
  · rw [if_pos h1, h1]
    exact Nat.one_pos
  · rw [if_neg h1]
    rcases hfit j hj with h | h
    · exact absurd h h1
    · rw [h, hlen]
      exact hlt _ (by omega)

/-- The sum the decoding loop accumulates for one operand is the row-major flat
index, in the operand, of the operand's multi-index. -/
theorem aligned_offset (nd : Nat) (sa m : List Nat) (hm : m.length = nd)
    (h : sa.length ≤ nd) (hpos : 0 < sa.prod) (hb : sa.prod ≤ SIZE_MAX) :
    (∑ d ∈ Finset.range nd,
      (if (Tensor.alignLoop nd sa (Tensor.CalculateStrides sa)).1.getD d 1 ≠ 1 then
        m.getD d 0 * (Tensor.alignLoop nd sa (Tensor.CalculateStrides sa)).2.getD d 0
      else 0)) = flatIndex sa (operandIndex sa m) := by
  have hsplit : ∀ f : Nat → Nat, ∑ d ∈ Finset.range nd, f d =
      ∑ d ∈ Finset.range (nd - sa.length), f d +
        ∑ j ∈ Finset.range sa.length, f (nd - sa.length + j) := by
    intro f
    rw [← Finset.sum_range_add]
    congr 2
    omega
  rw [flatIndex_eq_sum, hsplit]
  have hfirst : (∑ d ∈ Finset.range (nd - sa.length),
      (if (Tensor.alignLoop nd sa (Tensor.CalculateStrides sa)).1.getD d 1 ≠ 1 then
        m.getD d 0 * (Tensor.alignLoop nd sa (Tensor.CalculateStrides sa)).2.getD d 0
      else 0)) = 0 := by
    apply Finset.sum_eq_zero
    intro d hd
    have hd' : d < nd - sa.length := Finset.mem_range.1 hd
    rw [alignLoop_shape_getD nd sa _ h d (by omega), padLeading_getD, if_pos hd']
    simp
  rw [hfirst, Nat.zero_add]
  apply Finset.sum_congr rfl
  intro j hj
  have hj' : j < sa.length := Finset.mem_range.1 hj
  have e1 : nd - sa.length + j - (nd - sa.length) = j := by omega
  have hnot : ¬ (nd - sa.length + j < nd - sa.length) := by omega
  have e_sh : (Tensor.alignLoop nd sa (Tensor.CalculateStrides sa)).1.getD
      (nd - sa.length + j) 1 = sa.getD j 1 := by
    rw [alignLoop_shape_getD nd sa _ h _ (by omega), padLeading_getD, if_neg hnot, e1]
  have e_st : (Tensor.alignLoop nd sa (Tensor.CalculateStrides sa)).2.getD
      (nd - sa.length + j) 0 = (sa.drop (j + 1)).prod := by
    rw [alignLoop_strides_getD nd sa _ h _ (by omega), if_neg hnot, e1,
      CalculateStrides_getD sa j hj' _ (le_trans (drop_prod_le sa hpos (j + 1)) hb)]
  rw [e_sh, e_st, operandIndex_getD sa m (by omega) j hj', hm]
  by_cases h1 : sa.getD j 1 = 1
  · simp [h1]
  · simp [h1]

/-- Where nothing wraps, the two offsets the general loop computes for a flat
output index are the row-major flat indices of the operands' multi-indices. -/
theorem decodeOffsets_flatIndex (out_shape sa sb : List Nat) (hfa : Fits sa out_shape)
    (hfb : Fits sb out_shape) (hposa : 0 < sa.prod) (hposb : 0 < sb.prod)
    (hba : sa.prod ≤ SIZE_MAX) (hbb : sb.prod ≤ SIZE_MAX) (hbo : out_shape.prod ≤ SIZE_MAX)
    (flat : Nat) (hflat : flat < out_shape.prod) :
    (Tensor.decodeOffsets out_shape.length (Tensor.multipliers out_shape)
        (Tensor.alignLoop out_shape.length sa (Tensor.CalculateStrides sa)).1
        (Tensor.alignLoop out_shape.length sa (Tensor.CalculateStrides sa)).2
        (Tensor.alignLoop out_shape.length sb (Tensor.CalculateStrides sb)).1
        (Tensor.alignLoop out_shape.length sb (Tensor.CalculateStrides sb)).2 flat).1 =
      flatIndex sa (operandIndex sa (coords out_shape flat)) ∧
    (Tensor.decodeOffsets out_shape.length (Tensor.multipliers out_shape)
        (Tensor.alignLoop out_shape.length sa (Tensor.CalculateStrides sa)).1
        (Tensor.alignLoop out_shape.length sa (Tensor.CalculateStrides sa)).2
        (Tensor.alignLoop out_shape.length sb (Tensor.CalculateStrides sb)).1
        (Tensor.alignLoop out_shape.length sb (Tensor.CalculateStrides sb)).2 flat).2.1 =
      flatIndex sb (operandIndex sb (coords out_shape flat)) := by
  have hw := coords_within out_shape flat hflat
  have hla := flatIndex_lt _ _ (operand_within sa _ _ hw hfa)
  have hlb := flatIndex_lt _ _ (operand_within sb _ _ hw hfb)
  have hsumA : (∑ d ∈ Finset.range out_shape.length,
      (if (Tensor.alignLoop out_shape.length sa (Tensor.CalculateStrides sa)).1.getD d 1 ≠ 1 then
        coordAt out_shape flat d *
          (Tensor.alignLoop out_shape.length sa (Tensor.CalculateStrides sa)).2.getD d 0
      else 0)) = flatIndex sa (operandIndex sa (coords out_shape flat)) := by
    rw [← aligned_offset out_shape.length sa (coords out_shape flat) (coords_length _ _) hfa.1
      hposa hba]
    apply Finset.sum_congr rfl
    intro d hd
    rw [coords_getD _ _ _ (Finset.mem_range.1 hd)]
  have hsumB : (∑ d ∈ Finset.range out_shape.length,
      (if (Tensor.alignLoop out_shape.length sb (Tensor.CalculateStrides sb)).1.getD d 1 ≠ 1 then
        coordAt out_shape flat d *
          (Tensor.alignLoop out_shape.length sb (Tensor.CalculateStrides sb)).2.getD d 0
      else 0)) = flatIndex sb (operandIndex sb (coords out_shape flat)) := by
    rw [← aligned_offset out_shape.length sb (coords out_shape flat) (coords_length _ _) hfb.1
      hposb hbb]
    apply Finset.sum_congr rfl
    intro d hd
    rw [coords_getD _ _ _ (Finset.mem_range.1 hd)]
  obtain ⟨h1, h2⟩ := decodeOffsets_spec out_shape
    (Tensor.alignLoop out_shape.length sa (Tensor.CalculateStrides sa)).1
    (Tensor.alignLoop out_shape.length sa (Tensor.CalculateStrides sa)).2
    (Tensor.alignLoop out_shape.length sb (Tensor.CalculateStrides sb)).1
    (Tensor.alignLoop out_shape.length sb (Tensor.CalculateStrides sb)).2 flat hflat hbo
    (by rw [hsumA]; omega) (by rw [hsumB]; omega)
  rw [h1, h2, hsumA, hsumB]
  exact ⟨rfl, rfl⟩

/-! ## Shapes that fit the broadcast shape -/

theorem ext_getD (l₁ l₂ : List Nat) (hlen : l₁.length = l₂.length)
    (h : ∀ i, i < l₁.length → l₁.getD i 0 = l₂.getD i 0) : l₁ = l₂ := by
  apply List.ext_getElem?
  intro i
  by_cases hi : i < l₁.length
  · have h2 : i < l₂.length := by omega
    have := h i hi
    simp only [List.getD_eq_getElem?_getD, List.getElem?_eq_getElem hi,
      List.getElem?_eq_getElem h2, Option.getD_some] at this
    rw [List.getElem?_eq_getElem hi, List.getElem?_eq_getElem h2, this]
  · rw [List.getElem?_eq_none (by omega), List.getElem?_eq_none (by omega)]

theorem broadcastShape_getD (a b : List Nat) (i : Nat) (hi : i < max a.length b.length) :
    (broadcastShape a b).getD i 1 =
      max ((padLeading (max a.length b.length) a).getD i 1)
        ((padLeading (max a.length b.length) b).getD i 1) := by
  rw [List.getD_eq_getElem?_getD, broadcastShape_getElem? a b i hi]
  rfl

theorem padLeading_getD_aligned (n : Nat) (s : List Nat) (j : Nat) :
    (padLeading n s).getD (n - s.length + j) 1 = s.getD j 1 := by
  rw [padLeading_getD, if_neg (by omega)]
  congr 1
  omega

theorem getD_pos_of_forall (s : List Nat) (h : ∀ x ∈ s, 1 ≤ x) (j : Nat) : 1 ≤ s.getD j 1 := by
  rw [List.getD_eq_getElem?_getD]
  by_cases hj : j < s.length
  · rw [List.getElem?_eq_getElem hj]
    exact h _ (List.getElem_mem hj)
  · rw [List.getElem?_eq_none (by omega)]
    exact le_refl 1

/-- With compatible shapes and sizes of at least 1, the left operand's shape
fits the broadcast shape. -/
theorem fits_left (a b : List Nat) (hc : ¬ Incompatible a b) (hpos : ∀ x ∈ a, 1 ≤ x) :
    Fits a (broadcastShape a b) := by
  rw [Fits, broadcastShape_length]
  refine ⟨le_max_left _ _, fun j hj => ?_⟩
  have hi : max a.length b.length - a.length + j < max a.length b.length := by
    have := le_max_left a.length b.length
    omega
  by_cases h1 : a.getD j 1 = 1
  · exact Or.inl h1
  · right
    rw [broadcastShape_getD a b _ hi, padLeading_getD_aligned]
    have hcomp : ¬ ((padLeading (max a.length b.length) a).getD
          (max a.length b.length - a.length + j) 1 ≠
        (padLeading (max a.length b.length) b).getD
          (max a.length b.length - a.length + j) 1 ∧
        (padLeading (max a.length b.length) a).getD
          (max a.length b.length - a.length + j) 1 ≠ 1 ∧
        (padLeading (max a.length b.length) b).getD
          (max a.length b.length - a.length + j) 1 ≠ 1) :=
      fun h => hc ⟨_, hi, h⟩
    rw [padLeading_getD_aligned] at hcomp
    have hp := getD_pos_of_forall a hpos j
    generalize (padLeading (max a.length b.length) b).getD
      (max a.length b.length - a.length + j) 1 = bi at hcomp ⊢
    by_cases hb : bi = 1
    · rw [hb]
      exact (max_eq_left hp).symm
    · have : a.getD j 1 = bi := by
        by_contra hne
        exact hcomp ⟨hne, h1, hb⟩
      rw [← this, max_self]

/-- With compatible shapes and sizes of at least 1, the right operand's shape
fits the broadcast shape. -/
theorem fits_right (a b : List Nat) (hc : ¬ Incompatible a b) (hpos : ∀ x ∈ b, 1 ≤ x) :
    Fits b (broadcastShape a b) := by
  rw [Fits, broadcastShape_length]
  refine ⟨le_max_right _ _, fun j hj => ?_⟩
  have hi : max a.length b.length - b.length + j < max a.length b.length := by
    have := le_max_right a.length b.length
    omega
  by_cases h1 : b.getD j 1 = 1
  · exact Or.inl h1
  · right
    rw [broadcastShape_getD a b _ hi, padLeading_getD_aligned]
    have hcomp : ¬ ((padLeading (max a.length b.length) a).getD
          (max a.length b.length - b.length + j) 1 ≠
        (padLeading (max a.length b.length) b).getD
          (max a.length b.length - b.length + j) 1 ∧
        (padLeading (max a.length b.length) a).getD
          (max a.length b.length - b.length + j) 1 ≠ 1 ∧
        (padLeading (max a.length b.length) b).getD
          (max a.length b.length - b.length + j) 1 ≠ 1) :=
      fun h => hc ⟨_, hi, h⟩
    rw [padLeading_getD_aligned] at hcomp
    have hp := getD_pos_of_forall b hpos j
    generalize (padLeading (max a.length b.length) a).getD
      (max a.length b.length - b.length + j) 1 = ai at hcomp ⊢
    by_cases ha : ai = 1
    · rw [ha]
      exact (max_eq_right hp).symm
    · have : ai = b.getD j 1 := by
        by_contra hne
        exact hcomp ⟨hne, ha, h1⟩
      rw [this, max_self]

theorem broadcastShape_self (s : List Nat) : broadcastShape s s = s := by
  simp [broadcastShape, padLeading]

/-- Within a shape, a multi-index already has `0` wherever the size is 1. -/
theorem operandIndex_self (s m : List Nat) (h : Within m s) : operandIndex s m = m := by
  rw [within_iff] at h
  obtain ⟨hlen, hlt⟩ := h
  apply ext_getD
  · rw [operandIndex_length s m (by omega), hlen]
  · intro j hj
    rw [operandIndex_length s m (by omega)] at hj
    rw [operandIndex_getD s m (by omega) j hj]
    have e : m.length - s.length + j = j := by omega
    rw [e]
    by_cases h1 : s.getD j 1 = 1
    · rw [if_pos h1]
      have := hlt j hj
      omega
    · rw [if_neg h1]

theorem coords_flatIndex (shape m : List Nat) (h : Within m shape) :
    coords shape (flatIndex shape m) = m := by
  have hlen := ((within_iff m shape).1 h).1
  apply ext_getD
  · rw [coords_length, hlen]
  · intro d hd
    rw [coords_length] at hd
    rw [coords_getD _ _ _ hd, coordAt_flatIndex m shape h d hd]

theorem prod_pos_of_forall (s : List Nat) (h : ∀ x ∈ s, 1 ≤ x) : 0 < s.prod := by
  induction s with
  | nil => simp
  | cons x xs ih =>
    rw [List.prod_cons]
    exact Nat.mul_pos (h x (List.mem_cons_self _ _))
      (ih (fun y hy => h y (List.mem_cons_of_mem _ hy)))

theorem prod_le_prod_of_getD (l₁ l₂ : List Nat) (hlen : l₁.length = l₂.length)
    (h : ∀ j, j < l₁.length → l₁.getD j 1 ≤ l₂.getD j 1) : l₁.prod ≤ l₂.prod := by
  induction l₁ generalizing l₂ with
  | nil =>
    cases l₂ with
    | nil => exact le_refl _
    | cons y ys => simp at hlen
  | cons x xs ih =>
    cases l₂ with
    | nil => simp at hlen
    | cons y ys =>
      rw [List.prod_cons, List.prod_cons]
      apply Nat.mul_le_mul
      · simpa using h 0 (by simp)
      · apply ih ys (by simpa using hlen)
        intro j hj
        simpa using h (j + 1) (by simpa using hj)

/-- When the left operand has sizes of at least 1, each operand's element count
is at most the element count of the broadcast shape. -/
theorem broadcastShape_prod_bounds (a b : List Nat) (hposa : ∀ x ∈ a, 1 ≤ x) :
    a.prod ≤ (broadcastShape a b).prod ∧ b.prod ≤ (broadcastShape a b).prod := by
  have hpada : ∀ i, 1 ≤ (padLeading (max a.length b.length) a).getD i 1 := by
    intro i
    rw [padLeading_getD]
    split_ifs
    · exact le_refl 1
    · exact getD_pos_of_forall a hposa _
  have hout : ∀ i, i < max a.length b.length → 1 ≤ (broadcastShape a b).getD i 1 := by
    intro i hi
    rw [broadcastShape_getD a b i hi]
    exact le_trans (hpada i) (le_max_left _ _)
  have hpos : 0 < (broadcastShape a b).prod := by
    apply prod_pos_of_forall
    intro x hx
    obtain ⟨i, hi, rfl⟩ := List.getElem_of_mem hx
    have := hout i (by rw [broadcastShape_length] at hi; exact hi)
    rwa [List.getD_eq_getElem?_getD, List.getElem?_eq_getElem hi] at this
  have hdrop : ∀ (s : List Nat), s.length ≤ max a.length b.length →
      (∀ j, j < s.length → s.getD j 1 ≤
        (broadcastShape a b).getD (max a.length b.length - s.length + j) 1) →
      s.prod ≤ (broadcastShape a b).prod := by
    intro s hs hle
    refine le_trans (prod_le_prod_of_getD s
      ((broadcastShape a b).drop (max a.length b.length - s.length)) ?_ ?_)
      (drop_prod_le _ hpos _)
    · rw [List.length_drop, broadcastShape_length]
      omega
    · intro j hj
      have := hle j hj
      simpa [List.getD_eq_getElem?_getD, List.getElem?_drop] using this
  constructor
  · apply hdrop a (le_max_left _ _)
    intro j hj
    have hi : max a.length b.length - a.length + j < max a.length b.length := by
      have := le_max_left a.length b.length
      omega
    rw [broadcastShape_getD a b _ hi, padLeading_getD_aligned]
    exact le_max_left _ _
  · apply hdrop b (le_max_right _ _)
    intro j hj
    have hi : max a.length b.length - b.length + j < max a.length b.length := by
      have := le_max_right a.length b.length
      omega
    rw [broadcastShape_getD a b _ hi, padLeading_getD_aligned]
    exact le_max_right _ _

/-! ## Constructors -/

/-- What a successful `Tensor(shape)` returns: the zero-filled buffer of
`NumElements()` elements, a count within `max_size()`. -/
theorem Tensor_shape_ok {T : Type} [Zero T] [MaxSize T] (shape : List Nat) (A : Tensor T)
    (h : Tensor.Tensor_shape shape = .ok A) :
    A = ⟨List.replicate (Tensor.NumElements shape) 0, shape, Tensor.CalculateStrides shape⟩ ∧
      Tensor.NumElements shape ≤ MaxSize.max_size T := by
  unfold Tensor.Tensor_shape at h
  split_ifs at h with h1 h2
  · cases h
    rw [List.isEmpty_iff.1 h1]
    exact ⟨rfl, Nat.zero_le _⟩
  · cases h
    exact ⟨rfl, by omega⟩

/-- `Tensor(shape)` succeeds when the element count is within `max_size()`. -/
theorem Tensor_shape_of_le {T : Type} [Zero T] [MaxSize T] (shape : List Nat)
    (h : Tensor.NumElements shape ≤ MaxSize.max_size T) :
    (Tensor.Tensor_shape shape : Except TensorError (Tensor T)) =
      .ok ⟨List.replicate (Tensor.NumElements shape) 0, shape, Tensor.CalculateStrides shape⟩ := by
  unfold Tensor.Tensor_shape
  split_ifs with h1 h2
  · rw [List.isEmpty_iff.1 h1]
    rfl
  · omega
  · rfl

/-- `Tensor(shape)` throws when the element count exceeds `max_size()`. -/
theorem Tensor_shape_of_lt {T : Type} [Zero T] [MaxSize T] (shape : List Nat)
    (h : MaxSize.max_size T < Tensor.NumElements shape) :
    (Tensor.Tensor_shape shape : Except TensorError (Tensor T)) = .error .LengthError := by
  have hne : shape.isEmpty = false := by
    cases shape with
    | nil => simp [Tensor.NumElements] at h
    | cons s ss => rfl
  simp [Tensor.Tensor_shape, hne, h]

theorem Tensor_shape_data_ok {T : Type} (shape : List Nat) (data : List T) (A : Tensor T)
    (h : Tensor.Tensor_shape_data shape data = .ok A) :
    A = ⟨data, shape, Tensor.CalculateStrides shape⟩ ∧
      (shape ≠ [] → data.length = Tensor.NumElements shape) ∧
      (shape = [] → data.length ≤ 1) := by
  unfold Tensor.Tensor_shape_data at h
  cases shape with
  | nil =>
    simp only [List.isEmpty_nil, not_true_eq_false, if_false] at h
    split at h
    · cases h
    · rename_i hd
      cases h
      refine ⟨rfl, fun hne => absurd rfl hne, fun _ => ?_⟩
      cases data with
      | nil => simp
      | cons x xs =>
        simp only [List.isEmpty_cons, Bool.false_eq_true, not_false_eq_true, true_and,
          not_not] at hd
        omega
  | cons s ss =>
    simp only [List.isEmpty_cons, Bool.false_eq_true, not_false_eq_true, if_true] at h
    split at h
    · cases h
    · rename_i hd
      cases h
      exact ⟨rfl, fun _ => not_not.1 hd, fun hnil => by cases hnil⟩

/-- What the constructors establish: row-major strides, a buffer of
`NumElements()` elements for a non-empty shape and of at most one element for
the empty shape; the sizes are `size_t` values and the buffer is within
`max_size()`. -/
theorem Constructed_facts {T : Type} [Zero T] [MaxSize T] (A : Tensor T) (h : Constructed A) :
    A.strides_ = Tensor.CalculateStrides A.shape_ ∧
      (A.shape_ ≠ [] → A.data_.length = Tensor.NumElements A.shape_) ∧
      (A.shape_ = [] → A.data_.length ≤ 1) ∧
      (∀ s ∈ A.shape_, s ≤ SIZE_MAX) ∧
      A.data_.length ≤ MaxSize.max_size T := by
  rcases h with ⟨shape, hwf, h⟩ | ⟨shape, data, hwf, hcap, h⟩
  · obtain ⟨rfl, hle⟩ := Tensor_shape_ok shape A h
    refine ⟨rfl, fun _ => by simp, fun hnil => ?_, hwf, by simpa using hle⟩
    simp only at hnil
    simp [hnil, NumElements_nil]
  · obtain ⟨rfl, h1, h2⟩ := Tensor_shape_data_ok shape data A h
    exact ⟨rfl, h1, h2, hwf, hcap⟩

/-- The element count of a constructed tensor's shape is within `max_size()`. -/
theorem Constructed_cap {T : Type} [Zero T] [MaxSize T] (A : Tensor T) (h : Constructed A) :
    Tensor.NumElements A.shape_ ≤ MaxSize.max_size T := by
  obtain ⟨-, h1, -, -, h4⟩ := Constructed_facts A h
  by_cases hs : A.shape_ = []
  · rw [hs, NumElements_nil]
    exact Nat.zero_le _
  · rw [← h1 hs]
    exact h4

/-! ## The general path -/

theorem forUpM_ok_of_eq {ε σ : Type} (P : Nat → σ → Prop) (n : Nat)
    (body : Nat → σ → Except ε σ) (s : σ) (res : Except ε σ)
    (hloop : forUpM n body s = res) (h0 : P 0 s)
    (hstep : ∀ i t, i < n → P i t → ∃ t', body i t = .ok t' ∧ P (i + 1) t') :
    ∃ t, res = .ok t ∧ P n t := by
  subst hloop
  exact forUpM_ok P n body s h0 hstep

/-- The general path, given the offsets its decoding loop computes: when the
shapes are compatible, the output fits a vector, and every computed offset lies
in its operand's buffer, the call succeeds and the element at each flat output
index combines the operand elements at the two offsets. -/
theorem ApplyOperationGeneral_of_offsets {T : Type} [Zero T] [MaxSize T] (A B : Tensor T)
    (op : T → T → T) (fa fb : Nat → Nat)
    (hc : ¬ Incompatible A.shape_ B.shape_)
    (hcap : Tensor.NumElements (broadcastShape A.shape_ B.shape_) ≤ MaxSize.max_size T)
    (hoff : ∀ flat, flat < Tensor.NumElements (broadcastShape A.shape_ B.shape_) →
      (Tensor.decodeOffsets (broadcastShape A.shape_ B.shape_).length
          (Tensor.multipliers (broadcastShape A.shape_ B.shape_))
          (Tensor.alignLoop (broadcastShape A.shape_ B.shape_).length A.shape_ A.strides_).1
          (Tensor.alignLoop (broadcastShape A.shape_ B.shape_).length A.shape_ A.strides_).2
          (Tensor.alignLoop (broadcastShape A.shape_ B.shape_).length B.shape_ B.strides_).1
          (Tensor.alignLoop (broadcastShape A.shape_ B.shape_).length B.shape_ B.strides_).2
          flat).1 = fa flat ∧
      (Tensor.decodeOffsets (broadcastShape A.shape_ B.shape_).length
          (Tensor.multipliers (broadcastShape A.shape_ B.shape_))
          (Tensor.alignLoop (broadcastShape A.shape_ B.shape_).length A.shape_ A.strides_).1
          (Tensor.alignLoop (broadcastShape A.shape_ B.shape_).length A.shape_ A.strides_).2
          (Tensor.alignLoop (broadcastShape A.shape_ B.shape_).length B.shape_ B.strides_).1
          (Tensor.alignLoop (broadcastShape A.shape_ B.shape_).length B.shape_ B.strides_).2
          flat).2.1 = fb flat ∧
      fa flat < A.data_.length ∧ fb flat < B.data_.length) :
    ∃ d, Tensor.ApplyOperationGeneral A B op =
        .ok ⟨d, broadcastShape A.shape_ B.shape_,
          Tensor.CalculateStrides (broadcastShape A.shape_ B.shape_)⟩ ∧
      d.length = Tensor.NumElements (broadcastShape A.shape_ B.shape_) ∧
      ∀ flat, flat < Tensor.NumElements (broadcastShape A.shape_ B.shape_) →
        ∃ x y, A.data_[fa flat]? = some x ∧ B.data_[fb flat]? = some y ∧
          d[flat]? = some (op x y) := by
  simp only [Tensor.ApplyOperationGeneral, BroadcastShapesImpl_compatible _ _ hc,
    Tensor_shape_of_le _ hcap]
  generalize hloop : forUpM _ _ _ = res
  obtain ⟨d, hd, hlen, hget⟩ := forUpM_ok_of_eq
    (fun k (d : List T) =>
      d.length = Tensor.NumElements (broadcastShape A.shape_ B.shape_) ∧
      ∀ flat, flat < k →
        ∃ x y, A.data_[fa flat]? = some x ∧ B.data_[fb flat]? = some y ∧
          d[flat]? = some (op x y))
    _ _ _ _ hloop
    ⟨by simp, fun flat hflat => by omega⟩
    (by
      intro flat d hflat ⟨hlen, hget⟩
      obtain ⟨ea, eb, hla, hlb⟩ := hoff flat hflat
      simp only [ea, eb, rd_of_lt _ _ hla, rd_of_lt _ _ hlb]
      rw [wr_ok _ _ _ (by rw [hlen]; exact hflat)]
      refine ⟨_, rfl, by simpa using hlen, fun flat' hflat' => ?_⟩
      by_cases hff : flat' = flat
      · subst hff
        refine ⟨_, _, List.getElem?_eq_getElem hla, List.getElem?_eq_getElem hlb, ?_⟩
        rw [List.getElem?_set_self (by rw [hlen]; exact hflat)]
      · obtain ⟨x, y, hx, hy, hxy⟩ := hget flat' (by omega)
        refine ⟨x, y, hx, hy, ?_⟩
        rw [List.getElem?_set_ne (by omega)]
        exact hxy)
  subst hd
  exact ⟨d, rfl, hlen, hget⟩

/-- Closed form of the general path where nothing wraps, on operands whose
shapes fit the broadcast shape: the call succeeds, and the element at each flat
output index combines the operand elements at the row-major flat indices of the
operands' multi-indices. -/
theorem ApplyOperationGeneral_spec {T : Type} [Zero T] [MaxSize T] (A B : Tensor T)
    (op : T → T → T)
    (hsA : A.strides_ = Tensor.CalculateStrides A.shape_)
    (hsB : B.strides_ = Tensor.CalculateStrides B.shape_)
    (hdA : A.data_.length = A.shape_.prod) (hdB : B.data_.length = B.shape_.prod)
    (hposA : 0 < A.shape_.prod) (hposB : 0 < B.shape_.prod)
    (hbA : A.shape_.prod ≤ SIZE_MAX) (hbB : B.shape_.prod ≤ SIZE_MAX)
    (hc : ¬ Incompatible A.shape_ B.shape_)
    (hfA : Fits A.shape_ (broadcastShape A.shape_ B.shape_))
    (hfB : Fits B.shape_ (broadcastShape A.shape_ B.shape_))
    (hne : broadcastShape A.shape_ B.shape_ ≠ [])
    (hcap : (broadcastShape A.shape_ B.shape_).prod ≤ MaxSize.max_size T) :
    ∃ d, Tensor.ApplyOperationGeneral A B op =
        .ok ⟨d, broadcastShape A.shape_ B.shape_,
          Tensor.CalculateStrides (broadcastShape A.shape_ B.shape_)⟩ ∧
      d.length = (broadcastShape A.shape_ B.shape_).prod ∧
      ∀ flat, flat < (broadcastShape A.shape_ B.shape_).prod →
        ∃ x y,
          A.data_[flatIndex A.shape_
            (operandIndex A.shape_ (coords (broadcastShape A.shape_ B.shape_) flat))]? = some x ∧
          B.data_[flatIndex B.shape_
            (operandIndex B.shape_ (coords (broadcastShape A.shape_ B.shape_) flat))]? = some y ∧
          d[flat]? = some (op x y) := by
  have hbo : (broadcastShape A.shape_ B.shape_).prod ≤ SIZE_MAX :=
    le_trans hcap MaxSize.max_size_le
  have hN := NumElements_eq_prod _ hne hbo
  have := ApplyOperationGeneral_of_offsets A B op
    (fun flat => flatIndex A.shape_
      (operandIndex A.shape_ (coords (broadcastShape A.shape_ B.shape_) flat)))
    (fun flat => flatIndex B.shape_
      (operandIndex B.shape_ (coords (broadcastShape A.shape_ B.shape_) flat)))
    hc (by rw [hN]; exact hcap)
    (by
      intro flat hflat
      rw [hN] at hflat
      rw [hsA, hsB]
      obtain ⟨ea, eb⟩ := decodeOffsets_flatIndex (broadcastShape A.shape_ B.shape_)
        A.shape_ B.shape_ hfA hfB hposA hposB hbA hbB hbo flat hflat
      have hw := coords_within _ flat hflat
      have hla := flatIndex_lt _ _ (operand_within A.shape_ _ _ hw hfA)
      have hlb := flatIndex_lt _ _ (operand_within B.shape_ _ _ hw hfB)
      rw [← hdA] at hla
      rw [← hdB] at hlb
      exact ⟨ea, eb, hla, hlb⟩)
  rw [hN] at this
  exact this

/-! ## The fast path -/

/-- Closed form of the fast path on operands whose buffers have the element
count of the (shared) shape: the call succeeds and combines the buffers index
for index. -/
theorem ApplyOperationFast_spec {T : Type} [Zero T] [MaxSize T] (A B : Tensor T)
    (op : T → T → T)
    (hdA : A.data_.length = Tensor.NumElements A.shape_)
    (hdB : B.data_.length = Tensor.NumElements A.shape_)
    (hcap : Tensor.NumElements A.shape_ ≤ MaxSize.max_size T) :
    ∃ d, Tensor.ApplyOperationFast A B op =
        .ok ⟨d, A.shape_, Tensor.CalculateStrides A.shape_⟩ ∧
      d.length = Tensor.NumElements A.shape_ ∧
      ∀ i, i < Tensor.NumElements A.shape_ →
        ∃ x y, A.data_[i]? = some x ∧ B.data_[i]? = some y ∧ d[i]? = some (op x y) := by
  simp only [Tensor.ApplyOperationFast, Tensor_shape_of_le _ hcap, List.length_replicate,
    hdA, hdB, ne_eq, not_true_eq_false, or_self, if_false]
  generalize hloop : forUpM _ _ _ = res
  obtain ⟨d, hd, hlen, hget⟩ := forUpM_ok_of_eq
    (fun k (d : List T) =>
      d.length = Tensor.NumElements A.shape_ ∧
      ∀ i, i < k →
        ∃ x y, A.data_[i]? = some x ∧ B.data_[i]? = some y ∧ d[i]? = some (op x y))
    _ _ _ _ hloop
    ⟨by simp, fun i hi => by omega⟩
    (by
      intro i d hi ⟨hlen, hget⟩
      have hla : i < A.data_.length := by omega
      have hlb : i < B.data_.length := by omega
      simp only [rd_of_lt _ _ hla, rd_of_lt _ _ hlb]
      rw [wr_ok _ _ _ (by omega)]
      refine ⟨_, rfl, by simpa using hlen, fun i' hi' => ?_⟩
      by_cases hii : i' = i
      · subst hii
        refine ⟨_, _, List.getElem?_eq_getElem hla, List.getElem?_eq_getElem hlb, ?_⟩
        rw [List.getElem?_set_self (by omega)]
      · obtain ⟨x, y, hx, hy, hxy⟩ := hget i' (by omega)
        refine ⟨x, y, hx, hy, ?_⟩
        rw [List.getElem?_set_ne (by omega)]
        exact hxy)
  subst hd
  exact ⟨d, rfl, hlen, hget⟩

/-- A constructed operand with a non-empty buffer, whose sizes have a product
that does not wrap, holds `product(shape)` elements, the empty shape included. -/
theorem Constructed_length {T : Type} [Zero T] [MaxSize T] (A : Tensor T) (h : Constructed A)
    (hne : A.data_ ≠ []) (hb : A.shape_.prod ≤ SIZE_MAX) : A.data_.length = A.shape_.prod := by
  obtain ⟨-, h1, h2, -, -⟩ := Constructed_facts A h
  by_cases hs : A.shape_ = []
  · have := h2 hs
    have hpos : 0 < A.data_.length := List.length_pos.2 hne
    rw [hs, List.prod_nil]
    omega
  · rw [h1 hs, NumElements_eq_prod _ hs hb]

/-! ## The general path on operands of the output's shape, and on `(1,)` -/

theorem forUpM_ok_post {ε σ : Type} (P : Nat → σ → Prop) (Q : σ → Prop) (n : Nat)
    (body : Nat → σ → Except ε σ) (s : σ) (h0 : P 0 s)
    (hstep : ∀ i t, i < n → P i t → ∃ t', body i t = .ok t' ∧ P (i + 1) t')
    (hpost : ∀ t, P n t → Q t) : ∃ t, forUpM n body s = .ok t ∧ Q t := by
  obtain ⟨t, ht, hp⟩ := forUpM_ok P n body s h0 hstep
  exact ⟨t, ht, hpost t hp⟩

theorem idx_lt (i j M N : Nat) (hi : i < M) (hj : j < N) : i * N + j < M * N := by
  calc i * N + j < i * N + N := by omega
    _ = (i + 1) * N := by ring
    _ ≤ M * N := Nat.mul_le_mul_right _ hi

theorem idx_div (i j N : Nat) (hj : j < N) : (i * N + j) / N = i := by
  rw [Nat.mul_comm, Nat.mul_add_div (by omega), Nat.div_eq_of_lt hj, Nat.add_zero]

theorem idx_mod (i j N : Nat) (hj : j < N) : (i * N + j) % N = j := by
  rw [Nat.mul_comm, Nat.mul_add_mod, Nat.mod_eq_of_lt hj]

theorem idx_ne (p i j N : Nat) (h : p ≠ i * N + j) :
    ¬ (p / N = i ∧ p % N = j) := by
  rintro ⟨h1, h2⟩
  apply h
  rw [← h1, ← h2]
  exact (Nat.div_add_mod' p N).symm

theorem accum_succ {T : Type} [Zero T] [Add T] (K : Nat) (f : Nat → T) :
    accum (K + 1) f = accum K f + f K := rfl

theorem accum_zero {T : Type} [Zero T] [Add T] (f : Nat → T) : accum 0 f = 0 := rfl

theorem cellAt_inner_end {T : Type} [Zero T] [Add T] (K N : Nat) (f : Nat → Nat → Nat → T)
    (i k pi pj : Nat) (hpj : pj < N) : cellAt K f i k N pi pj = cellAt K f i (k + 1) 0 pi pj := by
  simp [cellAt, hpj]

theorem cellAt_row_end {T : Type} [Zero T] [Add T] (K : Nat) (f : Nat → Nat → Nat → T)
    (i pi pj : Nat) : cellAt K f i K 0 pi pj = cellAt K f (i + 1) 0 0 pi pj := by
  simp only [cellAt, Nat.not_lt_zero, if_false, accum_zero]
  by_cases h1 : pi < i
  · rw [if_pos h1, if_pos (by omega)]
  · rw [if_neg h1]
    by_cases h2 : pi = i
    · rw [if_pos h2, if_pos (by omega), h2]
    · rw [if_neg h2, if_neg (by omega)]
      by_cases h3 : pi = i + 1
      · rw [if_pos h3]
      · rw [if_neg h3]

/-- A row-major subscript `i * K + k * 1` below a count that does not wrap is
computed without wrapping. -/
theorem szIdx (i k M K : Nat) (hi : i < M) (hk : k < K) (hb : M * K ≤ SIZE_MAX) :
    szAdd (szMul i K) (szMul k 1) = i * K + k := by
  have h := idx_lt i k M K hi hk
  have h1 : i * K ≤ i * K + k := Nat.le_add_right _ _
  rw [szMul_of_le i K (by omega), szMul_of_le k 1 (by omega), Nat.mul_one,
    szAdd_of_le _ _ (by omega)]

/-- The i-k-j loops of the 2D.2D branch on row-major buffers of `M*K` and `K*N`
elements, none of the three counts wrapping: they succeed, and cell `(i, j)` of
the output ends as the accumulation over `k` of `A[i*K+k] * B[k*N+j]`. -/
theorem dot22_loop {T : Type} [Zero T] [Add T] [Mul T] (A B : List T) (M K N : Nat)
    (hA : A.length = M * K) (hB : B.length = K * N)
    (hbA : M * K ≤ SIZE_MAX) (hbB : K * N ≤ SIZE_MAX) (hbO : M * N ≤ SIZE_MAX) :
    ∃ d, forUpM M
        (fun i d =>
          forUpM K
            (fun k d =>
              match rd A (szAdd (szMul i K) (szMul k 1)) with
              | .error e => .error e
              | .ok a =>
                forUpM N
                  (fun j d =>
                    match rd B (szAdd (szMul k N) (szMul j 1)) with
                    | .error e => .error e
                    | .ok b =>
                      match rd d (szAdd (szMul i N) (szMul j 1)) with
                      | .error e => .error e
                      | .ok cur => wr d (szAdd (szMul i N) (szMul j 1)) (cur + a * b))
                  d)
            d)
        (List.replicate (M * N) (0 : T)) = .ok d ∧
      d.length = M * N ∧
      ∀ i j, i < M → j < N →
        d[i * N + j]? =
          some (accum K (fun k => A.getD (i * K + k) 0 * B.getD (k * N + j) 0)) := by
  apply forUpM_ok_post
    (fun i (d : List T) => d.length = M * N ∧ ∀ p, p < M * N →
      d[p]? = some (cellAt K (fun i j k => A.getD (i * K + k) 0 * B.getD (k * N + j) 0)
        i 0 0 (p / N) (p % N)))
  · refine ⟨by simp, fun p hp => ?_⟩
    rw [List.getElem?_replicate_of_lt hp]
    simp [cellAt, accum_zero]
  · intro i d hi hP
    apply forUpM_ok_post
      (fun k (d : List T) => d.length = M * N ∧ ∀ p, p < M * N →
        d[p]? = some (cellAt K (fun i j k => A.getD (i * K + k) 0 * B.getD (k * N + j) 0)
          i k 0 (p / N) (p % N)))
    · exact hP
    · intro k d hk hQ
      have hik : i * K + k < A.length := by
        rw [hA]; exact idx_lt i k M K hi hk
      simp only [szIdx i k M K hi hk hbA, rd_of_lt _ _ hik]
      apply forUpM_ok_post
        (fun j (d : List T) => d.length = M * N ∧ ∀ p, p < M * N →
          d[p]? = some (cellAt K (fun i j k => A.getD (i * K + k) 0 * B.getD (k * N + j) 0)
            i k j (p / N) (p % N)))
      · exact hQ
      · intro j d hj ⟨hlen, hget⟩
        have hkj : k * N + j < B.length := by
          rw [hB]; exact idx_lt k j K N hk hj
        have hij : i * N + j < d.length := by
          rw [hlen]; exact idx_lt i j M N hi hj
        have hcur := hget (i * N + j) (idx_lt i j M N hi hj)
        rw [idx_div i j N hj, idx_mod i j N hj] at hcur
        simp only [szIdx k j K N hk hj hbB, szIdx i j M N hi hj hbO, rd_of_lt _ _ hkj,
          rd_ok _ _ _ hcur, wr_ok _ _ _ hij]
        refine ⟨_, rfl, by simpa using hlen, fun p hp => ?_⟩
        by_cases hpe : p = i * N + j
        · subst hpe
          rw [List.getElem?_set_self hij, idx_div i j N hj, idx_mod i j N hj]
          simp only [cellAt, lt_irrefl, if_false, if_true, Nat.lt_succ_self, accum_succ]
          have e1 : A[i * K + k] = A.getD (i * K + k) 0 := by
            simp [List.getD_eq_getElem?_getD, List.getElem?_eq_getElem hik]
          have e2 : B[k * N + j] = B.getD (k * N + j) 0 := by
            simp [List.getD_eq_getElem?_getD, List.getElem?_eq_getElem hkj]
          rw [e1, e2]
        · rw [List.getElem?_set_ne (fun h => hpe h.symm), hget p hp]
          have hne := idx_ne p i j N hpe
          congr 1
          simp only [cellAt]
          by_cases h1 : p / N < i
          · simp [h1]
          · by_cases h2 : p / N = i
            · have h3 : p % N ≠ j := fun h => hne ⟨h2, h⟩
              have h4 : p % N < j + 1 ↔ p % N < j := by omega
              simp [h2, h4]
            · simp [h1, h2]
      · intro d ⟨hlen, hget⟩
        refine ⟨hlen, fun p hp => ?_⟩
        have hN : 0 < N := by
          rcases Nat.eq_zero_or_pos N with h | h
          · rw [h] at hp; simp at hp
          · exact h
        rw [hget p hp, cellAt_inner_end K N _ i k _ _ (Nat.mod_lt _ hN)]
    · intro d ⟨hlen, hget⟩
      refine ⟨hlen, fun p hp => ?_⟩
      rw [hget p hp, cellAt_row_end]
  · intro d ⟨hlen, hget⟩
    refine ⟨hlen, fun i j hi hj => ?_⟩
    rw [hget _ (idx_lt i j M N hi hj), idx_div i j N hj, idx_mod i j N hj]
    simp [cellAt, hi]

theorem accum_eq_sum {T : Type} [Semiring T] (K : Nat) (f : Nat → T) :
    accum K f = ∑ k ∈ Finset.range K, f k := by
  induction K with
  | zero => simp [accum_zero]
  | succ n ih => rw [accum_succ, ih, Finset.sum_range_succ]

theorem accum_congr {T : Type} [Zero T] [Add T] (K : Nat) (f g : Nat → T)
    (h : ∀ k, k < K → f k = g k) : accum K f = accum K g := by
  induction K with
  | zero => rfl
  | succ n ih =>
    rw [accum_succ, accum_succ, ih (fun k hk => h k (Nat.lt_succ_of_lt hk)),
      h n (Nat.lt_succ_self n)]

/-- An accumulation loop of `dot`: `acc += X[ix k] * Y[iy k]` for `k < K`, all
subscripts in range. -/
theorem dot_acc_loop {T : Type} [Zero T] [Add T] [Mul T] (X Y : List T) (ix iy : Nat → Nat)
    (K : Nat) (hx : ∀ k, k < K → ix k < X.length) (hy : ∀ k, k < K → iy k < Y.length) :
    forUpM K
        (fun k acc =>
          match rd X (ix k) with
          | .error e => .error e
          | .ok x =>
            match rd Y (iy k) with
            | .error e => .error e
            | .ok y => .ok (acc + x * y))
        (0 : T) =
      .ok (accum K (fun k => X.getD (ix k) 0 * Y.getD (iy k) 0)) := by
  apply forUpM_eq_ok
    (fun k (acc : T) => k ≤ K → acc = accum k (fun k => X.getD (ix k) 0 * Y.getD (iy k) 0))
  · intro _
    rfl
  · intro k acc hk hP
    have h1 := hx k hk
    have h2 := hy k hk
    simp only [rd_of_lt _ _ h1, rd_of_lt _ _ h2]
    refine ⟨_, rfl, fun _ => ?_⟩
    rw [accum_succ, ← hP (by omega)]
    simp [List.getD_eq_getElem?_getD, List.getElem?_eq_getElem h1, List.getElem?_eq_getElem h2]
  · intro acc hP
    exact hP (le_refl _)

/-- A loop filling an output vector cell by cell with values that are all
available. -/
theorem fill_loop {T : Type} [Zero T] (n : Nat) (g : Nat → Except TensorError T)
    (v : Nat → T) (hg : ∀ i, i < n → g i = .ok (v i)) :
    ∃ d, forUpM n
        (fun i d =>
          match g i with
          | .error e => .error e
          | .ok acc => wr d i acc)
        (List.replicate n (0 : T)) = .ok d ∧
      d.length = n ∧ ∀ i, i < n → d[i]? = some (v i) := by
  apply forUpM_ok_post
    (fun k (d : List T) => d.length = n ∧ ∀ i, i < k → d[i]? = some (v i))
  · exact ⟨by simp, fun i hi => by omega⟩
  · intro i d hi ⟨hlen, hget⟩
    simp only [hg i hi]
    rw [wr_ok _ _ _ (by omega)]
    refine ⟨_, rfl, by simpa using hlen, fun i' hi' => ?_⟩
    by_cases hii : i' = i
    · subst hii
      rw [List.getElem?_set_self (by omega)]
    · rw [List.getElem?_set_ne (by omega)]
      exact hget i' (by omega)
  · intro d hd
    exact hd

theorem CalculateStrides_one (K : Nat) : Tensor.CalculateStrides [K] = [1] := rfl

theorem CalculateStrides_two_mod (M K : Nat) :
    Tensor.CalculateStrides [M, K] = [szMul 1 K, 1] := by
  simp [Tensor.CalculateStrides, forDown]

theorem CalculateStrides_two (M K : Nat) (hK : K ≤ SIZE_MAX) :
    Tensor.CalculateStrides [M, K] = [K, 1] := by
  rw [CalculateStrides_two_mod, szMul_one_left K hK]

theorem NumElements_one (K : Nat) (hK : K ≤ SIZE_MAX) : Tensor.NumElements [K] = K := by
  rw [NumElements_eq_prod [K] (by simp) (by simpa using hK)]
  simp

theorem NumElements_two (M K : Nat) (hb : M * K ≤ SIZE_MAX) :
    Tensor.NumElements [M, K] = M * K := by
  rw [NumElements_eq_prod [M, K] (by simp) (by simpa using hb)]
  simp

/-- `Tensor({n})` within `max_size()`. -/
theorem Tensor_shape_one {T : Type} [Zero T] [MaxSize T] (n : Nat)
    (hcap : n ≤ MaxSize.max_size T) :
    (Tensor.Tensor_shape [n] : Except TensorError (Tensor T)) =
      .ok ⟨List.replicate n 0, [n], [1]⟩ := by
  have hN := NumElements_one n (le_trans hcap MaxSize.max_size_le)
  rw [Tensor_shape_of_le [n] (by rw [hN]; exact hcap), hN, CalculateStrides_one]

/-- `Tensor({m, n})` with a count within `max_size()`. -/
theorem Tensor_shape_two {T : Type} [Zero T] [MaxSize T] (m n : Nat) (hn : n ≤ SIZE_MAX)
    (hcap : m * n ≤ MaxSize.max_size T) :
    (Tensor.Tensor_shape [m, n] : Except TensorError (Tensor T)) =
      .ok ⟨List.replicate (m * n) 0, [m, n], [n, 1]⟩ := by
  have hN := NumElements_two m n (le_trans hcap MaxSize.max_size_le)
  rw [Tensor_shape_of_le [m, n] (by rw [hN]; exact hcap), hN, CalculateStrides_two m n hn]

theorem Constructed_1d {T : Type} [Zero T] [MaxSize T] (A : Tensor T) (K : Nat)
    (h : Constructed A) (hs : A.shape_ = [K]) :
    A.strides_ = [1] ∧ A.data_.length = K ∧ K ≤ SIZE_MAX := by
  obtain ⟨h1, h2, -, h4, -⟩ := Constructed_facts A h
  rw [hs] at h1 h2 h4
  have hK : K ≤ SIZE_MAX := h4 K (by simp)
  exact ⟨h1, by rw [h2 (by simp), NumElements_one K hK], hK⟩

theorem Constructed_2d {T : Type} [Zero T] [MaxSize T] (A : Tensor T) (M K : Nat)
    (h : Constructed A) (hs : A.shape_ = [M, K]) (hb : M * K ≤ SIZE_MAX) :
    A.strides_ = [K, 1] ∧ A.data_.length = M * K ∧ M ≤ SIZE_MAX ∧ K ≤ SIZE_MAX := by
  obtain ⟨h1, h2, -, h4, -⟩ := Constructed_facts A h
  rw [hs] at h1 h2 h4
  have hM : M ≤ SIZE_MAX := h4 M (by simp)
  have hK : K ≤ SIZE_MAX := h4 K (by simp)
  exact ⟨by rw [h1, CalculateStrides_two M K hK], by rw [h2 (by simp), NumElements_two M K hb],
    hM, hK⟩

/-- Closed form of the 1D.1D branch. -/
theorem dot11_spec {T : Type} [Zero T] [MaxSize T] [Add T] [Mul T] (u v : Tensor T) (K : Nat)
    (hu : Constructed u) (hus : u.shape_ = [K]) (hv : Constructed v) (hvs : v.shape_ = [K]) :
    Tensor.dot u v =
      .ok ⟨[accum K (fun i => u.data_.getD i 0 * v.data_.getD i 0)], [1], [1]⟩ := by
  obtain ⟨-, hlu, -⟩ := Constructed_1d u K hu hus
  obtain ⟨-, hlv, -⟩ := Constructed_1d v K hv hvs
  simp only [Tensor.dot, Tensor.NDim, hus, hvs, List.length_singleton, and_self, if_true,
    Tensor.dot11, List.getD_cons_zero, ne_eq, not_true_eq_false, if_false]
  have := dot_acc_loop u.data_ v.data_ (fun i => i) (fun i => i) K
    (fun k hk => by beta_reduce; omega) (fun k hk => by beta_reduce; omega)
  simp only at this
  rw [this]
  rfl

/-- Closed form of the 2D.2D branch where no count wraps and the output fits a
vector. -/
theorem dot22_spec {T : Type} [Zero T] [MaxSize T] [Add T] [Mul T] (A B : Tensor T)
    (M K N : Nat) (hA : Constructed A) (hAs : A.shape_ = [M, K]) (hB : Constructed B)
    (hBs : B.shape_ = [K, N]) (hbA : M * K ≤ SIZE_MAX) (hbB : K * N ≤ SIZE_MAX)
    (hcap : M * N ≤ MaxSize.max_size T) :
    ∃ d, Tensor.dot A B = .ok ⟨d, [M, N], [N, 1]⟩ ∧ d.length = M * N ∧
      ∀ i j, i < M → j < N →
        d[i * N + j]? =
          some (accum K (fun k => A.data_.getD (i * K + k) 0 * B.data_.getD (k * N + j) 0)) := by
  obtain ⟨hsA, hlA, -, -⟩ := Constructed_2d A M K hA hAs hbA
  obtain ⟨hsB, hlB, -, hN⟩ := Constructed_2d B K N hB hBs hbB
  obtain ⟨d, hd, hlen, hget⟩ := dot22_loop A.data_ B.data_ M K N hlA hlB hbA hbB
    (le_trans hcap MaxSize.max_size_le)
  refine ⟨d, ?_, hlen, hget⟩
  simp only [Tensor.dot, Tensor.NDim, hAs, hBs, List.length_cons, List.length_nil,
    Tensor.dot22, hsA, hsB, Tensor_shape_two M N hN hcap, List.getD_cons_zero,
    List.getD_cons_succ, ne_eq, not_true_eq_false, if_false]
  simp only [Nat.reduceAdd, OfNat.ofNat_ne_one, false_and, if_false, and_self, if_true, hd]

/-- Closed form of the 2D.1D branch where the matrix count does not wrap and
the output fits a vector. -/
theorem dot21_spec {T : Type} [Zero T] [MaxSize T] [Add T] [Mul T] (A v : Tensor T) (M K : Nat)
    (hA : Constructed A) (hAs : A.shape_ = [M, K]) (hv : Constructed v) (hvs : v.shape_ = [K])
    (hbA : M * K ≤ SIZE_MAX) (hcap : M ≤ MaxSize.max_size T) :
    ∃ d, Tensor.dot A v = .ok ⟨d, [M], [1]⟩ ∧ d.length = M ∧
      ∀ i, i < M →
        d[i]? = some (accum K (fun k => A.data_.getD (i * K + k) 0 * v.data_.getD k 0)) := by
  obtain ⟨hsA, hlA, -, -⟩ := Constructed_2d A M K hA hAs hbA
  obtain ⟨-, hlv, -⟩ := Constructed_1d v K hv hvs
  obtain ⟨d, hd, hlen, hget⟩ := fill_loop M
    (fun i => forUpM K
      (fun k acc =>
        match rd A.data_ (szAdd (szMul i K) (szMul k 1)) with
        | .error e => .error e
        | .ok x =>
          match rd v.data_ k with
          | .error e => .error e
          | .ok y => .ok (acc + x * y))
      (0 : T))
    (fun i => accum K (fun k => A.data_.getD (i * K + k) 0 * v.data_.getD k 0))
    (fun i hi => by
      beta_reduce
      rw [dot_acc_loop A.data_ v.data_ (fun k => szAdd (szMul i K) (szMul k 1)) (fun k => k) K
        (fun k hk => by
          beta_reduce
          rw [szIdx i k M K hi hk hbA, hlA]
          exact idx_lt i k M K hi hk)
        (fun k hk => by beta_reduce; omega)]
      congr 1
      apply accum_congr
      intro k hk
      beta_reduce
      rw [szIdx i k M K hi hk hbA])
  refine ⟨d, ?_, hlen, hget⟩
  simp only [Tensor.dot, Tensor.NDim, hAs, hvs, List.length_cons, List.length_nil,
    Tensor.dot21, hsA, Tensor_shape_one M hcap, List.getD_cons_zero, List.getD_cons_succ,
    ne_eq, not_true_eq_false, if_false]
  rw [hd]
  simp

/-- Closed form of the 1D.2D branch where the matrix count does not wrap and
the output fits a vector. -/
theorem dot12_spec {T : Type} [Zero T] [MaxSize T] [Add T] [Mul T] (v B : Tensor T) (K N : Nat)
    (hv : Constructed v) (hvs : v.shape_ = [K]) (hB : Constructed B)
    (hBs : B.shape_ = [K, N]) (hbB : K * N ≤ SIZE_MAX) (hcap : N ≤ MaxSize.max_size T) :
    ∃ d, Tensor.dot v B = .ok ⟨d, [N], [1]⟩ ∧ d.length = N ∧
      ∀ j, j < N →
        d[j]? = some (accum K (fun k => v.data_.getD k 0 * B.data_.getD (k * N + j) 0)) := by
  obtain ⟨hsB, hlB, -, -⟩ := Constructed_2d B K N hB hBs hbB
  obtain ⟨-, hlv, -⟩ := Constructed_1d v K hv hvs
  obtain ⟨d, hd, hlen, hget⟩ := fill_loop N
    (fun j => forUpM K
      (fun k acc =>
        match rd v.data_ k with
        | .error e => .error e
        | .ok x =>
          match rd B.data_ (szAdd (szMul k N) (szMul j 1)) with
          | .error e => .error e
          | .ok y => .ok (acc + x * y))
      (0 : T))
    (fun j => accum K (fun k => v.data_.getD k 0 * B.data_.getD (k * N + j) 0))
    (fun j hj => by
      beta_reduce
      rw [dot_acc_loop v.data_ B.data_ (fun k => k) (fun k => szAdd (szMul k N) (szMul j 1)) K
        (fun k hk => by beta_reduce; omega)
        (fun k hk => by
          beta_reduce
          rw [szIdx k j K N hk hj hbB, hlB]
          exact idx_lt k j K N hk hj)]
      congr 1
      apply accum_congr
      intro k hk
      beta_reduce
      rw [szIdx k j K N hk hj hbB])
  refine ⟨d, ?_, hlen, hget⟩
  simp only [Tensor.dot, Tensor.NDim, hBs, hvs, List.length_cons, List.length_nil,
    Tensor.dot12, hsB, Tensor_shape_one N hcap, List.getD_cons_zero, List.getD_cons_succ,
    ne_eq, not_true_eq_false, if_false]
  rw [hd]
  simp

/-! ## The rank dispatch of `dot` -/

theorem shape_of_ndim_one {T : Type} (A : Tensor T) (h : A.NDim = 1) : ∃ K, A.shape_ = [K] :=
  List.length_eq_one.1 h

theorem shape_of_ndim_two {T : Type} (A : Tensor T) (h : A.NDim = 2) :
    ∃ M K, A.shape_ = [M, K] :=
  List.length_eq_two.1 h

theorem dot_eq_dot11 {T : Type} [Zero T] [MaxSize T] [Add T] [Mul T] (A B : Tensor T) (K K' : Nat)
    (hA : A.shape_ = [K]) (hB : B.shape_ = [K']) : Tensor.dot A B = Tensor.dot11 A B := by
  simp [Tensor.dot, Tensor.NDim, hA, hB]

theorem dot_eq_dot22 {T : Type} [Zero T] [MaxSize T] [Add T] [Mul T] (A B : Tensor T) (M K K' N : Nat)
    (hA : A.shape_ = [M, K]) (hB : B.shape_ = [K', N]) : Tensor.dot A B = Tensor.dot22 A B := by
  simp [Tensor.dot, Tensor.NDim, hA, hB]

theorem dot_eq_dot21 {T : Type} [Zero T] [MaxSize T] [Add T] [Mul T] (A B : Tensor T) (M K K' : Nat)
    (hA : A.shape_ = [M, K]) (hB : B.shape_ = [K']) : Tensor.dot A B = Tensor.dot21 A B := by
  simp [Tensor.dot, Tensor.NDim, hA, hB]

theorem dot_eq_dot12 {T : Type} [Zero T] [MaxSize T] [Add T] [Mul T] (A B : Tensor T) (K K' N : Nat)
    (hA : A.shape_ = [K]) (hB : B.shape_ = [K', N]) : Tensor.dot A B = Tensor.dot12 A B := by
  simp [Tensor.dot, Tensor.NDim, hA, hB]

/-- Outside the four supported rank pairs `dot` throws `UnsupportedRank`,
whatever the sizes. -/
theorem dot_unsupported {T : Type} [Zero T] [MaxSize T] [Add T] [Mul T] (A B : Tensor T)
    (h : ¬ ((A.NDim = 1 ∨ A.NDim = 2) ∧ (B.NDim = 1 ∨ B.NDim = 2))) :
    Tensor.dot A B = .error .UnsupportedRank := by
  unfold Tensor.dot
  rw [if_neg (fun hc => h ⟨Or.inl hc.1, Or.inl hc.2⟩),
    if_neg (fun hc => h ⟨Or.inr hc.1, Or.inr hc.2⟩),
    if_neg (fun hc => h ⟨Or.inr hc.1, Or.inl hc.2⟩),
    if_neg (fun hc => h ⟨Or.inl hc.1, Or.inr hc.2⟩)]

/-! ## Failure kinds of the `dot` branches -/

theorem rd_bind_error_kind {T σ : Type} (v : List T) (i : Nat) (f : T → Except TensorError σ)
    (e : TensorError)
    (h : (match rd v i with
          | .error e => .error e
          | .ok x => f x) = Except.error e)
    (hf : ∀ x e, f x = .error e → e = .OutOfRange) : e = .OutOfRange := by
  cases hr : rd v i with
  | error e1 =>
    simp only [hr] at h
    cases h
    exact rd_error _ _ _ hr
  | ok x =>
    simp only [hr] at h
    exact hf x e h

theorem loop_bind_error_kind {σ τ : Type} (x : Except TensorError σ)
    (f : σ → Except TensorError τ) (e : TensorError)
    (h : (match x with
          | .error e => .error e
          | .ok a => f a) = Except.error e)
    (hx : ∀ e, x = .error e → e = .OutOfRange)
    (hf : ∀ a e, f a = .error e → e = .OutOfRange) : e = .OutOfRange := by
  cases x with
  | error e1 =>
    simp only at h
    cases h
    exact hx _ rfl
  | ok a =>
    simp only at h
    exact hf a e h

theorem forUpM_skip {ε σ : Type} (n : Nat) (body : Nat → σ → Except ε σ) (s : σ)
    (h : ∀ i t, i < n → body i t = .ok t) : forUpM n body s = .ok s := by
  apply forUpM_eq_ok (fun _ t => t = s)
  · rfl
  · intro i t hi ht
    exact ⟨t, h i t hi, ht⟩
  · intro t ht
    exact ht

theorem dot11_error_kind {T : Type} [Zero T] [Add T] [Mul T] (A B : Tensor T) (e : TensorError)
    (h : Tensor.dot11 A B = .error e) :
    (e = .DimensionMismatch ∧ A.shape_.getD 0 0 ≠ B.shape_.getD 0 0) ∨ e = .OutOfRange := by
  unfold Tensor.dot11 at h
  split_ifs at h with hk
  · cases h
    exact Or.inl ⟨rfl, hk⟩
  · right
    refine loop_bind_error_kind _ _ e h (fun e' he' => ?_) (fun acc e' he' => ?_)
    · refine forUpM_error_kind TensorError.OutOfRange _ _ _ (fun i acc e'' hb => ?_) e' he'
      refine rd_bind_error_kind _ _ _ e'' hb (fun x e3 h3 => ?_)
      refine rd_bind_error_kind _ _ _ e3 h3 (fun y e4 h4 => ?_)
      cases h4
    · simp [Tensor.Tensor_shape_data, Tensor.NumElements, szMul] at he'

theorem dot22_error_kind {T : Type} [Zero T] [MaxSize T] [Add T] [Mul T] (A B : Tensor T)
    (e : TensorError) (h : Tensor.dot22 A B = .error e) :
    (e = .DimensionMismatch ∧ A.shape_.getD 1 0 ≠ B.shape_.getD 0 0) ∨
      (e = .LengthError ∧
        (Tensor.Tensor_shape [A.shape_.getD 0 0, B.shape_.getD 1 0] :
          Except TensorError (Tensor T)) = .error .LengthError) ∨
      e = .OutOfRange := by
  unfold Tensor.dot22 at h
  simp only at h
  split_ifs at h with hk
  · cases h
    exact Or.inl ⟨rfl, hk⟩
  · right
    split at h
    · rename_i e' he'
      cases h
      have := Tensor_shape_error _ _ he'
      subst this
      exact Or.inl ⟨rfl, he'⟩
    · right
      split at h
      · rename_i e' he'
        cases h
        refine forUpM_error_kind TensorError.OutOfRange _ _ _ (fun i d e1 h1 => ?_) _ he'
        refine forUpM_error_kind TensorError.OutOfRange _ _ _ (fun k d e2 h2 => ?_) e1 h1
        refine rd_bind_error_kind _ _ _ e2 h2 (fun a e3 h3 => ?_)
        refine forUpM_error_kind TensorError.OutOfRange _ _ _ (fun j d e4 h4 => ?_) e3 h3
        refine rd_bind_error_kind _ _ _ e4 h4 (fun b e5 h5 => ?_)
        refine rd_bind_error_kind _ _ _ e5 h5 (fun cur e6 h6 => ?_)
        exact wr_error _ _ _ _ h6
      · cases h

theorem dot21_error_kind {T : Type} [Zero T] [MaxSize T] [Add T] [Mul T] (A B : Tensor T)
    (e : TensorError) (h : Tensor.dot21 A B = .error e) :
    (e = .DimensionMismatch ∧ A.shape_.getD 1 0 ≠ B.shape_.getD 0 0) ∨
      (e = .LengthError ∧
        (Tensor.Tensor_shape [A.shape_.getD 0 0] : Except TensorError (Tensor T)) =
          .error .LengthError) ∨
      e = .OutOfRange := by
  unfold Tensor.dot21 at h
  simp only at h
  split_ifs at h with hk
  · cases h
    exact Or.inl ⟨rfl, hk⟩
  · right
    split at h
    · rename_i e' he'
      cases h
      have := Tensor_shape_error _ _ he'
      subst this
      exact Or.inl ⟨rfl, he'⟩
    · right
      split at h
      · rename_i e' he'
        cases h
        refine forUpM_error_kind TensorError.OutOfRange _ _ _ (fun i d e1 h1 => ?_) _ he'
        refine loop_bind_error_kind _ _ e1 h1 (fun e2 h2 => ?_)
          (fun acc e2 h2 => wr_error _ _ _ _ h2)
        refine forUpM_error_kind TensorError.OutOfRange _ _ _ (fun k acc e3 h3 => ?_) e2 h2
        refine rd_bind_error_kind _ _ _ e3 h3 (fun x e4 h4 => ?_)
        refine rd_bind_error_kind _ _ _ e4 h4 (fun y e5 h5 => ?_)
        cases h5
      · cases h

theorem dot12_error_kind {T : Type} [Zero T] [MaxSize T] [Add T] [Mul T] (A B : Tensor T)
    (e : TensorError) (h : Tensor.dot12 A B = .error e) :
    (e = .DimensionMismatch ∧ A.shape_.getD 0 0 ≠ B.shape_.getD 0 0) ∨
      (e = .LengthError ∧
        (Tensor.Tensor_shape [B.shape_.getD 1 0] : Except TensorError (Tensor T)) =
          .error .LengthError) ∨
      e = .OutOfRange := by
  unfold Tensor.dot12 at h
  simp only at h
  split_ifs at h with hk
  · cases h
    exact Or.inl ⟨rfl, hk⟩
  · right
    split at h
    · rename_i e' he'
      cases h
      have := Tensor_shape_error _ _ he'
      subst this
      exact Or.inl ⟨rfl, he'⟩
    · right
      split at h
      · rename_i e' he'
        cases h
        refine forUpM_error_kind TensorError.OutOfRange _ _ _ (fun i d e1 h1 => ?_) _ he'
        refine loop_bind_error_kind _ _ e1 h1 (fun e2 h2 => ?_)
          (fun acc e2 h2 => wr_error _ _ _ _ h2)
        refine forUpM_error_kind TensorError.OutOfRange _ _ _ (fun k acc e3 h3 => ?_) e2 h2
        refine rd_bind_error_kind _ _ _ e3 h3 (fun x e4 h4 => ?_)
        refine rd_bind_error_kind _ _ _ e4 h4 (fun y e5 h5 => ?_)
        cases h5
      · cases h

/-- On a supported rank pair whose contracted sizes disagree, `dot` throws
`DimensionMismatch`. -/
theorem dot_mismatch {T : Type} [Zero T] [MaxSize T] [Add T] [Mul T] (A B : Tensor T)
    (hrA : A.NDim = 1 ∨ A.NDim = 2) (hrB : B.NDim = 1 ∨ B.NDim = 2)
    (h : A.shape_.getD (A.NDim - 1) 0 ≠ B.shape_.getD 0 0) :
    Tensor.dot A B = .error .DimensionMismatch := by
  rcases hrA with hA | hA <;> rcases hrB with hB | hB
  · obtain ⟨K, hAs⟩ := shape_of_ndim_one A hA
    obtain ⟨K', hBs⟩ := shape_of_ndim_one B hB
    rw [dot_eq_dot11 A B K K' hAs hBs]
    simp only [Tensor.NDim, hAs, hBs, List.length_singleton, Nat.sub_self,
      List.getD_cons_zero] at h
    simp [Tensor.dot11, hAs, hBs, h]
  · obtain ⟨K, hAs⟩ := shape_of_ndim_one A hA
    obtain ⟨K', N, hBs⟩ := shape_of_ndim_two B hB
    rw [dot_eq_dot12 A B K K' N hAs hBs]
    simp only [Tensor.NDim, hAs, hBs, List.length_singleton, Nat.sub_self,
      List.getD_cons_zero] at h
    simp [Tensor.dot12, hAs, hBs, h]
  · obtain ⟨M, K, hAs⟩ := shape_of_ndim_two A hA
    obtain ⟨K', hBs⟩ := shape_of_ndim_one B hB
    rw [dot_eq_dot21 A B M K K' hAs hBs]
    simp only [Tensor.NDim, hAs, hBs, List.length_cons, List.length_nil, Nat.reduceAdd,
      Nat.add_one_sub_one, List.getD_cons_succ, List.getD_cons_zero] at h
    simp [Tensor.dot21, hAs, hBs, h]
  · obtain ⟨M, K, hAs⟩ := shape_of_ndim_two A hA
    obtain ⟨K', N, hBs⟩ := shape_of_ndim_two B hB
    rw [dot_eq_dot22 A B M K K' N hAs hBs]
    simp only [Tensor.NDim, hAs, hBs, List.length_cons, List.length_nil, Nat.reduceAdd,
      Nat.add_one_sub_one, List.getD_cons_succ, List.getD_cons_zero] at h
    simp [Tensor.dot22, hAs, hBs, h]

/-- On a supported rank pair `dot` throws `DimensionMismatch` only when the
contracted sizes disagree. -/
theorem dot_mismatch_of_error {T : Type} [Zero T] [MaxSize T] [Add T] [Mul T] (A B : Tensor T)
    (hrA : A.NDim = 1 ∨ A.NDim = 2) (hrB : B.NDim = 1 ∨ B.NDim = 2)
    (h : Tensor.dot A B = .error .DimensionMismatch) :
    A.shape_.getD (A.NDim - 1) 0 ≠ B.shape_.getD 0 0 := by
  rcases hrA with hA | hA <;> rcases hrB with hB | hB
  · obtain ⟨K, hAs⟩ := shape_of_ndim_one A hA
    obtain ⟨K', hBs⟩ := shape_of_ndim_one B hB
    rw [dot_eq_dot11 A B K K' hAs hBs] at h
    rw [hA]
    rcases dot11_error_kind A B _ h with ⟨-, hk⟩ | h'
    · exact hk
    · cases h'
  · obtain ⟨K, hAs⟩ := shape_of_ndim_one A hA
    obtain ⟨K', N, hBs⟩ := shape_of_ndim_two B hB
    rw [dot_eq_dot12 A B K K' N hAs hBs] at h
    rw [hA]
    rcases dot12_error_kind A B _ h with ⟨-, hk⟩ | ⟨h', -⟩ | h'
    · exact hk
    · cases h'
    · cases h'
  · obtain ⟨M, K, hAs⟩ := shape_of_ndim_two A hA
    obtain ⟨K', hBs⟩ := shape_of_ndim_one B hB
    rw [dot_eq_dot21 A B M K K' hAs hBs] at h
    rw [hA]
    rcases dot21_error_kind A B _ h with ⟨-, hk⟩ | ⟨h', -⟩ | h'
    · exact hk
    · cases h'
    · cases h'
  · obtain ⟨M, K, hAs⟩ := shape_of_ndim_two A hA
    obtain ⟨K', N, hBs⟩ := shape_of_ndim_two B hB
    rw [dot_eq_dot22 A B M K K' N hAs hBs] at h
    rw [hA]
    rcases dot22_error_kind A B _ h with ⟨-, hk⟩ | ⟨h', -⟩ | h'
    · exact hk
    · cases h'
    · cases h'

/-- With no term to accumulate (`K = 0`) the 2D.2D branch returns the output
as `Tensor({M, N})` built it. -/
theorem dot22_no_terms {T : Type} [Zero T] [MaxSize T] [Add T] [Mul T] (A B : Tensor T)
    (M N : Nat) (hAs : A.shape_ = [M, 0]) (hBs : B.shape_ = [0, N]) (out : Tensor T)
    (hout : Tensor.Tensor_shape [M, N] = .ok out) : Tensor.dot A B = .ok out := by
  rw [dot_eq_dot22 A B M 0 0 N hAs hBs]
  simp only [Tensor.dot22, hAs, hBs, List.getD_cons_zero, List.getD_cons_succ, ne_eq,
    not_true_eq_false, if_false, hout]
  generalize hloop : forUpM M _ _ = res
  have hres : res = .ok out.data_ := by
    rw [← hloop]
    exact forUpM_skip _ _ _ (fun i t _ => rfl)
  subst hres
  rfl

/-- The 2D.2D branch on a left operand with an empty buffer and sizes `M, K`
of at least 1: the first subscript of the loops is outside the buffer. -/
theorem dot22_left_empty {T : Type} [Zero T] [MaxSize T] [Add T] [Mul T] (A B : Tensor T)
    (M K N : Nat) (hAs : A.shape_ = [M, K]) (hBs : B.shape_ = [K, N]) (hM : 0 < M) (hK : 0 < K)
    (hd : A.data_ = []) (out : Tensor T) (hout : Tensor.Tensor_shape [M, N] = .ok out) :
    Tensor.dot A B = .error .OutOfRange := by
  rw [dot_eq_dot22 A B M K K N hAs hBs]
  have hfail : ∃ e, Tensor.dot22 A B = .error e := by
    simp only [Tensor.dot22, hAs, hBs, List.getD_cons_zero, List.getD_cons_succ, ne_eq,
      not_true_eq_false, if_false, hout]
    generalize hloop : forUpM M _ _ = res
    have hres : ∃ e, res = .error e := by
      rw [← hloop]
      exact forUpM_fails M _ _ 0 hM (fun t => forUpM_fails K _ t 0 hK
        (fun t' => ⟨.OutOfRange, by simp [hd, rd]⟩))
    obtain ⟨e, rfl⟩ := hres
    exact ⟨e, rfl⟩
  obtain ⟨e, he⟩ := hfail
  rcases dot22_error_kind A B e he with ⟨-, hk⟩ | ⟨-, hl⟩ | h'
  · simp [hAs, hBs] at hk
  · simp only [hAs, hBs, List.getD_cons_zero, List.getD_cons_succ, hout] at hl
    cases hl
  · rw [he, h']

/-- The 2D.1D branch on a matrix with an empty buffer and sizes `M, K` of at
least 1: the first subscript of the loops is outside the buffer. -/
theorem dot21_left_empty {T : Type} [Zero T] [MaxSize T] [Add T] [Mul T] (A v : Tensor T)
    (M K : Nat) (hAs : A.shape_ = [M, K]) (hvs : v.shape_ = [K]) (hM : 0 < M) (hK : 0 < K)
    (hd : A.data_ = []) (out : Tensor T) (hout : Tensor.Tensor_shape [M] = .ok out) :
    Tensor.dot A v = .error .OutOfRange := by
  rw [dot_eq_dot21 A v M K K hAs hvs]
  have hfail : ∃ e, Tensor.dot21 A v = .error e := by
    simp only [Tensor.dot21, hAs, hvs, List.getD_cons_zero, List.getD_cons_succ, ne_eq,
      not_true_eq_false, if_false, hout]
    generalize hloop : forUpM M _ _ = res
    have hres : ∃ e, res = .error e := by
      rw [← hloop]
      refine forUpM_fails M _ _ 0 hM (fun t => ?_)
      obtain ⟨e, he⟩ := forUpM_fails K
        (fun k (acc : T) =>
          match rd A.data_ (szAdd (szMul 0 (A.strides_.getD 0 0)) (szMul k (A.strides_.getD 1 0)))
            with
          | .error e => .error e
          | .ok x =>
            match rd v.data_ k with
            | .error e => .error e
            | .ok y => .ok (acc + x * y))
        (0 : T) 0 hK (fun t' => ⟨.OutOfRange, by simp [hd, rd]⟩)
      exact ⟨e, by simp only [he]⟩
    obtain ⟨e, rfl⟩ := hres
    exact ⟨e, rfl⟩
  obtain ⟨e, he⟩ := hfail
  rcases dot21_error_kind A v e he with ⟨-, hk⟩ | ⟨-, hl⟩ | h'
  · simp [hAs, hvs] at hk
  · simp only [hAs, List.getD_cons_zero, hout] at hl
    cases hl
  · rw [he, h']

/-- The 1D.2D branch on a matrix with an empty buffer and sizes `K, N` of at
least 1: the first pass of the loops subscripts outside a buffer. -/
theorem dot12_right_empty {T : Type} [Zero T] [MaxSize T] [Add T] [Mul T] (v B : Tensor T)
    (K N : Nat) (hvs : v.shape_ = [K]) (hBs : B.shape_ = [K, N]) (hK : 0 < K) (hN : 0 < N)
    (hd : B.data_ = []) (out : Tensor T) (hout : Tensor.Tensor_shape [N] = .ok out) :
    Tensor.dot v B = .error .OutOfRange := by
  rw [dot_eq_dot12 v B K K N hvs hBs]
  have hfail : ∃ e, Tensor.dot12 v B = .error e := by
    simp only [Tensor.dot12, hvs, hBs, List.getD_cons_zero, List.getD_cons_succ, ne_eq,
      not_true_eq_false, if_false, hout]
    generalize hloop : forUpM N _ _ = res
    have hres : ∃ e, res = .error e := by
      rw [← hloop]
      refine forUpM_fails N _ _ 0 hN (fun t => ?_)
      obtain ⟨e, he⟩ := forUpM_fails K
        (fun k (acc : T) =>
          match rd v.data_ k with
          | .error e => .error e
          | .ok x =>
            match rd B.data_
                (szAdd (szMul k (B.strides_.getD 0 0)) (szMul 0 (B.strides_.getD 1 0))) with
            | .error e => .error e
            | .ok y => .ok (acc + x * y))
        (0 : T) 0 hK (fun t' => by
          cases hv : rd v.data_ 0 with
          | error e => exact ⟨e, by simp only [hv]⟩
          | ok x => exact ⟨.OutOfRange, by simp only [hv]; simp [hd, rd]⟩)
      exact ⟨e, by simp only [he]⟩
    obtain ⟨e, rfl⟩ := hres
    exact ⟨e, rfl⟩
  obtain ⟨e, he⟩ := hfail
  rcases dot12_error_kind v B e he with ⟨-, hk⟩ | ⟨-, hl⟩ | h'
  · simp [hvs, hBs] at hk
  · simp only [hBs, List.getD_cons_zero, List.getD_cons_succ, hout] at hl
    cases hl
  · rw [he, h']

/-- On constructed operands of a supported rank pair whose contracted sizes
agree, whose element counts do not wrap and whose result fits a vector, `dot`
succeeds with the tabulated result shape. -/
theorem dot_match {T : Type} [Zero T] [MaxSize T] [Add T] [Mul T] (A B : Tensor T)
    (hA : Constructed A) (hB : Constructed B)
    (hrA : A.NDim = 1 ∨ A.NDim = 2) (hrB : B.NDim = 1 ∨ B.NDim = 2)
    (h : A.shape_.getD (A.NDim - 1) 0 = B.shape_.getD 0 0)
    (hbA : A.shape_.prod ≤ SIZE_MAX) (hbB : B.shape_.prod ≤ SIZE_MAX)
    (hcap : (dotShape A.shape_ B.shape_).prod ≤ MaxSize.max_size T) :
    ∃ out, Tensor.dot A B = .ok out ∧ out.shape_ = dotShape A.shape_ B.shape_ := by
  rcases hrA with hrA | hrA <;> rcases hrB with hrB | hrB
  · obtain ⟨K, hAs⟩ := shape_of_ndim_one A hrA
    obtain ⟨K', hBs⟩ := shape_of_ndim_one B hrB
    simp only [Tensor.NDim, hAs, hBs, List.length_singleton, Nat.sub_self,
      List.getD_cons_zero] at h
    subst h
    exact ⟨_, dot11_spec A B K hA hAs hB hBs, by rw [hAs, hBs]; rfl⟩
  · obtain ⟨K, hAs⟩ := shape_of_ndim_one A hrA
    obtain ⟨K', N, hBs⟩ := shape_of_ndim_two B hrB
    simp only [Tensor.NDim, hAs, hBs, List.length_singleton, Nat.sub_self,
      List.getD_cons_zero] at h
    subst h
    rw [hAs, hBs] at hcap
    rw [hBs] at hbB
    obtain ⟨d, hd, -, -⟩ := dot12_spec A B K N hA hAs hB hBs (by simpa using hbB)
      (by simpa [dotShape] using hcap)
    exact ⟨_, hd, by rw [hAs, hBs]; rfl⟩
  · obtain ⟨M, K, hAs⟩ := shape_of_ndim_two A hrA
    obtain ⟨K', hBs⟩ := shape_of_ndim_one B hrB
    simp only [Tensor.NDim, hAs, hBs, List.length_cons, List.length_nil, Nat.reduceAdd,
      Nat.add_one_sub_one, List.getD_cons_succ, List.getD_cons_zero] at h
    subst h
    rw [hAs, hBs] at hcap
    rw [hAs] at hbA
    obtain ⟨d, hd, -, -⟩ := dot21_spec A B M K hA hAs hB hBs (by simpa using hbA)
      (by simpa [dotShape] using hcap)
    exact ⟨_, hd, by rw [hAs, hBs]; rfl⟩
  · obtain ⟨M, K, hAs⟩ := shape_of_ndim_two A hrA
    obtain ⟨K', N, hBs⟩ := shape_of_ndim_two B hrB
    simp only [Tensor.NDim, hAs, hBs, List.length_cons, List.length_nil, Nat.reduceAdd,
      Nat.add_one_sub_one, List.getD_cons_succ, List.getD_cons_zero] at h
    subst h
    rw [hAs, hBs] at hcap
    rw [hAs] at hbA
    rw [hBs] at hbB
    obtain ⟨d, hd, -, -⟩ := dot22_spec A B M K N hA hAs hB hBs (by simpa using hbA)
      (by simpa using hbB) (by simpa [dotShape] using hcap)
    exact ⟨_, hd, by rw [hAs, hBs]; rfl⟩

/-! ## Claims C4, C8, C9 and C10 -/

/-- C4 (as amended): for all `M`, `K`, `N` whose products `M*K` and `K*N` are at
most `SIZE_MAX` and whose product `M*N` is at most `max_size()`, and all
constructed tensors `A` of shape `(M,K)` and `B` of shape `(K,N)` over a
semiring, `A.dot(B)` succeeds with shape `(M,N)` and its element at flat index
`i*N + j` is the sum over `k < K` of `A.data[i*K + k] * B.data[k*N + j]`; and
`[[1,2,3],[4,5,6]] . [[7,8],[9,10],[11,12]] = [[58,64],[139,154]]`. -/
theorem dot_2D2D_matrix_product {T : Type} [Semiring T] [MaxSize T] (M K N : Nat)
    (A B : Tensor T) (hA : Constructed A) (hAs : A.shape_ = [M, K]) (hB : Constructed B)
    (hBs : B.shape_ = [K, N]) (hbA : M * K ≤ SIZE_MAX) (hbB : K * N ≤ SIZE_MAX)
    (hcap : M * N ≤ MaxSize.max_size T) :
    (∃ out, Tensor.dot A B = .ok out ∧ out.shape_ = [M, N] ∧
      ∀ i j, i < M → j < N →
        out.data_[i * N + j]? =
          some (∑ k ∈ Finset.range K,
            A.data_.getD (i * K + k) 0 * B.data_.getD (k * N + j) 0)) ∧
    (Tensor.Tensor_shape_data [2, 3] ([1, 2, 3, 4, 5, 6] : List Int) >>= fun a =>
      Tensor.Tensor_shape_data [3, 2] ([7, 8, 9, 10, 11, 12] : List Int) >>= fun b =>
        Tensor.dot a b) = .ok ⟨[58, 64, 139, 154], [2, 2], [2, 1]⟩ := by
  obtain ⟨d, hd, -, hget⟩ := dot22_spec A B M K N hA hAs hB hBs hbA hbB hcap
  refine ⟨⟨_, hd, rfl, fun i j hi hj => ?_⟩, rfl⟩
  rw [← accum_eq_sum]
  exact hget i j hi hj

/-- Witness for C4: the 2x3 by 3x2 product of the demo program. -/
theorem dot_2D2D_matrix_product_witness :
    ∃ out, Tensor.dot (⟨[1, 2, 3, 4, 5, 6], [2, 3], [3, 1]⟩ : Tensor Int)
        ⟨[7, 8, 9, 10, 11, 12], [3, 2], [2, 1]⟩ = .ok out ∧ out.shape_ = [2, 2] ∧
      ∀ i j, i < 2 → j < 2 →
        out.data_[i * 2 + j]? =
          some (∑ k ∈ Finset.range 3,
            ([1, 2, 3, 4, 5, 6] : List Int).getD (i * 3 + k) 0 *
              ([7, 8, 9, 10, 11, 12] : List Int).getD (k * 2 + j) 0) :=
  (dot_2D2D_matrix_product 2 3 2 (⟨[1, 2, 3, 4, 5, 6], [2, 3], [3, 1]⟩ : Tensor Int)
    ⟨[7, 8, 9, 10, 11, 12], [3, 2], [2, 1]⟩
    (Or.inr ⟨[2, 3], [1, 2, 3, 4, 5, 6], by decide, by decide, rfl⟩) rfl
    (Or.inr ⟨[3, 2], [7, 8, 9, 10, 11, 12], by decide, by decide, rfl⟩) rfl
    (by decide) (by decide) (by decide)).1

/-- Counterexamples to C4 as stated, on tensors `Tensor(shape)` builds.
For shapes `(2^32, 0)` and `(0, 2^32)` the call succeeds with shape
`(2^32, 2^32)` and an empty buffer (the count `2^64` wraps to 0), so no element
exists at flat index `0*N + 0`.  For shapes `(2^32, 2^32)` and `(2^32, 0)` the
left buffer is empty (its count wraps to 0) and the first subscript of the loops
is outside it.  For shapes `(2^62, 0)` and `(0, 1)` the output
`Tensor({2^62, 1})` exceeds `max_size()` and the call throws. -/
theorem dot_2D2D_matrix_product_counterexample :
    ((Tensor.Tensor_shape [2 ^ 32, 0] : Except TensorError (Tensor Int)) =
        .ok ⟨[], [2 ^ 32, 0], [0, 1]⟩ ∧
      (Tensor.Tensor_shape [0, 2 ^ 32] : Except TensorError (Tensor Int)) =
        .ok ⟨[], [0, 2 ^ 32], [2 ^ 32, 1]⟩ ∧
      Tensor.dot (⟨[], [2 ^ 32, 0], [0, 1]⟩ : Tensor Int) ⟨[], [0, 2 ^ 32], [2 ^ 32, 1]⟩ =
        .ok ⟨[], [2 ^ 32, 2 ^ 32], [2 ^ 32, 1]⟩ ∧
      0 < 2 ^ 32 ∧ ([] : List Int)[0 * 2 ^ 32 + 0]? = none) ∧
    ((Tensor.Tensor_shape [2 ^ 32, 2 ^ 32] : Except TensorError (Tensor Int)) =
        .ok ⟨[], [2 ^ 32, 2 ^ 32], [2 ^ 32, 1]⟩ ∧
      Tensor.dot (⟨[], [2 ^ 32, 2 ^ 32], [2 ^ 32, 1]⟩ : Tensor Int) ⟨[], [2 ^ 32, 0], [0, 1]⟩ =
        .error .OutOfRange) ∧
    ((Tensor.Tensor_shape [2 ^ 62, 0] : Except TensorError (Tensor Int)) =
        .ok ⟨[], [2 ^ 62, 0], [0, 1]⟩ ∧
      (Tensor.Tensor_shape [0, 1] : Except TensorError (Tensor Int)) =
        .ok ⟨[], [0, 1], [1, 1]⟩ ∧
      Tensor.dot (⟨[], [2 ^ 62, 0], [0, 1]⟩ : Tensor Int) ⟨[], [0, 1], [1, 1]⟩ =
        .error .LengthError) :=
  ⟨⟨rfl, rfl, dot22_no_terms _ _ (2 ^ 32) (2 ^ 32) rfl rfl _ (by rfl), by decide, rfl⟩,
    ⟨rfl, dot22_left_empty _ _ (2 ^ 32) (2 ^ 32) 0 rfl rfl (by decide) (by decide) rfl
      ⟨[], [2 ^ 32, 0], [0, 1]⟩ (by rfl)⟩,
    ⟨rfl, rfl, rfl⟩⟩

/-- C8: for every `K` and every two constructed rank-1 tensors `u`, `v` of
length `K` over a semiring, `u.dot(v)` succeeds and is a tensor of shape `(1,)`
whose single element is the sum over `i < K` of `u.data[i] * v.data[i]` (zero
when `K = 0`); and `[1,2,3] . [4,5,6] = 32`. -/
theorem dot_1D1D_inner_product {T : Type} [Semiring T] [MaxSize T] (K : Nat) (u v : Tensor T)
    (hu : Constructed u) (hus : u.shape_ = [K]) (hv : Constructed v) (hvs : v.shape_ = [K]) :
    (∃ out, Tensor.dot u v = .ok out ∧ out.shape_ = [1] ∧
      out.data_ = [∑ i ∈ Finset.range K, u.data_.getD i 0 * v.data_.getD i 0] ∧
      (K = 0 → out.data_ = [0])) ∧
    (Tensor.Tensor_shape_data [3] ([1, 2, 3] : List Int) >>= fun a =>
      Tensor.Tensor_shape_data [3] ([4, 5, 6] : List Int) >>= fun b =>
        Tensor.dot a b) = .ok ⟨[32], [1], [1]⟩ := by
  refine ⟨⟨_, dot11_spec u v K hu hus hv hvs, rfl, ?_, ?_⟩, rfl⟩
  · simp only
    rw [accum_eq_sum]
  · intro hK
    subst hK
    rfl

/-- Witness for C8: the vector dot product of the demo program. -/
theorem dot_1D1D_inner_product_witness :
    ∃ out, Tensor.dot (⟨[1, 2, 3], [3], [1]⟩ : Tensor Int) ⟨[4, 5, 6], [3], [1]⟩ = .ok out ∧
      out.shape_ = [1] ∧
      out.data_ = [∑ i ∈ Finset.range 3,
        ([1, 2, 3] : List Int).getD i 0 * ([4, 5, 6] : List Int).getD i 0] ∧
      ((3 : Nat) = 0 → out.data_ = [0]) :=
  (dot_1D1D_inner_product 3 (⟨[1, 2, 3], [3], [1]⟩ : Tensor Int) ⟨[4, 5, 6], [3], [1]⟩
    (Or.inr ⟨[3], [1, 2, 3], by decide, by decide, rfl⟩) rfl
    (Or.inr ⟨[3], [4, 5, 6], by decide, by decide, rfl⟩) rfl).1

/-- C9 (as amended): for all `M`, `K` whose product is at most `SIZE_MAX`, with
`M` at most `max_size()`, every constructed tensor `A` of shape `(M,K)` and
every constructed rank-1 tensor `v` of length `K` over a semiring, `A.dot(v)`
succeeds with shape `(M,)` and its element `i` is the sum over `k < K` of
`A.data[i*K + k] * v.data[k]`, for every `i < M`. -/
theorem dot_2D1D_matrix_vector {T : Type} [Semiring T] [MaxSize T] (M K : Nat) (A v : Tensor T)
    (hA : Constructed A) (hAs : A.shape_ = [M, K]) (hv : Constructed v) (hvs : v.shape_ = [K])
    (hbA : M * K ≤ SIZE_MAX) (hcap : M ≤ MaxSize.max_size T) :
    ∃ out, Tensor.dot A v = .ok out ∧ out.shape_ = [M] ∧ out.data_.length = M ∧
      ∀ i, i < M →
        out.data_[i]? =
          some (∑ k ∈ Finset.range K, A.data_.getD (i * K + k) 0 * v.data_.getD k 0) := by
  obtain ⟨d, hd, hlen, hget⟩ := dot21_spec A v M K hA hAs hv hvs hbA hcap
  refine ⟨_, hd, rfl, hlen, fun i hi => ?_⟩
  rw [← accum_eq_sum]
  exact hget i hi

/-- Witness for C9: `[[1,2,3],[4,5,6]] . [1,1,1]`. -/
theorem dot_2D1D_matrix_vector_witness :
    ∃ out, Tensor.dot (⟨[1, 2, 3, 4, 5, 6], [2, 3], [3, 1]⟩ : Tensor Int)
        ⟨[1, 1, 1], [3], [1]⟩ = .ok out ∧ out.shape_ = [2] ∧ out.data_.length = 2 ∧
      ∀ i, i < 2 →
        out.data_[i]? =
          some (∑ k ∈ Finset.range 3,
            ([1, 2, 3, 4, 5, 6] : List Int).getD (i * 3 + k) 0 *
              ([1, 1, 1] : List Int).getD k 0) :=
  dot_2D1D_matrix_vector 2 3 (⟨[1, 2, 3, 4, 5, 6], [2, 3], [3, 1]⟩ : Tensor Int)
    ⟨[1, 1, 1], [3], [1]⟩
    (Or.inr ⟨[2, 3], [1, 2, 3, 4, 5, 6], by decide, by decide, rfl⟩) rfl
    (Or.inr ⟨[3], [1, 1, 1], by decide, by decide, rfl⟩) rfl (by decide) (by decide)

/-- Counterexamples to C9 as stated, on tensors `Tensor(shape)` builds.  For
shapes `(2^62, 0)` and `(0,)` the output `Tensor({2^62})` exceeds `max_size()`
and the call throws.  For shapes `(2^32, 2^32)` and `(2^32,)` the matrix buffer
is empty (its count `2^64` wraps to 0) and the first subscript of the loops is
outside it. -/
theorem dot_2D1D_matrix_vector_counterexample :
    ((Tensor.Tensor_shape [2 ^ 62, 0] : Except TensorError (Tensor Int)) =
        .ok ⟨[], [2 ^ 62, 0], [0, 1]⟩ ∧
      (Tensor.Tensor_shape [0] : Except TensorError (Tensor Int)) = .ok ⟨[], [0], [1]⟩ ∧
      Tensor.dot (⟨[], [2 ^ 62, 0], [0, 1]⟩ : Tensor Int) ⟨[], [0], [1]⟩ =
        .error .LengthError) ∧
    ((Tensor.Tensor_shape [2 ^ 32, 2 ^ 32] : Except TensorError (Tensor Int)) =
        .ok ⟨[], [2 ^ 32, 2 ^ 32], [2 ^ 32, 1]⟩ ∧
      (Tensor.Tensor_shape [2 ^ 32] : Except TensorError (Tensor Int)) =
        .ok ⟨List.replicate (2 ^ 32) 0, [2 ^ 32], [1]⟩ ∧
      Tensor.dot (⟨[], [2 ^ 32, 2 ^ 32], [2 ^ 32, 1]⟩ : Tensor Int)
        ⟨List.replicate (2 ^ 32) 0, [2 ^ 32], [1]⟩ = .error .OutOfRange) :=
  ⟨⟨rfl, rfl, rfl⟩,
    ⟨rfl, rfl, dot21_left_empty _ _ (2 ^ 32) (2 ^ 32) rfl rfl (by decide) (by decide) rfl
      ⟨List.replicate (2 ^ 32) 0, [2 ^ 32], [1]⟩ (by rfl)⟩⟩

/-- C10 (as amended): for all `K`, `N` whose product is at most `SIZE_MAX`, with
`N` at most `max_size()`, every constructed rank-1 tensor `v` of length `K` and
every constructed tensor `B` of shape `(K,N)`, `v.dot(B)` succeeds with shape
`(N,)`, the tensor `Tensor((1,K), v.data)` can be constructed, its `dot` with
`B` (the 2D.2D branch) succeeds, and the two data buffers are equal. -/
theorem dot_1D2D_as_row {T : Type} [Zero T] [MaxSize T] [Add T] [Mul T] (K N : Nat)
    (v B : Tensor T) (hv : Constructed v) (hvs : v.shape_ = [K]) (hB : Constructed B)
    (hBs : B.shape_ = [K, N]) (hbB : K * N ≤ SIZE_MAX) (hcap : N ≤ MaxSize.max_size T) :
    ∃ out row out2, Tensor.dot v B = .ok out ∧ out.shape_ = [N] ∧
      Tensor.Tensor_shape_data [1, K] v.data_ = .ok row ∧ row.shape_ = [1, K] ∧
      Tensor.dot row B = .ok out2 ∧ Tensor.dot22 row B = .ok out2 ∧
      out2.shape_ = [1, N] ∧ out.data_ = out2.data_ := by
  obtain ⟨-, hlv, hK⟩ := Constructed_1d v K hv hvs
  obtain ⟨-, -, -, -, hvcap⟩ := Constructed_facts v hv
  obtain ⟨d, hd, hlen, hget⟩ := dot12_spec v B K N hv hvs hB hBs hbB hcap
  have hrow : Tensor.Tensor_shape_data [1, K] v.data_ =
      .ok ⟨v.data_, [1, K], Tensor.CalculateStrides [1, K]⟩ := by
    simp [Tensor.Tensor_shape_data, NumElements_two 1 K (by omega), hlv]
  obtain ⟨d2, hd2, hlen2, hget2⟩ := dot22_spec
    (⟨v.data_, [1, K], Tensor.CalculateStrides [1, K]⟩ : Tensor T) B 1 K N
    (Or.inr ⟨[1, K], v.data_, by
      intro s hs
      simp only [List.mem_cons, List.mem_singleton, List.not_mem_nil, or_false] at hs
      rcases hs with rfl | rfl
      · unfold SIZE_MAX
        decide
      · exact hK, hvcap, hrow⟩) rfl hB hBs (by omega) hbB (by omega)
  have hbranch : Tensor.dot (⟨v.data_, [1, K], Tensor.CalculateStrides [1, K]⟩ : Tensor T) B =
      Tensor.dot22 ⟨v.data_, [1, K], Tensor.CalculateStrides [1, K]⟩ B := by
    simp [Tensor.dot, Tensor.NDim, hBs]
  refine ⟨_, _, _, hd, rfl, hrow, rfl, hd2, by rw [← hbranch]; exact hd2, rfl, ?_⟩
  apply List.ext_getElem?
  intro j
  by_cases hj : j < N
  · have h2 := hget2 0 j Nat.one_pos hj
    simp only [Nat.zero_mul, Nat.zero_add] at h2
    rw [hget j hj, h2]
  · rw [List.getElem?_eq_none (by simp only; omega),
      List.getElem?_eq_none (by simp only; omega)]

/-- Witness for C10: `[1,1] . [[1,2,3],[4,5,6]]`. -/
theorem dot_1D2D_as_row_witness :
    ∃ out row out2,
      Tensor.dot (⟨[1, 1], [2], [1]⟩ : Tensor Int) ⟨[1, 2, 3, 4, 5, 6], [2, 3], [3, 1]⟩ =
        .ok out ∧ out.shape_ = [3] ∧
      Tensor.Tensor_shape_data [1, 2] ([1, 1] : List Int) = .ok row ∧ row.shape_ = [1, 2] ∧
      Tensor.dot row ⟨[1, 2, 3, 4, 5, 6], [2, 3], [3, 1]⟩ = .ok out2 ∧
      Tensor.dot22 row ⟨[1, 2, 3, 4, 5, 6], [2, 3], [3, 1]⟩ = .ok out2 ∧
      out2.shape_ = [1, 3] ∧ out.data_ = out2.data_ :=
  dot_1D2D_as_row 2 3 (⟨[1, 1], [2], [1]⟩ : Tensor Int) ⟨[1, 2, 3, 4, 5, 6], [2, 3], [3, 1]⟩
    (Or.inr ⟨[2], [1, 1], by decide, by decide, rfl⟩) rfl
    (Or.inr ⟨[2, 3], [1, 2, 3, 4, 5, 6], by decide, by decide, rfl⟩) rfl (by decide) (by decide)

/-- Counterexamples to C10 as stated, on tensors `Tensor(shape)` builds.  For
shapes `(0,)` and `(0, 2^62)` the output `Tensor({2^62})` exceeds `max_size()`
and the call throws.  For shapes `(2^32,)` and `(2^32, 2^32)` the matrix buffer
is empty (its count `2^64` wraps to 0) and the first pass of the loops
subscripts outside it. -/
theorem dot_1D2D_as_row_counterexample :
    ((Tensor.Tensor_shape [0] : Except TensorError (Tensor Int)) = .ok ⟨[], [0], [1]⟩ ∧
      (Tensor.Tensor_shape [0, 2 ^ 62] : Except TensorError (Tensor Int)) =
        .ok ⟨[], [0, 2 ^ 62], [2 ^ 62, 1]⟩ ∧
      Tensor.dot (⟨[], [0], [1]⟩ : Tensor Int) ⟨[], [0, 2 ^ 62], [2 ^ 62, 1]⟩ =
        .error .LengthError) ∧
    ((Tensor.Tensor_shape [2 ^ 32] : Except TensorError (Tensor Int)) =
        .ok ⟨List.replicate (2 ^ 32) 0, [2 ^ 32], [1]⟩ ∧
      (Tensor.Tensor_shape [2 ^ 32, 2 ^ 32] : Except TensorError (Tensor Int)) =
        .ok ⟨[], [2 ^ 32, 2 ^ 32], [2 ^ 32, 1]⟩ ∧
      Tensor.dot (⟨List.replicate (2 ^ 32) 0, [2 ^ 32], [1]⟩ : Tensor Int)
        ⟨[], [2 ^ 32, 2 ^ 32], [2 ^ 32, 1]⟩ = .error .OutOfRange) :=
  ⟨⟨rfl, rfl, rfl⟩,
    ⟨rfl, rfl, dot12_right_empty _ _ (2 ^ 32) (2 ^ 32) rfl rfl (by decide) (by decide) rfl
      ⟨List.replicate (2 ^ 32) 0, [2 ^ 32], [1]⟩ (by rfl)⟩⟩

/-! ## `ApplyOperation` on constructed operands -/

/-- Both paths of `ApplyOperation` at once, per flat output index: on
constructed operands with sizes of at least 1, compatible shapes that are not
both empty, non-empty buffers and an output count within `max_size()`, the call
succeeds with the broadcast shape, and the element at each flat output index
combines the operand elements at the row-major flat indices of the operands'
multi-indices. -/
theorem ApplyOperation_flat_spec {T : Type} [Zero T] [MaxSize T] (A B : Tensor T)
    (op : T → T → T) (hA : Constructed A) (hB : Constructed B)
    (hposA : ∀ s ∈ A.shape_, 1 ≤ s) (hposB : ∀ s ∈ B.shape_, 1 ≤ s)
    (hc : ¬ Incompatible A.shape_ B.shape_)
    (hneA : A.data_ ≠ []) (hneB : B.data_ ≠ [])
    (hrank : A.shape_ ≠ [] ∨ B.shape_ ≠ [])
    (hcap : (broadcastShape A.shape_ B.shape_).prod ≤ MaxSize.max_size T) :
    ∃ d, Tensor.ApplyOperation A B op =
        .ok ⟨d, broadcastShape A.shape_ B.shape_,
          Tensor.CalculateStrides (broadcastShape A.shape_ B.shape_)⟩ ∧
      d.length = (broadcastShape A.shape_ B.shape_).prod ∧
      ∀ flat, flat < (broadcastShape A.shape_ B.shape_).prod →
        ∃ x y,
          A.data_[flatIndex A.shape_
            (operandIndex A.shape_ (coords (broadcastShape A.shape_ B.shape_) flat))]? = some x ∧
          B.data_[flatIndex B.shape_
            (operandIndex B.shape_ (coords (broadcastShape A.shape_ B.shape_) flat))]? = some y ∧
          d[flat]? = some (op x y) := by
  have hbo : (broadcastShape A.shape_ B.shape_).prod ≤ SIZE_MAX :=
    le_trans hcap MaxSize.max_size_le
  obtain ⟨hAle, hBle⟩ := broadcastShape_prod_bounds A.shape_ B.shape_ hposA
  have hbA : A.shape_.prod ≤ SIZE_MAX := le_trans hAle hbo
  have hbB : B.shape_.prod ≤ SIZE_MAX := le_trans hBle hbo
  have hlA := Constructed_length A hA hneA hbA
  have hlB := Constructed_length B hB hneB hbB
  have hne : broadcastShape A.shape_ B.shape_ ≠ [] := by
    intro hnil
    have hl := broadcastShape_length A.shape_ B.shape_
    rw [hnil] at hl
    have h1 := le_max_left A.shape_.length B.shape_.length
    have h2 := le_max_right A.shape_.length B.shape_.length
    simp only [List.length_nil] at hl
    rcases hrank with h | h
    · exact h (List.length_eq_zero.1 (by omega))
    · exact h (List.length_eq_zero.1 (by omega))
  by_cases hs : A.shape_ = B.shape_
  · have hbs : broadcastShape A.shape_ B.shape_ = A.shape_ := by
      rw [← hs, broadcastShape_self]
    rw [hbs] at hne hcap ⊢
    have hN := NumElements_eq_prod _ hne hbA
    obtain ⟨d, hd, hlen, hget⟩ := ApplyOperationFast_spec A B op
      (by rw [hlA, hN]) (by rw [hlB, ← hs, hN]) (by rw [hN]; exact hcap)
    rw [hN] at hlen hget
    refine ⟨d, by rw [Tensor.ApplyOperation, if_pos hs]; exact hd, hlen, fun flat hflat => ?_⟩
    have hw := coords_within _ flat hflat
    rw [← hs, operandIndex_self _ _ hw, flatIndex_coords _ _ hflat]
    exact hget flat hflat
  · obtain ⟨d, hd, hlen, hget⟩ := ApplyOperationGeneral_spec A B op
      (Constructed_facts A hA).1 (Constructed_facts B hB).1 hlA hlB
      (prod_pos_of_forall _ hposA) (prod_pos_of_forall _ hposB) hbA hbB hc
      (fits_left _ _ hc hposA) (fits_right _ _ hc hposB) hne hcap
    exact ⟨d, by rw [Tensor.ApplyOperation, if_neg hs]; exact hd, hlen, hget⟩

/-! ## Claim C1 -/

theorem getD_of_getElem? {T : Type} (l : List T) (i : Nat) (x dflt : T) (h : l[i]? = some x) :
    l.getD i dflt = x := by
  rw [List.getD_eq_getElem?_getD, h]
  rfl

theorem not_incompatible_row (m n : Nat) : ¬ Incompatible [m, n] [n] := by
  rintro ⟨i, hi, h1, h2, h3⟩
  simp only [List.length_cons, List.length_nil, Nat.reduceAdd, Nat.reduceLeDiff,
    max_eq_left] at hi h1 h2 h3
  rw [padLeading_getD] at h1 h3
  rw [padLeading_getD] at h1 h2
  simp only [List.length_cons, List.length_nil, Nat.reduceAdd, Nat.sub_self,
    Nat.not_lt_zero, if_false, Nat.sub_zero, Nat.reduceSub] at h1 h2 h3
  have : i = 0 ∨ i = 1 := by omega
  rcases this with rfl | rfl
  · simp at h3
  · simp at h1

/-- C6 (as amended): for all `m, n ≥ 1` whose product is at most `max_size()`
and all constructed tensors `A` of shape `(m,n)` and `B` of shape `(n,)`,
`A + B` succeeds with shape `(m,n)` and its element at flat index `i*n + j` is
`A.data[i*n + j] + B.data[j]`; and
`[[1,2,3],[4,5,6]] + [10,20,30] = [[11,22,33],[14,25,36]]`. -/
theorem row_broadcast {T : Type} [Zero T] [MaxSize T] [Add T] (m n : Nat) (hm : 1 ≤ m)
    (hn : 1 ≤ n) (hcap : m * n ≤ MaxSize.max_size T)
    (A B : Tensor T) (hA : Constructed A) (hAs : A.shape_ = [m, n]) (hB : Constructed B)
    (hBs : B.shape_ = [n]) :
    (∃ out, Tensor.add A B = .ok out ∧ out.shape_ = [m, n] ∧
      ∀ i j, i < m → j < n →
        out.data_[i * n + j]? = some (A.data_.getD (i * n + j) 0 + B.data_.getD j 0)) ∧
    (Tensor.Tensor_shape_data [2, 3] ([1, 2, 3, 4, 5, 6] : List Int) >>= fun a =>
      Tensor.Tensor_shape_data [3] ([10, 20, 30] : List Int) >>= fun b =>
        Tensor.add a b) = .ok ⟨[11, 22, 33, 14, 25, 36], [2, 3], [3, 1]⟩ := by
  refine ⟨?_, rfl⟩
  obtain ⟨-, hlA, -, -⟩ := Constructed_2d A m n hA hAs (le_trans hcap MaxSize.max_size_le)
  obtain ⟨-, hlB, -⟩ := Constructed_1d B n hB hBs
  have hmn : 0 < m * n := Nat.mul_pos hm hn
  have hbs : broadcastShape [m, n] [n] = [m, n] := by
    simp [broadcastShape, padLeading, max_eq_left hm]
  obtain ⟨d, hd, -, hget⟩ := ApplyOperation_flat_spec A B (fun x y => x + y) hA hB
    (by rw [hAs]; intro s hs; simp at hs; omega)
    (by rw [hBs]; intro s hs; simp at hs; omega)
    (by rw [hAs, hBs]; exact not_incompatible_row m n)
    (by intro h; rw [h] at hlA; simp at hlA; omega)
    (by intro h; rw [h] at hlB; simp at hlB; omega)
    (Or.inl (by rw [hAs]; simp))
    (by rw [hAs, hBs, hbs]; simpa using hcap)
  rw [hAs, hBs, hbs] at hd hget
  refine ⟨_, hd, rfl, fun i j hi hj => ?_⟩
  have hw : Within [i, j] [m, n] := List.Forall₂.cons hi (List.Forall₂.cons hj List.Forall₂.nil)
  have hflat : flatIndex [m, n] [i, j] = i * n + j := by simp [flatIndex]
  obtain ⟨x, y, hx, hy, hxy⟩ := hget (i * n + j) (by rw [← hflat]; exact flatIndex_lt _ _ hw)
  rw [← hflat, coords_flatIndex _ _ hw] at hx hy
  rw [operandIndex_self _ _ hw, hflat] at hx
  have hidx : flatIndex [n] (operandIndex [n] [i, j]) = j := by
    simp only [operandIndex, List.length_cons, List.length_nil, Nat.reduceAdd, Nat.reduceSub,
      List.drop_succ_cons, List.drop_zero, List.zipWith_cons_cons, List.zipWith_nil_right,
      flatIndex, List.prod_nil, Nat.mul_one, Nat.add_zero]
    split_ifs with h1
    · omega
    · rfl
  rw [hidx] at hy
  simp only
  rw [hxy, getD_of_getElem? _ _ _ _ hx, getD_of_getElem? _ _ _ _ hy]

/-- Witness for C6: the broadcasting add of the demo program. -/
theorem row_broadcast_witness :
    ∃ out, Tensor.add (⟨[1, 2, 3, 4, 5, 6], [2, 3], [3, 1]⟩ : Tensor Int)
        ⟨[10, 20, 30], [3], [1]⟩ = .ok out ∧ out.shape_ = [2, 3] ∧
      ∀ i j, i < 2 → j < 3 →
        out.data_[i * 3 + j]? =
          some (([1, 2, 3, 4, 5, 6] : List Int).getD (i * 3 + j) 0 +
            ([10, 20, 30] : List Int).getD j 0) :=
  (row_broadcast 2 3 (by decide) (by decide) (by decide)
    (⟨[1, 2, 3, 4, 5, 6], [2, 3], [3, 1]⟩ : Tensor Int) ⟨[10, 20, 30], [3], [1]⟩
    (Or.inr ⟨[2, 3], [1, 2, 3, 4, 5, 6], by decide, by decide, rfl⟩) rfl
    (Or.inr ⟨[3], [10, 20, 30], by decide, by decide, rfl⟩) rfl).1

/-- Counterexample to C6 as stated: `Tensor({2^63+1, 2}, {1, 2})` is accepted,
the product of its sizes wrapping to 2; `A + [10, 20]` succeeds with shape
`(2^63+1, 2)` and the two elements `11, 22`, so for `i = 1 < m`, `j = 0 < n` no
element exists at flat index `i*n + j = 2`. -/
theorem row_broadcast_counterexample :
    Tensor.Tensor_shape_data [2 ^ 63 + 1, 2] [1, 2] =
        .ok (⟨[1, 2], [2 ^ 63 + 1, 2], [2, 1]⟩ : Tensor Int) ∧
      Tensor.Tensor_shape_data [2] [10, 20] = .ok (⟨[10, 20], [2], [1]⟩ : Tensor Int) ∧
      1 ≤ 2 ^ 63 + 1 ∧ 1 ≤ 2 ∧
      Tensor.add (⟨[1, 2], [2 ^ 63 + 1, 2], [2, 1]⟩ : Tensor Int) ⟨[10, 20], [2], [1]⟩ =
        .ok ⟨[11, 22], [2 ^ 63 + 1, 2], [2, 1]⟩ ∧
      1 < 2 ^ 63 + 1 ∧ 0 < 2 ∧ ([11, 22] : List Int)[1 * 2 + 0]? = none :=
  ⟨rfl, rfl, by decide, by decide, rfl, by decide, by decide, rfl⟩

/-! ## Claim C7 -/

theorem incompatible_symm (a b : List Nat) (h : Incompatible a b) : Incompatible b a := by
  obtain ⟨i, hi, h1, h2, h3⟩ := h
  refine ⟨i, by rw [max_comm]; exact hi, ?_, ?_, ?_⟩
  · rw [max_comm]; exact fun h => h1 h.symm
  · rw [max_comm]; exact h3
  · rw [max_comm]; exact h2

theorem broadcastShape_comm (a b : List Nat) : broadcastShape a b = broadcastShape b a := by
  unfold broadcastShape
  rw [max_comm a.length b.length, List.zipWith_comm]
  congr 1
  funext x y
  exact max_comm y x

theorem BroadcastShapesImpl_comm (a b : List Nat) :
    Tensor.BroadcastShapesImpl a b = Tensor.BroadcastShapesImpl b a := by
  by_cases h : Incompatible a b
  · rw [BroadcastShapesImpl_incompatible a b h,
      BroadcastShapesImpl_incompatible b a (incompatible_symm a b h)]
  · have h' : ¬ Incompatible b a := fun hc => h (incompatible_symm b a hc)
    rw [BroadcastShapesImpl_compatible a b h, BroadcastShapesImpl_compatible b a h',
      broadcastShape_comm]

/-- C20: for every two shapes, `BroadcastShapesImpl(a, b)` throws exactly when
`BroadcastShapesImpl(b, a)` throws, and when both succeed they return the same
shape; in fact the two calls have the same outcome. -/
theorem BroadcastShapesImpl_symmetric (a b : List Nat) :
    ((∃ e, Tensor.BroadcastShapesImpl a b = .error e) ↔
        (∃ e, Tensor.BroadcastShapesImpl b a = .error e)) ∧
      (∀ r r', Tensor.BroadcastShapesImpl a b = .ok r →
        Tensor.BroadcastShapesImpl b a = .ok r' → r = r') ∧
      Tensor.BroadcastShapesImpl a b = Tensor.BroadcastShapesImpl b a := by
  have hcomm := BroadcastShapesImpl_comm a b
  refine ⟨by rw [hcomm], fun r r' h h' => ?_, hcomm⟩
  rw [hcomm, h'] at h
  cases h
  rfl

/-! ## Claim C13 -/

/-- C13 (as amended): for every shape and data vector, `Tensor(shape, data)`
throws `ShapeMismatch` (its only failure) exactly when the shape is non-empty
and `len(data)` differs from the product of the sizes taken modulo `2^64`, or
the shape is empty and `len(data) > 1`; for a shape whose product is at most
`SIZE_MAX` that is: exactly when the shape is non-empty and
`len(data) ≠ product(shape)`, or the shape is empty and `len(data) > 1`; when
the call succeeds, `Shape()` is the given shape and the buffer is the given
data. -/
theorem Tensor_shape_data_contract {T : Type} (shape : List Nat) (data : List T) :
    (Tensor.Tensor_shape_data shape data = .error .ShapeMismatch ↔
        (shape ≠ [] ∧ data.length ≠ shape.prod % 2 ^ 64) ∨ (shape = [] ∧ 1 < data.length)) ∧
      (shape.prod ≤ SIZE_MAX →
        (Tensor.Tensor_shape_data shape data = .error .ShapeMismatch ↔
          (shape ≠ [] ∧ data.length ≠ shape.prod) ∨ (shape = [] ∧ 1 < data.length))) ∧
      (∀ e, Tensor.Tensor_shape_data shape data = .error e → e = .ShapeMismatch) ∧
      (∀ A, Tensor.Tensor_shape_data shape data = .ok A →
        A.Shape = shape ∧ A.data_ = data) := by
  have hiff : Tensor.Tensor_shape_data shape data = .error .ShapeMismatch ↔
      (shape ≠ [] ∧ data.length ≠ shape.prod % 2 ^ 64) ∨ (shape = [] ∧ 1 < data.length) := by
    cases shape with
    | nil =>
      cases data with
      | nil => simp [Tensor.Tensor_shape_data]
      | cons x xs =>
        cases xs with
        | nil => simp [Tensor.Tensor_shape_data]
        | cons y ys => simp [Tensor.Tensor_shape_data]
    | cons s ss =>
      have hne : s :: ss ≠ [] := by simp
      have hN := NumElements_eq_mod _ hne
      by_cases hd : data.length = (s :: ss).prod % 2 ^ 64
      · simp only [Tensor.Tensor_shape_data, List.isEmpty_cons, Bool.false_eq_true,
          not_false_eq_true, if_true, hN, hd, ne_eq, not_true_eq_false, if_false]
        simp
      · simp only [Tensor.Tensor_shape_data, List.isEmpty_cons, Bool.false_eq_true,
          not_false_eq_true, if_true, hN, ne_eq, hd, if_true]
        simp
  refine ⟨hiff, fun hb => ?_, ?_, ?_⟩
  · rw [hiff, Nat.mod_eq_of_lt (lt_of_le_SIZE_MAX _ hb)]
  · intro e h
    unfold Tensor.Tensor_shape_data at h
    split_ifs at h <;> (cases h; rfl)
  · intro A h
    obtain ⟨rfl, -, -⟩ := Tensor_shape_data_ok shape data A h
    exact ⟨rfl, rfl⟩

/-- Witness for C13: six values for the shape `(2,3)` are accepted, five are
not. -/
theorem Tensor_shape_data_contract_witness :
    (Tensor.Tensor_shape_data [2, 3] ([1, 2, 3, 4, 5] : List Int) = .error .ShapeMismatch ↔
        (([2, 3] : List Nat) ≠ [] ∧
          ([1, 2, 3, 4, 5] : List Int).length ≠ ([2, 3] : List Nat).prod) ∨
        (([2, 3] : List Nat) = [] ∧ 1 < ([1, 2, 3, 4, 5] : List Int).length)) ∧
      (Tensor.Tensor_shape_data [2, 3] ([1, 2, 3, 4, 5, 6] : List Int) =
          .ok ⟨[1, 2, 3, 4, 5, 6], [2, 3], [3, 1]⟩ →
        (⟨[1, 2, 3, 4, 5, 6], [2, 3], [3, 1]⟩ : Tensor Int).Shape = [2, 3] ∧
          (⟨[1, 2, 3, 4, 5, 6], [2, 3], [3, 1]⟩ : Tensor Int).data_ = [1, 2, 3, 4, 5, 6]) :=
  ⟨(Tensor_shape_data_contract [2, 3] ([1, 2, 3, 4, 5] : List Int)).2.1 (by decide),
    (Tensor_shape_data_contract [2, 3] ([1, 2, 3, 4, 5, 6] : List Int)).2.2.2 _⟩

/-- Counterexample to C13 as stated: the shape `(2^63+1, 2)` is non-empty and
its product is `2^64 + 2`, yet `Tensor(shape, {1, 2})` is accepted: the product
taken in `size_t` is 2. -/
theorem Tensor_shape_data_contract_counterexample :
    Tensor.Tensor_shape_data [2 ^ 63 + 1, 2] [1, 2] =
        .ok (⟨[1, 2], [2 ^ 63 + 1, 2], [2, 1]⟩ : Tensor Int) ∧
      ([2 ^ 63 + 1, 2] : List Nat) ≠ [] ∧
      ([2 ^ 63 + 1, 2] : List Nat).prod = 2 ^ 64 + 2 ∧
      ([1, 2] : List Int).length ≠ ([2 ^ 63 + 1, 2] : List Nat).prod ∧
      Tensor.NumElements [2 ^ 63 + 1, 2] = 2 :=
  ⟨rfl, by decide, by decide, by decide, rfl⟩

/-! ## Claim C14 -/

/-- C14 (as amended): for every non-empty shape `S` whose product is at most
`max_size()`, `Tensor(S)` succeeds, has `Size() == product(S)` and every
element equals `T()`.  Whenever `Tensor(S)` succeeds, every element equals
`T()`, `Size()` is `product(S)` modulo `2^64` for a non-empty `S`, and
`Size() == 0` for the empty shape.  `Tensor(S)` throws `LengthError` when `S`
is non-empty and `product(S)` modulo `2^64` exceeds `max_size()`. -/
theorem Tensor_shape_contract {T : Type} [Zero T] [MaxSize T] (S : List Nat) :
    (S ≠ [] → S.prod ≤ MaxSize.max_size T →
      ∃ A : Tensor T, Tensor.Tensor_shape S = .ok A ∧ A.Size = S.prod ∧ ∀ x ∈ A.data_, x = 0) ∧
      (∀ A : Tensor T, Tensor.Tensor_shape S = .ok A →
        (S ≠ [] → A.Size = S.prod % 2 ^ 64) ∧ (∀ x ∈ A.data_, x = 0) ∧ (S = [] → A.Size = 0)) ∧
      (S ≠ [] → MaxSize.max_size T < S.prod % 2 ^ 64 →
        (Tensor.Tensor_shape S : Except TensorError (Tensor T)) = .error .LengthError) := by
  refine ⟨fun hne hcap => ?_, fun A hA => ?_, fun hne hlt => ?_⟩
  · have hN := NumElements_eq_prod S hne (le_trans hcap MaxSize.max_size_le)
    refine ⟨_, Tensor_shape_of_le S (by rw [hN]; exact hcap), ?_, fun x hx => ?_⟩
    · simp [Tensor.Size, hN]
    · exact List.eq_of_mem_replicate hx
  · obtain ⟨rfl, -⟩ := Tensor_shape_ok S A hA
    refine ⟨fun hne => ?_, fun x hx => List.eq_of_mem_replicate hx, fun hnil => ?_⟩
    · simp [Tensor.Size, NumElements_eq_mod S hne]
    · subst hnil
      rfl
  · exact Tensor_shape_of_lt S (by rw [NumElements_eq_mod S hne]; exact hlt)

/-- Witness for C14: `Tensor((2,3))` has six elements. -/
theorem Tensor_shape_contract_witness :
    ∃ A : Tensor Int, Tensor.Tensor_shape [2, 3] = .ok A ∧ A.Size = ([2, 3] : List Nat).prod ∧
      ∀ x ∈ A.data_, x = 0 :=
  (Tensor_shape_contract [2, 3]).1 (by decide) (by decide)

/-- Counterexamples to C14 as stated.  For the empty shape, whose product is
1, `Tensor(S)` has `Size() == 0`.  For `S = (2^32, 2^32)`, whose product is
`2^64`, `Tensor(S)` has `Size() == 0`: the count wraps.  For `S = (2^62,)` the
constructor throws: the count exceeds `max_size()`. -/
theorem Tensor_shape_contract_counterexample :
    ((Tensor.Tensor_shape [] : Except TensorError (Tensor Int)) = .ok ⟨[], [], []⟩ ∧
      (⟨[], [], []⟩ : Tensor Int).Size = 0 ∧ ([] : List Nat).prod = 1) ∧
    ((Tensor.Tensor_shape [2 ^ 32, 2 ^ 32] : Except TensorError (Tensor Int)) =
        .ok ⟨[], [2 ^ 32, 2 ^ 32], [2 ^ 32, 1]⟩ ∧
      (⟨[], [2 ^ 32, 2 ^ 32], [2 ^ 32, 1]⟩ : Tensor Int).Size = 0 ∧
      ([2 ^ 32, 2 ^ 32] : List Nat).prod = 2 ^ 64) ∧
    (Tensor.Tensor_shape [2 ^ 62] : Except TensorError (Tensor Int)) = .error .LengthError :=
  ⟨⟨rfl, rfl, rfl⟩, ⟨rfl, rfl, by decide⟩, rfl⟩

/-! ## Claim C16 -/

/-- C11 (as amended): for every two tensors whose ranks are each 1 or 2, `dot`
throws `DimensionMismatch` exactly when the last size of the left operand
differs from the first size of the right operand; when the two sizes agree, the
operands are constructed, their element counts are at most `SIZE_MAX` and the
element count of the result is at most `max_size()`, `dot` succeeds with the
tabulated result shape; shapes `(2,3)` and `(2,2)` fail. -/
theorem dot_dimension_mismatch {T : Type} [Zero T] [MaxSize T] [Add T] [Mul T] (A B : Tensor T)
    (hrA : A.NDim = 1 ∨ A.NDim = 2) (hrB : B.NDim = 1 ∨ B.NDim = 2) :
    (Tensor.dot A B = .error .DimensionMismatch ↔
        A.shape_.getD (A.NDim - 1) 0 ≠ B.shape_.getD 0 0) ∧
      (Constructed A → Constructed B →
        A.shape_.getD (A.NDim - 1) 0 = B.shape_.getD 0 0 →
        A.shape_.prod ≤ SIZE_MAX → B.shape_.prod ≤ SIZE_MAX →
        (dotShape A.shape_ B.shape_).prod ≤ MaxSize.max_size T →
        ∃ out, Tensor.dot A B = .ok out ∧ out.shape_ = dotShape A.shape_ B.shape_) ∧
      (Tensor.Tensor_shape_data [2, 3] ([1, 2, 3, 4, 5, 6] : List Int) >>= fun a =>
        Tensor.Tensor_shape_data [2, 2] ([1, 2, 3, 4] : List Int) >>= fun b =>
          Tensor.dot a b) = .error .DimensionMismatch :=
  ⟨⟨dot_mismatch_of_error A B hrA hrB, dot_mismatch A B hrA hrB⟩,
    fun hA hB h hbA hbB hcap => dot_match A B hA hB hrA hrB h hbA hbB hcap, rfl⟩

/-- Witness for C11: a 2x3 matrix against a 2x2 matrix fails, against a 3x2
matrix succeeds. -/
theorem dot_dimension_mismatch_witness :
    (Tensor.dot (⟨[1, 2, 3, 4, 5, 6], [2, 3], [3, 1]⟩ : Tensor Int)
        ⟨[1, 2, 3, 4], [2, 2], [2, 1]⟩ = .error .DimensionMismatch ↔
      ([2, 3] : List Nat).getD (2 - 1) 0 ≠ ([2, 2] : List Nat).getD 0 0) ∧
    ∃ out, Tensor.dot (⟨[1, 2, 3, 4, 5, 6], [2, 3], [3, 1]⟩ : Tensor Int)
        ⟨[7, 8, 9, 10, 11, 12], [3, 2], [2, 1]⟩ = .ok out ∧ out.shape_ = [2, 2] :=
  ⟨(dot_dimension_mismatch (⟨[1, 2, 3, 4, 5, 6], [2, 3], [3, 1]⟩ : Tensor Int)
      ⟨[1, 2, 3, 4], [2, 2], [2, 1]⟩ (Or.inr rfl) (Or.inr rfl)).1,
    (dot_dimension_mismatch (⟨[1, 2, 3, 4, 5, 6], [2, 3], [3, 1]⟩ : Tensor Int)
      ⟨[7, 8, 9, 10, 11, 12], [3, 2], [2, 1]⟩ (Or.inr rfl) (Or.inr rfl)).2.1
      (Or.inr ⟨[2, 3], [1, 2, 3, 4, 5, 6], by decide, by decide, rfl⟩)
      (Or.inr ⟨[3, 2], [7, 8, 9, 10, 11, 12], by decide, by decide, rfl⟩)
      rfl (by decide) (by decide) (by decide)⟩

/-- Counterexamples to C11 as stated: ranks 1 or 2, contracted sizes that
agree, operands that `Tensor(shape)` builds, and `dot` does not succeed.  For
shapes `(2^33, 2^31)` and `(2^31, 0)` the left buffer is empty (its count
`2^64` wraps to 0) and the first subscript of the loops is outside it.  For
shapes `(2^63, 0)` and `(0, 3)` the output `Tensor({2^63, 3})` exceeds
`max_size()` and the call throws `LengthError`. -/
theorem dot_dimension_mismatch_counterexample :
    ((Tensor.Tensor_shape [2 ^ 33, 2 ^ 31] : Except TensorError (Tensor Int)) =
        .ok ⟨[], [2 ^ 33, 2 ^ 31], [2 ^ 31, 1]⟩ ∧
      (Tensor.Tensor_shape [2 ^ 31, 0] : Except TensorError (Tensor Int)) =
        .ok ⟨[], [2 ^ 31, 0], [0, 1]⟩ ∧
      ([2 ^ 33, 2 ^ 31] : List Nat).getD (2 - 1) 0 = ([2 ^ 31, 0] : List Nat).getD 0 0 ∧
      Tensor.dot (⟨[], [2 ^ 33, 2 ^ 31], [2 ^ 31, 1]⟩ : Tensor Int) ⟨[], [2 ^ 31, 0], [0, 1]⟩ =
        .error .OutOfRange) ∧
    ((Tensor.Tensor_shape [2 ^ 63, 0] : Except TensorError (Tensor Int)) =
        .ok ⟨[], [2 ^ 63, 0], [0, 1]⟩ ∧
      (Tensor.Tensor_shape [0, 3] : Except TensorError (Tensor Int)) =
        .ok ⟨[], [0, 3], [3, 1]⟩ ∧
      ([2 ^ 63, 0] : List Nat).getD (2 - 1) 0 = ([0, 3] : List Nat).getD 0 0 ∧
      Tensor.dot (⟨[], [2 ^ 63, 0], [0, 1]⟩ : Tensor Int) ⟨[], [0, 3], [3, 1]⟩ =
        .error .LengthError) :=
  ⟨⟨rfl, rfl, rfl, dot22_left_empty _ _ (2 ^ 33) (2 ^ 31) 0 rfl rfl (by decide) (by decide) rfl
      ⟨[], [2 ^ 33, 0], [0, 1]⟩ (by rfl)⟩,
    ⟨rfl, rfl, rfl, rfl⟩⟩

/-! ## Claim C12 -/

/-- C12: for every two tensors, `dot` throws `UnsupportedRank` exactly when
the pair (left rank, right rank) is none of `(1,1)`, `(2,2)`, `(2,1)`, `(1,2)`,
whatever the sizes are (no size is compared first); two rank-3 tensors fail so,
and so does a rank-0 operand. -/
theorem dot_unsupported_rank {T : Type} [Zero T] [MaxSize T] [Add T] [Mul T] (A B : Tensor T) :
    (Tensor.dot A B = .error .UnsupportedRank ↔
        ¬ ((A.NDim = 1 ∧ B.NDim = 1) ∨ (A.NDim = 2 ∧ B.NDim = 2) ∨
          (A.NDim = 2 ∧ B.NDim = 1) ∨ (A.NDim = 1 ∧ B.NDim = 2))) ∧
      ((Tensor.Tensor_shape [2, 2, 2] : Except TensorError (Tensor Int)) >>= fun a =>
        (Tensor.Tensor_shape [2, 2, 2] : Except TensorError (Tensor Int)) >>= fun b =>
          Tensor.dot a b) = .error .UnsupportedRank ∧
      ((Tensor.Tensor_shape [2, 3, 4] : Except TensorError (Tensor Int)) >>= fun a =>
        (Tensor.Tensor_shape [5, 6, 7] : Except TensorError (Tensor Int)) >>= fun b =>
          Tensor.dot a b) = .error .UnsupportedRank ∧
      ((Tensor.Tensor_shape [] : Except TensorError (Tensor Int)) >>= fun a =>
        (Tensor.Tensor_shape [3] : Except TensorError (Tensor Int)) >>= fun b =>
          Tensor.dot a b) = .error .UnsupportedRank := by
  refine ⟨⟨fun h hc => ?_, fun h => dot_unsupported A B (fun hc => h ?_)⟩, rfl, rfl, rfl⟩
  · rcases hc with ⟨hA, hB⟩ | ⟨hA, hB⟩ | ⟨hA, hB⟩ | ⟨hA, hB⟩
    · obtain ⟨K, hAs⟩ := shape_of_ndim_one A hA
      obtain ⟨K', hBs⟩ := shape_of_ndim_one B hB
      rw [dot_eq_dot11 A B K K' hAs hBs] at h
      rcases dot11_error_kind A B _ h with ⟨h', -⟩ | h' <;> cases h'
    · obtain ⟨M, K, hAs⟩ := shape_of_ndim_two A hA
      obtain ⟨K', N, hBs⟩ := shape_of_ndim_two B hB
      rw [dot_eq_dot22 A B M K K' N hAs hBs] at h
      rcases dot22_error_kind A B _ h with ⟨h', -⟩ | ⟨h', -⟩ | h' <;> cases h'
    · obtain ⟨M, K, hAs⟩ := shape_of_ndim_two A hA
      obtain ⟨K', hBs⟩ := shape_of_ndim_one B hB
      rw [dot_eq_dot21 A B M K K' hAs hBs] at h
      rcases dot21_error_kind A B _ h with ⟨h', -⟩ | ⟨h', -⟩ | h' <;> cases h'
    · obtain ⟨K, hAs⟩ := shape_of_ndim_one A hA
      obtain ⟨K', N, hBs⟩ := shape_of_ndim_two B hB
      rw [dot_eq_dot12 A B K K' N hAs hBs] at h
      rcases dot12_error_kind A B _ h with ⟨h', -⟩ | ⟨h', -⟩ | h' <;> cases h'
  · rcases hc with ⟨hA | hA, hB | hB⟩
    · exact Or.inl ⟨hA, hB⟩
    · exact Or.inr (Or.inr (Or.inr ⟨hA, hB⟩))
    · exact Or.inr (Or.inr (Or.inl ⟨hA, hB⟩))
    · exact Or.inr (Or.inl ⟨hA, hB⟩)

/-! ## What every operation returns -/

theorem forUpM_preserves {ε σ : Type} (Q : σ → Prop) (n : Nat) (body : Nat → σ → Except ε σ)
    (s t : σ) (hbody : ∀ i u u', body i u = .ok u' → Q u → Q u') (hs : Q s)
    (h : forUpM n body s = .ok t) : Q t := by
  induction n generalizing t with
  | zero =>
    simp only [forUpM] at h
    cases h
    exact hs
  | succ k ih =>
    simp only [forUpM] at h
    cases hk : forUpM k body s with
    | error e =>
      rw [hk] at h
      cases h
    | ok u =>
      rw [hk] at h
      exact hbody k u t h (ih u hk)

theorem rd_bind_ok {T σ : Type} (v : List T) (i : Nat) (f : T → Except TensorError σ) (r : σ)
    (h : (match rd v i with
          | .error e => .error e
          | .ok x => f x) = Except.ok r) : ∃ x, f x = .ok r := by
  cases hr : rd v i with
  | error e1 =>
    simp only [hr] at h
    cases h
  | ok x =>
    simp only [hr] at h
    exact ⟨x, h⟩

theorem wr_length {T : Type} (v v' : List T) (i : Nat) (x : T) (h : wr v i x = .ok v') :
    v'.length = v.length := by
  unfold wr at h
  split_ifs at h
  cases h
  simp

/-- The elementwise loops write into the output buffer without resizing it. -/
theorem applyBody_length {T : Type} (va vb : List T) (op : T → T → T) (ia ib o : Nat)
    (d d' : List T)
    (h : (match rd va ia with
          | .error e => .error e
          | .ok x =>
            match rd vb ib with
            | .error e => .error e
            | .ok y => wr d o (op x y)) = Except.ok d') : d'.length = d.length := by
  obtain ⟨x, hx⟩ := rd_bind_ok _ _ _ _ h
  obtain ⟨y, hy⟩ := rd_bind_ok _ _ _ _ hx
  exact wr_length _ _ _ _ hy

/-- Whatever the operands, a successful `ApplyOperation` returns a tensor with
row-major strides and a buffer of `NumElements()` elements. -/
theorem ApplyOperation_output {T : Type} [Zero T] [MaxSize T] (A B C : Tensor T)
    (op : T → T → T) (h : Tensor.ApplyOperation A B op = .ok C) :
    C.strides_ = Tensor.CalculateStrides C.shape_ ∧
      C.data_.length = Tensor.NumElements C.shape_ := by
  unfold Tensor.ApplyOperation at h
  split_ifs at h
  · unfold Tensor.ApplyOperationFast at h
    split at h
    · cases h
    · rename_i out hout
      obtain ⟨rfl, -⟩ := Tensor_shape_ok _ _ hout
      simp only at h
      split_ifs at h
      split at h
      · cases h
      · rename_i d hd
        cases h
        have hlen := forUpM_preserves
          (fun (u : List T) => u.length = Tensor.NumElements A.shape_)
          _ _ _ d (fun i u u' hb hu => (applyBody_length _ _ _ _ _ _ _ _ hb).trans hu)
          (by simp) hd
        exact ⟨rfl, hlen⟩
  · unfold Tensor.ApplyOperationGeneral at h
    split at h
    · cases h
    · rename_i out_shape hos
      split at h
      · cases h
      · rename_i out hout
        obtain ⟨rfl, -⟩ := Tensor_shape_ok _ _ hout
        simp only at h
        split at h
        · cases h
        · rename_i d hd
          cases h
          have hlen := forUpM_preserves
            (fun (u : List T) => u.length = Tensor.NumElements out_shape)
            _ _ _ d (fun i u u' hb hu => (applyBody_length _ _ _ _ _ _ _ _ hb).trans hu)
            (by simp) hd
          exact ⟨rfl, hlen⟩

/-- The loops of the 2D.2D branch write into the output buffer without
resizing it. -/
theorem dot22_loop_length {T : Type} [Add T] [Mul T] (va vb : List T) (M K N : Nat)
    (ia ib io : Nat → Nat → Nat) (s d : List T)
    (h : forUpM M
        (fun i d =>
          forUpM K
            (fun k d =>
              match rd va (ia i k) with
              | .error e => .error e
              | .ok a =>
                forUpM N
                  (fun j d =>
                    match rd vb (ib k j) with
                    | .error e => .error e
                    | .ok b =>
                      match rd d (io i j) with
                      | .error e => .error e
                      | .ok cur => wr d (io i j) (cur + a * b))
                  d)
            d)
        s = .ok d) : d.length = s.length := by
  refine forUpM_preserves (fun (u : List T) => u.length = s.length) _ _ _ d
    (fun i u u' hb hu => ?_) rfl h
  refine forUpM_preserves (fun (w : List T) => w.length = s.length) _ _ _ u'
    (fun k w w' hb2 hw => ?_) hu hb
  obtain ⟨a, ha⟩ := rd_bind_ok _ _ _ _ hb2
  refine forUpM_preserves (fun (z : List T) => z.length = s.length) _ _ _ w'
    (fun j z z' hb3 hz => ?_) hw ha
  obtain ⟨b, hb4⟩ := rd_bind_ok _ _ _ _ hb3
  obtain ⟨cur, hb5⟩ := rd_bind_ok _ _ _ _ hb4
  exact (wr_length _ _ _ _ hb5).trans hz

/-- The outer loop of the 2D.1D and 1D.2D branches writes into the output
buffer without resizing it. -/
theorem fill_loop_length {T : Type} (n : Nat) (g : Nat → Except TensorError T) (s d : List T)
    (h : forUpM n
        (fun i d =>
          match g i with
          | .error e => .error e
          | .ok acc => wr d i acc)
        s = .ok d) : d.length = s.length := by
  refine forUpM_preserves (fun (u : List T) => u.length = s.length) _ _ _ d
    (fun i u u' hb hu => ?_) rfl h
  split at hb
  · cases hb
  · exact (wr_length _ _ _ _ hb).trans hu

/-- Whatever the operands, a successful `dot` returns a tensor with a non-empty
shape, row-major strides and a buffer of `NumElements()` elements. -/
theorem dot_output {T : Type} [Zero T] [MaxSize T] [Add T] [Mul T] (A B C : Tensor T)
    (h : Tensor.dot A B = .ok C) :
    C.shape_ ≠ [] ∧ C.strides_ = Tensor.CalculateStrides C.shape_ ∧
      C.data_.length = Tensor.NumElements C.shape_ := by
  unfold Tensor.dot at h
  split_ifs at h
  · unfold Tensor.dot11 at h
    split_ifs at h
    split at h
    · cases h
    · obtain ⟨rfl, -, -⟩ := Tensor_shape_data_ok _ _ _ h
      exact ⟨by simp, rfl, rfl⟩
  · unfold Tensor.dot22 at h
    simp only at h
    split_ifs at h
    split at h
    · cases h
    · rename_i out hout
      obtain ⟨rfl, -⟩ := Tensor_shape_ok _ _ hout
      split at h
      · cases h
      · rename_i d hd
        cases h
        have hlen := dot22_loop_length _ _ _ _ _ _ _ _ _ d hd
        exact ⟨by simp, rfl, by simpa using hlen⟩
  · unfold Tensor.dot21 at h
    simp only at h
    split_ifs at h
    split at h
    · cases h
    · rename_i out hout
      obtain ⟨rfl, -⟩ := Tensor_shape_ok _ _ hout
      split at h
      · cases h
      · rename_i d hd
        cases h
        have hlen := fill_loop_length _ _ _ d hd
        exact ⟨by simp, rfl, by simpa using hlen⟩
  · unfold Tensor.dot12 at h
    simp only at h
    split_ifs at h
    split at h
    · cases h
    · rename_i out hout
      obtain ⟨rfl, -⟩ := Tensor_shape_ok _ _ hout
      split at h
      · cases h
      · rename_i d hd
        cases h
        have hlen := fill_loop_length _ _ _ d hd
        exact ⟨by simp, rfl, by simpa using hlen⟩

/-- What every produced tensor satisfies: row-major strides, a buffer of
`NumElements()` elements for a non-empty shape, of at most one element for the
empty shape. -/
theorem Produced_invariant {T : Type} [Zero T] [MaxSize T] [Add T] [Sub T] [Mul T] [Div T]
    (A : Tensor T) (h : Produced A) :
    A.strides_ = Tensor.CalculateStrides A.shape_ ∧
      (A.shape_ ≠ [] → A.data_.length = Tensor.NumElements A.shape_) ∧
      (A.shape_ = [] → A.data_.length ≤ 1) := by
  have hop : ∀ C : Tensor T, C.strides_ = Tensor.CalculateStrides C.shape_ ∧
      C.data_.length = Tensor.NumElements C.shape_ →
      C.strides_ = Tensor.CalculateStrides C.shape_ ∧
      (C.shape_ ≠ [] → C.data_.length = Tensor.NumElements C.shape_) ∧
      (C.shape_ = [] → C.data_.length ≤ 1) := by
    intro C ⟨hs, hl⟩
    refine ⟨hs, fun _ => hl, fun hnil => ?_⟩
    rw [hl, hnil, NumElements_nil]
    exact Nat.zero_le 1
  induction h with
  | ctor A hA =>
    obtain ⟨h1, h2, h3, -, -⟩ := Constructed_facts A hA
    exact ⟨h1, h2, h3⟩
  | add A B C _ _ hC _ _ => exact hop C (ApplyOperation_output A B C _ hC)
  | sub A B C _ _ hC _ _ => exact hop C (ApplyOperation_output A B C _ hC)
  | mul A B C _ _ hC _ _ => exact hop C (ApplyOperation_output A B C _ hC)
  | div A B C _ _ hC _ _ => exact hop C (ApplyOperation_output A B C _ hC)
  | dot A B C _ _ hC _ _ => exact hop C (dot_output A B C hC).2

/-! ## Claim C17 -/

/-- C17 (as amended): every tensor produced by a successful constructor call,
or by a successful elementwise operator or `dot` on produced tensors, has
`len(strides) == len(shape)`; when its shape is non-empty, `len(data)` is
`product(shape)` modulo `2^64`, hence `product(shape)` when that product is at
most `SIZE_MAX`; and when its shape is empty, `len(data)` is 0 or 1. -/
theorem buffer_length_invariant {T : Type} [Zero T] [MaxSize T] [Add T] [Sub T] [Mul T]
    [Div T] (A : Tensor T) (h : Produced A) :
    A.strides_.length = A.shape_.length ∧
      (A.shape_ ≠ [] → A.data_.length = A.shape_.prod % 2 ^ 64) ∧
      (A.shape_ ≠ [] → A.shape_.prod ≤ SIZE_MAX → A.data_.length = A.shape_.prod) ∧
      (A.shape_ = [] → A.data_.length = 0 ∨ A.data_.length = 1) := by
  obtain ⟨hs, h1, h2⟩ := Produced_invariant A h
  refine ⟨by rw [hs, CalculateStrides_length], fun hne => ?_, fun hne hb => ?_, fun hnil => ?_⟩
  · rw [h1 hne, NumElements_eq_mod _ hne]
  · rw [h1 hne, NumElements_eq_prod _ hne hb]
  · have := h2 hnil
    omega

/-- Witness for C17: the sum `[[1,2,3],[4,5,6]] + [10,20,30]` of two
constructed tensors. -/
theorem buffer_length_invariant_witness :
    ([3, 1] : List Nat).length = ([2, 3] : List Nat).length ∧
      ([11, 22, 33, 14, 25, 36] : List Int).length = ([2, 3] : List Nat).prod :=
  ⟨(buffer_length_invariant (⟨[11, 22, 33, 14, 25, 36], [2, 3], [3, 1]⟩ : Tensor Int)
      (Produced.add ⟨[1, 2, 3, 4, 5, 6], [2, 3], [3, 1]⟩ ⟨[10, 20, 30], [3], [1]⟩ _
        (Produced.ctor _ (Or.inr ⟨[2, 3], [1, 2, 3, 4, 5, 6], by decide, by decide, rfl⟩))
        (Produced.ctor _ (Or.inr ⟨[3], [10, 20, 30], by decide, by decide, rfl⟩)) rfl)).1,
    (buffer_length_invariant (⟨[11, 22, 33, 14, 25, 36], [2, 3], [3, 1]⟩ : Tensor Int)
      (Produced.add ⟨[1, 2, 3, 4, 5, 6], [2, 3], [3, 1]⟩ ⟨[10, 20, 30], [3], [1]⟩ _
        (Produced.ctor _ (Or.inr ⟨[2, 3], [1, 2, 3, 4, 5, 6], by decide, by decide, rfl⟩))
        (Produced.ctor _ (Or.inr ⟨[3], [10, 20, 30], by decide, by decide, rfl⟩)) rfl)).2.2.1
      (by decide) (by decide)⟩

/-- Counterexamples to C17 as stated: `Tensor({2^63+1, 2}, {1, 2})` and
`Tensor({2^32, 2^32})` are successful constructor calls on `size_t` sizes, their
shapes are non-empty, and their buffers hold 2 and 0 elements while the products
of their shapes are `2^64 + 2` and `2^64`. -/
theorem buffer_length_invariant_counterexample :
    (Produced (⟨[1, 2], [2 ^ 63 + 1, 2], [2, 1]⟩ : Tensor Int) ∧
      ([2 ^ 63 + 1, 2] : List Nat) ≠ [] ∧
      ([1, 2] : List Int).length ≠ ([2 ^ 63 + 1, 2] : List Nat).prod) ∧
    (Produced (⟨[], [2 ^ 32, 2 ^ 32], [2 ^ 32, 1]⟩ : Tensor Int) ∧
      ([2 ^ 32, 2 ^ 32] : List Nat) ≠ [] ∧
      ([] : List Int).length ≠ ([2 ^ 32, 2 ^ 32] : List Nat).prod) :=
  ⟨⟨Produced.ctor _ (Or.inr ⟨[2 ^ 63 + 1, 2], [1, 2], by decide, by decide, by rfl⟩),
      by decide, by decide⟩,
    ⟨Produced.ctor _ (Or.inl ⟨[2 ^ 32, 2 ^ 32], by decide, by rfl⟩), by decide, by decide⟩⟩

/-! ## Claim C15 -/

/-- C15 (as amended): for every tensor `A` the public constructors can build,
other than the empty shape holding a single scalar value, over a type where
`x + T() = x`, `Tensor(A.Shape())` succeeds and `A + Tensor(A.Shape())`
succeeds and returns `A` itself: `A`'s shape, and `A`'s element at every
index. -/
theorem additive_identity {T : Type} [AddZeroClass T] [MaxSize T] (A : Tensor T)
    (hA : Constructed A) (hne : ¬ (A.shape_ = [] ∧ A.data_.length = 1)) :
    (Tensor.Tensor_shape A.Shape >>= fun Z => Tensor.add A Z) = .ok A := by
  obtain ⟨hs, h1, h2, -, -⟩ := Constructed_facts A hA
  have hcap := Constructed_cap A hA
  have hdA : A.data_.length = Tensor.NumElements A.shape_ := by
    by_cases hnil : A.shape_ = []
    · have := h2 hnil
      have h3 : A.data_.length ≠ 1 := fun h => hne ⟨hnil, h⟩
      rw [hnil, NumElements_nil]
      omega
    · exact h1 hnil
  obtain ⟨d, hd, hlen, hget⟩ := ApplyOperationFast_spec A
    ⟨List.replicate (Tensor.NumElements A.shape_) 0, A.shape_, Tensor.CalculateStrides A.shape_⟩
    (fun x y => x + y) hdA (by simp) hcap
  have hAd : d = A.data_ := by
    apply List.ext_getElem?
    intro i
    by_cases hi : i < Tensor.NumElements A.shape_
    · obtain ⟨x, y, hx, hy, hxy⟩ := hget i hi
      simp only at hy
      rw [List.getElem?_replicate_of_lt hi] at hy
      cases hy
      rw [hxy, hx, add_zero]
    · rw [List.getElem?_eq_none (by omega), List.getElem?_eq_none (by omega)]
  rw [Tensor.Shape, Tensor_shape_of_le _ hcap]
  show Tensor.add A _ = .ok A
  rw [Tensor.add, Tensor.ApplyOperation, if_pos rfl, hd, hAd, ← hs]

/-- Witness for C15: `[[1,2,3],[4,5,6]] + Tensor((2,3))`. -/
theorem additive_identity_witness :
    (Tensor.Tensor_shape (⟨[1, 2, 3, 4, 5, 6], [2, 3], [3, 1]⟩ : Tensor Int).Shape >>= fun Z =>
      Tensor.add (⟨[1, 2, 3, 4, 5, 6], [2, 3], [3, 1]⟩ : Tensor Int) Z) =
        .ok ⟨[1, 2, 3, 4, 5, 6], [2, 3], [3, 1]⟩ :=
  additive_identity (⟨[1, 2, 3, 4, 5, 6], [2, 3], [3, 1]⟩ : Tensor Int)
    (Or.inr ⟨[2, 3], [1, 2, 3, 4, 5, 6], by decide, by decide, rfl⟩) (by decide)

/-- Counterexample to C15 as stated: for the empty shape holding the single
value 7, `Tensor(A.Shape())` has no element and `A + Tensor(A.Shape())` throws
`SizeMismatch`. -/
theorem additive_identity_counterexample :
    Tensor.Tensor_shape_data [] [7] = .ok (⟨[7], [], []⟩ : Tensor Int) ∧
      (Tensor.Tensor_shape (⟨[7], [], []⟩ : Tensor Int).Shape :
        Except TensorError (Tensor Int)) = .ok ⟨[], [], []⟩ ∧
      (Tensor.Tensor_shape (⟨[7], [], []⟩ : Tensor Int).Shape >>= fun Z =>
        Tensor.add (⟨[7], [], []⟩ : Tensor Int) Z) = .error .SizeMismatch :=
  ⟨rfl, rfl, rfl⟩

/-! ## Claims C18 and C19: runs that break them -/

/-- C18, failing input: two tensors `Tensor((), {7})` and `Tensor((), {5})`
come from successful constructor calls and have identical shapes, and the fast
path throws `SizeMismatch` on them: its output `Tensor(())` has no element. -/
theorem SizeMismatch_reached :
    Tensor.Tensor_shape_data [] [7] = .ok (⟨[7], [], []⟩ : Tensor Int) ∧
      Tensor.Tensor_shape_data [] [5] = .ok (⟨[5], [], []⟩ : Tensor Int) ∧
      (⟨[7], [], []⟩ : Tensor Int).shape_ = (⟨[5], [], []⟩ : Tensor Int).shape_ ∧
      (Tensor.Tensor_shape [] : Except TensorError (Tensor Int)) = .ok ⟨[], [], []⟩ ∧
      (⟨[], [], []⟩ : Tensor Int).data_.length = 0 ∧
      Tensor.ApplyOperationFast (⟨[7], [], []⟩ : Tensor Int) ⟨[5], [], []⟩ (fun x y => x + y) =
        .error .SizeMismatch ∧
      Tensor.add (⟨[7], [], []⟩ : Tensor Int) ⟨[5], [], []⟩ = .error .SizeMismatch :=
  ⟨rfl, rfl, rfl, rfl, rfl, rfl, rfl⟩

/-- C19, failing input: `Tensor((0,))` and `Tensor((1,), {5})` are constructed,
their shapes differ and are compatible; the resolver returns `(1,)`, so the
general loop runs for flat index 0, computes `offset_a = 0`, and subscripts the
empty buffer of the first operand. -/
theorem general_path_reads_out_of_range :
    (Tensor.Tensor_shape [0] : Except TensorError (Tensor Int)) = .ok ⟨[], [0], [1]⟩ ∧
      Tensor.Tensor_shape_data [1] [5] = .ok (⟨[5], [1], [1]⟩ : Tensor Int) ∧
      ([0] : List Nat) ≠ [1] ∧
      Tensor.BroadcastShapesImpl [0] [1] = .ok [1] ∧
      Tensor.NumElements [1] = 1 ∧
      (Tensor.decodeOffsets 1 (Tensor.multipliers [1]) (Tensor.alignLoop 1 [0] [1]).1
        (Tensor.alignLoop 1 [0] [1]).2 (Tensor.alignLoop 1 [1] [1]).1
        (Tensor.alignLoop 1 [1] [1]).2 0).1 = 0 ∧
      ¬ (0 < (⟨[], [0], [1]⟩ : Tensor Int).data_.length) ∧
      Tensor.ApplyOperation (⟨[], [0], [1]⟩ : Tensor Int) ⟨[5], [1], [1]⟩ (fun x y => x + y) =
        .error .OutOfRange :=
  ⟨rfl, rfl, by decide, rfl, rfl, rfl, by decide, rfl⟩

/-! ## The CSV scanning loop -/

theorem scanLoop_cons (delim c : Char) (rest : List Char) (st : CSVLoader.ScanState) :
    CSVLoader.scanLoop delim (c :: rest) st =
      if c = '"' then
        if st.in_quotes then
          match rest with
          | [] => { st with in_quotes := !st.in_quotes }
          | c' :: rest' =>
            if c' = '"' then CSVLoader.scanLoop delim rest' { st with field := st.field.push '"' }
            else CSVLoader.scanLoop delim (c' :: rest') { st with in_quotes := !st.in_quotes }
        else CSVLoader.scanLoop delim rest { st with in_quotes := !st.in_quotes }
      else if c = delim ∧ st.in_quotes = false then
        CSVLoader.scanLoop delim rest { st with row := st.row ++ [st.field], field := "" }
      else if (c = '\n' ∨ c = '\r') ∧ st.in_quotes = false then
        if c = '\r' then
          match rest with
          | [] => { st with rows := st.rows ++ [st.row ++ [st.field]], row := [], field := "" }
          | c' :: rest' =>
            if c' = '\n' then
              CSVLoader.scanLoop delim rest'
                { st with rows := st.rows ++ [st.row ++ [st.field]], row := [], field := "" }
            else
              CSVLoader.scanLoop delim (c' :: rest')
                { st with rows := st.rows ++ [st.row ++ [st.field]], row := [], field := "" }
        else
          CSVLoader.scanLoop delim rest
            { st with rows := st.rows ++ [st.row ++ [st.field]], row := [], field := "" }
      else CSVLoader.scanLoop delim rest { st with field := st.field.push c } := by
  rw [CSVLoader.scanLoop.eq_def]

theorem endsQuoted_cons (q : Bool) (c : Char) (rest : List Char) :
    endsQuoted q (c :: rest) =
      if c = '"' then
        if q then
          match rest with
          | [] => false
          | c' :: rest' =>
            if c' = '"' then endsQuoted true rest' else endsQuoted false (c' :: rest')
        else endsQuoted true rest
      else endsQuoted q rest := by
  rw [endsQuoted.eq_def]

theorem scanLoop_nil (delim : Char) (st : CSVLoader.ScanState) : CSVLoader.scanLoop delim [] st = st := by
  rw [CSVLoader.scanLoop.eq_def]

theorem endsQuoted_nil (q : Bool) : endsQuoted q [] = q := by
  rw [endsQuoted.eq_def]

theorem scanLoop_in_quotes (delim : Char) : ∀ (content : List Char) (st : CSVLoader.ScanState),
    (CSVLoader.scanLoop delim content st).in_quotes = endsQuoted st.in_quotes content := by
  apply CSVLoader.scanLoop.induct delim
    (motive := fun content st =>
      (CSVLoader.scanLoop delim content st).in_quotes = endsQuoted st.in_quotes content)
  all_goals intros
  all_goals first
    | rw [scanLoop_nil, endsQuoted_nil]
    | (rw [scanLoop_cons, endsQuoted_cons]; simp_all; done)
    | (rw [scanLoop_cons, endsQuoted_cons]; simp_all [endsQuoted_nil]; done)
    | (rw [scanLoop_cons, endsQuoted_cons]; simp_all; rw [endsQuoted_cons]; simp)
    | (rw [scanLoop_cons, endsQuoted_cons]; split_ifs; simp_all)

theorem lineTerminators_nil (q : Bool) : lineTerminators q [] = 0 := by
  rw [lineTerminators.eq_def]

theorem lineTerminators_cons (q : Bool) (c : Char) (rest : List Char) :
    lineTerminators q (c :: rest) =
      if c = '"' then
        if q then
          match rest with
          | [] => 0
          | c' :: rest' =>
            if c' = '"' then lineTerminators true rest' else lineTerminators false (c' :: rest')
        else lineTerminators true rest
      else if q then lineTerminators true rest
      else if c = '\r' then
        match rest with
        | [] => 1
        | c' :: rest' =>
          if c' = '\n' then 1 + lineTerminators false rest'
          else 1 + lineTerminators false (c' :: rest')
      else if c = '\n' then 1 + lineTerminators false rest
      else lineTerminators false rest := by
  rw [lineTerminators.eq_def]

theorem scanLoop_rows_length (delim : Char) (hLF : delim ≠ '\n') (hCR : delim ≠ '\r') :
    ∀ (content : List Char) (st : CSVLoader.ScanState),
      (CSVLoader.scanLoop delim content st).rows.length =
        st.rows.length + lineTerminators st.in_quotes content := by
  apply CSVLoader.scanLoop.induct delim
    (motive := fun content st =>
      (CSVLoader.scanLoop delim content st).rows.length =
        st.rows.length + lineTerminators st.in_quotes content)
  all_goals intros
  all_goals first
    | rw [scanLoop_nil, lineTerminators_nil]; rfl
    | (rw [scanLoop_cons, lineTerminators_cons]; simp_all; done)
    | (rw [scanLoop_cons, lineTerminators_cons]; simp_all; omega)
    | (rw [scanLoop_cons, lineTerminators_cons]; split_ifs <;> simp_all)

theorem endsWithTerminator_cons (c : Char) (rest : List Char)
    (h : endsWithTerminator (c :: rest)) :
    (rest = [] ∧ (c = '\n' ∨ c = '\r')) ∨ endsWithTerminator rest := by
  cases rest with
  | nil =>
    left
    simpa [endsWithTerminator] using h
  | cons c' rest' =>
    right
    simpa [endsWithTerminator, List.getLast?_cons_cons] using h

theorem not_endsWithTerminator_nil : ¬ endsWithTerminator [] := by
  simp [endsWithTerminator]

theorem scanLoop_fresh_aux (delim : Char) (hLF : delim ≠ '\n') (hCR : delim ≠ '\r') :
    ∀ (n : Nat) (content : List Char) (st : CSVLoader.ScanState), content.length ≤ n →
      endsWithTerminator content → endsQuoted st.in_quotes content = false →
        (CSVLoader.scanLoop delim content st).row = [] ∧ (CSVLoader.scanLoop delim content st).field = "" := by
  intro n
  induction n with
  | zero =>
    intro content st hlen hl _
    cases content with
    | nil => exact absurd hl not_endsWithTerminator_nil
    | cons c rest => simp at hlen
  | succ n ih =>
    intro content st hlen hl hq
    cases content with
    | nil => exact absurd hl not_endsWithTerminator_nil
    | cons c rest =>
      have hrest : rest.length ≤ n := by simpa using hlen
      rw [scanLoop_cons]
      rw [endsQuoted_cons] at hq
      by_cases h1 : c = '"'
      · rw [if_pos h1] at hq ⊢
        subst h1
        cases rest with
        | nil =>
          rcases endsWithTerminator_cons _ _ hl with ⟨-, h | h⟩ | h
          · exact absurd h (by decide)
          · exact absurd h (by decide)
          · exact absurd h not_endsWithTerminator_nil
        | cons c' rest' =>
          have hl' : endsWithTerminator (c' :: rest') := by
            rcases endsWithTerminator_cons _ _ hl with ⟨h, -⟩ | h
            · cases h
            · exact h
          by_cases hst : st.in_quotes = true
          · rw [if_pos hst] at hq ⊢
            simp only at hq ⊢
            by_cases h2 : c' = '"'
            · rw [if_pos h2] at hq ⊢
              subst h2
              rcases endsWithTerminator_cons _ _ hl' with ⟨-, h | h⟩ | h
              · exact absurd h (by decide)
              · exact absurd h (by decide)
              · exact ih rest' _ (by simp at hrest; omega) h (by simpa [hst] using hq)
            · rw [if_neg h2] at hq ⊢
              exact ih (c' :: rest') _ hrest hl' (by simpa [hst] using hq)
          · rw [if_neg hst] at hq ⊢
            have hst' : st.in_quotes = false := by simpa using hst
            exact ih (c' :: rest') _ hrest hl' (by simpa [hst'] using hq)
      · rw [if_neg h1] at hq ⊢
        by_cases h2 : c = delim ∧ st.in_quotes = false
        · rw [if_pos h2]
          rcases endsWithTerminator_cons _ _ hl with ⟨-, h | h⟩ | h
          · exact absurd (h2.1.symm.trans h) hLF
          · exact absurd (h2.1.symm.trans h) hCR
          · exact ih rest _ hrest h hq
        · rw [if_neg h2]
          by_cases h3 : (c = '\n' ∨ c = '\r') ∧ st.in_quotes = false
          · rw [if_pos h3]
            have hq' : endsQuoted false rest = false := by rw [h3.2] at hq; exact hq
            by_cases h4 : c = '\r'
            · rw [if_pos h4]
              cases rest with
              | nil => exact ⟨rfl, rfl⟩
              | cons c' rest' =>
                have hl' : endsWithTerminator (c' :: rest') := by
                  rcases endsWithTerminator_cons _ _ hl with ⟨h, -⟩ | h
                  · cases h
                  · exact h
                simp only
                by_cases h5 : c' = '\n'
                · rw [if_pos h5]
                  subst h5
                  rw [endsQuoted_cons, if_neg (by decide)] at hq'
                  rcases endsWithTerminator_cons _ _ hl' with ⟨h, -⟩ | h
                  · subst h
                    rw [scanLoop_nil]
                    exact ⟨rfl, rfl⟩
                  · exact ih rest' _ (by simp at hrest; omega) h (by simp only [h3.2]; exact hq')
                · rw [if_neg h5]
                  exact ih (c' :: rest') _ hrest hl' (by simp only [h3.2]; exact hq')
            · rw [if_neg h4]
              rcases endsWithTerminator_cons _ _ hl with ⟨h, -⟩ | h
              · subst h
                rw [scanLoop_nil]
                exact ⟨rfl, rfl⟩
              · exact ih rest _ hrest h hq
          · rw [if_neg h3]
            rcases endsWithTerminator_cons _ _ hl with ⟨h, hc⟩ | h
            · subst h
              rw [endsQuoted_nil] at hq
              exact absurd ⟨hc, hq⟩ h3
            · exact ih rest _ hrest h hq

/-! ## Claim C21 -/

/-- Whatever the delimiter, `ParseCSVFile` on a readable file returns at least
one row or throws `UnterminatedQuote`: the final row always holds the final
field. -/
theorem ParseCSVFile_cases (content : List Char) (delim : Char) :
    (endsQuoted false content = false →
      CSVLoader.ParseCSVFile (some content) delim =
        .ok ((CSVLoader.scanLoop delim content ⟨[], [], "", false⟩).rows ++
          [(CSVLoader.scanLoop delim content ⟨[], [], "", false⟩).row ++
            [(CSVLoader.scanLoop delim content ⟨[], [], "", false⟩).field]])) ∧
      (endsQuoted false content = true →
        CSVLoader.ParseCSVFile (some content) delim = .error .UnterminatedQuote) := by
  have hq := scanLoop_in_quotes delim content ⟨[], [], "", false⟩
  simp only at hq
  constructor
  · intro h
    simp [CSVLoader.ParseCSVFile, hq, h]
  · intro h
    simp [CSVLoader.ParseCSVFile, hq, h]

/-- C21 (as amended): on a readable file `FromCSV` never returns `false`,
whatever the delimiter; and for every delimiter other than LF and CR and every
file content whose end is not inside an open quoted field, `ParseCSVFile`
returns exactly `1 + L` rows, `L` being the number of line terminators outside
quotes (CR immediately followed by LF counting once), so the row list is not
empty, and content that ends with a line terminator yields a last row made of
one empty field. -/
theorem ParseCSVFile_row_count (delim : Char) (content : List Char) :
    CSVLoader.FromCSV (some content) delim ≠ .ok false ∧
      (delim ≠ '\n' → delim ≠ '\r' → endsQuoted false content = false →
        ∃ rows, CSVLoader.ParseCSVFile (some content) delim = .ok rows ∧
          rows.length = 1 + lineTerminators false content ∧ rows ≠ [] ∧
          CSVLoader.FromCSV (some content) delim = .ok true ∧
          (endsWithTerminator content → rows.getLast? = some [""])) := by
  obtain ⟨hok, herr⟩ := ParseCSVFile_cases content delim
  constructor
  · cases hq : endsQuoted false content with
    | false => simp [CSVLoader.FromCSV, hok hq]
    | true => simp [CSVLoader.FromCSV, herr hq]
  · intro hLF hCR hq
    refine ⟨_, hok hq, ?_, by simp, by simp [CSVLoader.FromCSV, hok hq], fun hl => ?_⟩
    · rw [List.length_append, scanLoop_rows_length delim hLF hCR]
      simp only [List.length_nil, List.length_singleton, Nat.zero_add]
      omega
    · obtain ⟨hrow, hfield⟩ := scanLoop_fresh_aux delim hLF hCR content.length content
        ⟨[], [], "", false⟩ (le_refl _) hl hq
      rw [hrow, hfield]
      simp

/-- Witness for C21: a two-line file with a quoted field and a final CR LF. -/
theorem ParseCSVFile_row_count_witness :
    ∃ rows, CSVLoader.ParseCSVFile (some "a,\"b\n\"\nc\r\n".toList) ',' = .ok rows ∧
      rows.length = 1 + lineTerminators false "a,\"b\n\"\nc\r\n".toList ∧ rows ≠ [] ∧
      CSVLoader.FromCSV (some "a,\"b\n\"\nc\r\n".toList) ',' = .ok true ∧
      (endsWithTerminator "a,\"b\n\"\nc\r\n".toList → rows.getLast? = some [""]) :=
  (ParseCSVFile_row_count ',' "a,\"b\n\"\nc\r\n".toList).2 (by decide) (by decide) (by decide)

/-- Counterexamples to C21 as stated.  With LF as the delimiter, `a LF b` has
one line terminator outside quotes and gives one row, not two: the delimiter
test comes before the line-terminator test.  Likewise with CR as the
delimiter. -/
theorem ParseCSVFile_row_count_counterexample :
    (CSVLoader.ParseCSVFile (some "a\nb".toList) '\n' = .ok [["a", "b"]] ∧
      endsQuoted false "a\nb".toList = false ∧
      lineTerminators false "a\nb".toList = 1 ∧
      ([["a", "b"]] : List (List String)).length ≠ 1 + 1) ∧
    (CSVLoader.ParseCSVFile (some "a\rb".toList) '\r' = .ok [["a", "b"]] ∧
      endsQuoted false "a\rb".toList = false ∧
      lineTerminators false "a\rb".toList = 1) :=
  ⟨⟨rfl, by decide, by decide, by decide⟩, ⟨rfl, by decide, by decide⟩⟩

end NumCpp
